import Mathlib

/-!
# ComputeLibrary: reference convolution, kernel validation, scheduling and memory reuse

A shallow embedding of parts of the Compute Library sources, with the
properties of the specification proved over it.  C++ `int` values are
modelled as `Int` (no overflow occurs in the ranges the theorems consider),
`size_t`/`unsigned` values as `Nat`, pointers that may be null as `Option`.
-/

namespace ComputeLibrary

/-! ## Reference `convolution_layer` (tests/validation_new/CPP/ConvolutionLayer.cpp) -/

namespace Reference

/-- `pad_xi = std::min(static_cast<int>(info.pad().first), width_weights / 2)`. -/
def pad_xi (pad width_weights : Int) : Int :=
  min pad (Int.tdiv width_weights 2)

/-- `start_xi = width_weights / 2 - pad_xi`. -/
def start_xi (pad width_weights : Int) : Int :=
  Int.tdiv width_weights 2 - pad_xi pad width_weights

/-- `end_xi = width_in - start_xi`. -/
def end_xi (width_in pad width_weights : Int) : Int :=
  width_in - start_xi pad width_weights

/-- The loop `for(int xi = start_xi; xi < end_xi; xi += stride_xi)` of
`convolution_layer`, entered at `xi`; each visited position contributes its
output coordinate `xo = (xi - start_xi) / stride_xi` (C++ truncating division).
`none` means the fuel ran out before the loop condition became false. -/
def axis_loop : Nat → Int → Int → Int → Int → Option (List Int)
  | 0, _, _, _, _ => none
  | fuel + 1, xi, start, stop, stride =>
    if xi < stop then
      (axis_loop fuel (xi + stride) start stop stride).map
        (fun rest => Int.tdiv (xi - start) stride :: rest)
    else some []

/-- Output coordinates written along one spatial axis by `convolution_layer`
for an input extent `width_in`, kernel extent `width_weights`, and the
stride and padding of `PadStrideInfo` (unsigned in the source, cast to `int`). -/
def convolution_axis (fuel : Nat) (width_in width_weights stride pad : Nat) : Option (List Int) :=
  axis_loop fuel (start_xi pad width_weights) (start_xi pad width_weights)
    (end_xi width_in pad width_weights) stride

end Reference

/-! ## Tensor meta-data, windows and the helpers the kernels call -/

/-- Element data types of `arm_compute::DataType` used by the kernels below. -/
inductive DataType where
  | UNKNOWN | U8 | S8 | QS8 | QASYMM8 | U16 | S16 | QS16 | U32 | S32 | F16 | F32
  deriving DecidableEq, Repr, Inhabited

/-- Padding of a tensor, `PaddingSize` (top, right, bottom, left). -/
structure PaddingSize where
  top : Nat
  right : Nat
  bottom : Nat
  left : Nat
  deriving DecidableEq, Repr, Inhabited

/-- The rectangular valid region of a tensor, `ValidRegion(anchor, shape)`. -/
structure ValidRegion where
  anchor : List Int
  shape : List Nat
  deriving DecidableEq, Repr, Inhabited

/-- The meta-data of a tensor behind an `ITensorInfo *`. -/
structure TensorInfo where
  tensor_shape : List Nat
  num_channels : Nat
  data_type : DataType
  padding : PaddingSize
  valid_region : ValidRegion
  deriving DecidableEq, Repr, Inhabited

namespace TensorInfo

/-- `ITensorInfo::num_dimensions()`. -/
def num_dimensions (t : TensorInfo) : Nat := t.tensor_shape.length

/-- Modelled from the spec: `ITensorInfo::dimension(index)` and
`TensorShape::operator[]`, whose definitions are not among the sources; the
extent of the shape along an axis, where unspecified dimensions of a non-empty
shape have extent 1 and an empty shape has extent 0 everywhere. -/
def dimension (t : TensorInfo) (index : Nat) : Nat :=
  if t.tensor_shape.isEmpty then 0 else t.tensor_shape.getD index 1

end TensorInfo

/-- One dimension of a `Window`: `Window::Dimension(start, end, step)`. -/
structure Dimension where
  start : Int
  stop : Int
  step : Int
  deriving DecidableEq, Repr, Inhabited

/-- An iteration window, one `Dimension` per axis. -/
structure Window where
  dims : List Dimension
  deriving DecidableEq, Repr, Inhabited

/-- `Window::DimX`. -/
def Window.DimX : Nat := 0

/-- Addresses of `ITensorInfo` objects. -/
abbrev Ptr := Nat

/-- The `ITensorInfo` objects alive in memory, by address. -/
abbrev Heap := List TensorInfo

namespace Heap

/-- Dereference `p`. -/
def get (h : Heap) (p : Ptr) : TensorInfo := h.getD p default

/-- Store `v` through `p`. -/
def put (h : Heap) (p : Ptr) (v : TensorInfo) : Heap := h.set p v

/-- `p->clone()`: a fresh object holding a copy of `*p`; returns its address. -/
def clone (h : Heap) (p : Ptr) : Ptr × Heap := (h.length, h ++ [h.get p])

end Heap

/-- The shape of an access window (`AccessWindowHorizontal`,
`AccessWindowStatic`, `AccessWindowRectangle`), without the info it is over. -/
inductive AccessPattern where
  | horizontal (x : Int) (width : Nat)
  | static (start_x start_y end_x end_y : Int)
  | rectangle (x y : Int) (width height : Nat)
  deriving DecidableEq, Repr

/-- An access window: the `ITensorInfo *` it was constructed over and its pattern. -/
structure AccessWindow where
  info : Ptr
  pattern : AccessPattern
  deriving DecidableEq, Repr

/-- The helpers of `arm_compute/core/Helpers.h`, `Utils.h`, `Validate.h` and
the access-window classes that the kernels call and whose definitions are not
among the sources.  They are parameters of the model: an access window reads
the info it is over and the window, and `update_padding_if_needed` and
`set_valid_region` yield the new contents of that one info. -/
structure Helpers where
  calculate_max_window : TensorInfo → Nat → Window
  update_window_if_needed : AccessPattern → TensorInfo → Window → Bool × Window
  update_padding_if_needed : AccessPattern → TensorInfo → Window → TensorInfo
  set_valid_region : AccessPattern → TensorInfo → Window → ValidRegion → TensorInfo
  auto_init_if_empty : TensorInfo → TensorInfo → TensorInfo
  ceil_to_multiple : Nat → Nat → Nat
  invalid_subwindow : Window → Window → Bool

/-- First phase of `update_window_and_padding(win, patterns...)`: every access
window may shrink the window; the result says whether any of them did. -/
def update_window (H : Helpers) (heap : Heap) : Window → List AccessWindow → Bool × Window
  | win, [] => (false, win)
  | win, a :: rest =>
    let r := H.update_window_if_needed a.pattern (heap.get a.info) win
    let r' := update_window H heap r.2 rest
    (r.1 || r'.1, r'.2)

/-- Second phase of `update_window_and_padding`: every access window extends
the padding of the info it is over. -/
def update_padding (H : Helpers) (win : Window) : Heap → List AccessWindow → Heap
  | heap, [] => heap
  | heap, a :: rest =>
    update_padding H win
      (heap.put a.info (H.update_padding_if_needed a.pattern (heap.get a.info) win)) rest

/-- `update_window_and_padding(win, patterns...)`: returns `window_changed`,
the updated window, and memory after the padding updates. -/
def update_window_and_padding (H : Helpers) (heap : Heap) (win : Window)
    (patterns : List AccessWindow) : Bool × Window × Heap :=
  let r := update_window H heap win patterns
  (r.1, r.2, update_padding H r.2 heap patterns)

/-- A concrete choice of the helper parameters, on which the model can be
evaluated: the window never shrinks, horizontal access windows extend the
right padding to their width, an info with an empty shape counts as empty. -/
def Helpers.sample : Helpers where
  calculate_max_window t steps := ⟨[⟨0, t.dimension 0, steps⟩, ⟨0, t.dimension 1, 1⟩]⟩
  update_window_if_needed _ _ win := (false, win)
  update_padding_if_needed p t _ :=
    match p with
    | .horizontal _ width =>
      { t with padding := { t.padding with right := max t.padding.right width } }
    | _ => t
  set_valid_region _ t _ region := { t with valid_region := region }
  auto_init_if_empty info src := if info.tensor_shape.isEmpty then src else info
  ceil_to_multiple value divisor := (value + divisor - 1) / divisor * divisor
  invalid_subwindow full sub := full != sub

/-- A 32x4 single-channel tensor info of the given data type, without padding. -/
def TensorInfo.sample (dt : DataType) : TensorInfo :=
  { tensor_shape := [32, 4], num_channels := 1, data_type := dt,
    padding := ⟨0, 0, 0, 0⟩, valid_region := ⟨[], [32, 4]⟩ }

/-- Which check of a `validate` path produced the returned error: one
constructor per `ARM_COMPUTE_RETURN_ERROR_ON...` / `ARM_COMPUTE_CREATE_ERROR`
statement. -/
inductive Violation where
  | input_not_s32_1ch        -- RETURN_ERROR_ON_DATA_TYPE_CHANNEL_NOT_IN(input, 1, DataType::S32)
  | output_not_qasymm8_1ch   -- RETURN_ERROR_ON_DATA_TYPE_CHANNEL_NOT_IN(output, 1, DataType::QASYMM8)
  | mismatching_shapes       -- RETURN_ERROR_ON_MISMATCHING_SHAPES(input, output)
  | max_gt_255               -- RETURN_ERROR_ON(max > 255)
  | min_out_of_range         -- RETURN_ERROR_ON(min < 0 || min > max)
  | bias_data_type           -- RETURN_ERROR_ON_MISMATCHING_DATA_TYPES(input, bias)
  | bias_num_dimensions      -- RETURN_ERROR_ON(bias->num_dimensions() > 1)
  | bias_dimension0          -- RETURN_ERROR_ON(input->dimension(0) != bias->dimension(0))
  | insufficient_padding     -- CREATE_ERROR(ErrorCode::RUNTIME_ERROR, "Insufficient Padding!")
  | input0_not_qasymm8_1ch   -- RETURN_ERROR_ON_DATA_TYPE_CHANNEL_NOT_IN(input0, 1, DataType::QASYMM8)
  | output_not_s32_1ch       -- RETURN_ERROR_ON_DATA_TYPE_CHANNEL_NOT_IN(output, 1, DataType::S32)
  | input1_nullptr           -- RETURN_ERROR_ON_NULLPTR(input1)
  | input1_data_type         -- RETURN_ERROR_ON_MISMATCHING_DATA_TYPES(input0, input1)
  deriving DecidableEq, Repr

/-- The returned `Error` object: `Error{}` is `ok`, otherwise a
`RUNTIME_ERROR` describing the violated check. -/
inductive Error where
  | ok
  | runtime_error (description : Violation)
  deriving DecidableEq, Repr

/-- Modelled from the spec: the condition of
`ARM_COMPUTE_RETURN_ERROR_ON_DATA_TYPE_CHANNEL_NOT_IN(t, channels, dt)`, a macro
of `arm_compute/core/Validate.h` that is not among the sources, read off its
name and arguments: the check fails unless `t` has data type `dt` and
`channels` channels. -/
def data_type_channel_not_in (t : TensorInfo) (channels : Nat) (dt : DataType) : Bool :=
  t.data_type != dt || t.num_channels != channels

/-- Modelled from the spec: the condition of
`ARM_COMPUTE_RETURN_ERROR_ON_MISMATCHING_SHAPES(a, b)` (`Validate.h`, not among
the sources), read off its name: the extents differ along some axis. -/
def mismatching_shapes (a b : TensorInfo) : Bool :=
  (List.range 6).any (fun i => a.dimension i != b.dimension i)

/-- Modelled from the spec: the condition of
`ARM_COMPUTE_RETURN_ERROR_ON_MISMATCHING_DATA_TYPES(a, b)` (`Validate.h`, not
among the sources), read off its name: the data types differ. -/
def mismatching_data_types (a b : TensorInfo) : Bool :=
  a.data_type != b.data_type

/-- Fatal conditions raised by the `ARM_COMPUTE_ERROR_ON...` assertions and by
`ARM_COMPUTE_ERROR_THROW_ON`. -/
inductive Fatal where
  | nullptr
  | unconfigured_kernel
  | invalid_subwindow
  | thrown (description : Violation)
  | assertion
  deriving DecidableEq, Repr

/-! ## NEGEMMLowpQuantizeDownInt32ToUint8ScaleByFixedPointKernel -/

namespace NEGEMMLowpQuantizeDownInt32ToUint8ScaleByFixedPointKernel

/-- `validate_arguments(input, bias, output, min, max)`; `bias` may be null. -/
def validate_arguments (input : TensorInfo) (bias : Option TensorInfo) (output : TensorInfo)
    (min max : Int) : Error :=
  if data_type_channel_not_in input 1 DataType.S32 then .runtime_error .input_not_s32_1ch
  else if data_type_channel_not_in output 1 DataType.QASYMM8 then
    .runtime_error .output_not_qasymm8_1ch
  else if mismatching_shapes input output then .runtime_error .mismatching_shapes
  else if max > 255 then .runtime_error .max_gt_255
  else if min < 0 || min > max then .runtime_error .min_out_of_range
  else
    match bias with
    | some bias =>
      if mismatching_data_types input bias then .runtime_error .bias_data_type
      else if bias.num_dimensions > 1 then .runtime_error .bias_num_dimensions
      else if input.dimension 0 != bias.dimension 0 then .runtime_error .bias_dimension0
      else .ok
    | none => .ok

/-- The checks of `validate_arguments` in the order they are written, each
with its condition for failing; the bias checks exist only for a non-null bias. -/
def validate_arguments_checks (input : TensorInfo) (bias : Option TensorInfo)
    (output : TensorInfo) (min max : Int) : List (Bool × Violation) :=
  [ (data_type_channel_not_in input 1 DataType.S32, .input_not_s32_1ch),
    (data_type_channel_not_in output 1 DataType.QASYMM8, .output_not_qasymm8_1ch),
    (mismatching_shapes input output, .mismatching_shapes),
    (decide (max > 255), .max_gt_255),
    (decide (min < 0) || decide (min > max), .min_out_of_range) ]
  ++ match bias with
     | some bias =>
       [ (mismatching_data_types input bias, .bias_data_type),
         (decide (bias.num_dimensions > 1), .bias_num_dimensions),
         (input.dimension 0 != bias.dimension 0, .bias_dimension0) ]
     | none => []

/-- The error describing the first violated check of a list, `ok` if none is violated. -/
def first_violated : List (Bool × Violation) → Error
  | [] => .ok
  | (failed, v) :: rest => if failed then .runtime_error v else first_violated rest

/-- `validate_and_configure_window(input, bias, output)`: the error, the
window, and memory after the padding and valid-region updates. -/
def validate_and_configure_window (H : Helpers) (heap : Heap) (input : Ptr) (bias : Option Ptr)
    (output : Ptr) : (Error × Window) × Heap :=
  let num_elems_processed_per_iteration : Nat := 16
  let win := H.calculate_max_window (heap.get output) num_elems_processed_per_iteration
  let input_access : AccessWindow := ⟨input, .horizontal 0 num_elems_processed_per_iteration⟩
  let output_result_access : AccessWindow :=
    ⟨output, .horizontal 0 num_elems_processed_per_iteration⟩
  let r := update_window_and_padding H heap win [input_access, output_result_access]
  let r' : Bool × Window × Heap :=
    match bias with
    | some bias =>
      let bias_access : AccessWindow :=
        ⟨bias, .static 0 0
          (H.ceil_to_multiple ((r.2.2.get bias).dimension 0) num_elems_processed_per_iteration)
          ((r.2.2.get bias).dimension 1)⟩
      -- `window_changed || update_window_and_padding(win, bias_access)` short-circuits
      if r.1 then r else update_window_and_padding H r.2.2 r.2.1 [bias_access]
    | none => r
  let heap' := r'.2.2.put output
    (H.set_valid_region output_result_access.pattern (r'.2.2.get output) r'.2.1
      ⟨[], (r'.2.2.get output).tensor_shape⟩)
  let err := if r'.1 then Error.runtime_error .insufficient_padding else Error.ok
  ((err, r'.2.1), heap')

/-- `validate(input, bias, output, min, max)` (static): the returned error and
memory afterwards.  The clones are temporaries, destroyed when the full
expression that created them ends. -/
def validate (H : Helpers) (heap : Heap) (input : Ptr) (bias : Option Ptr) (output : Ptr)
    (min max : Int) : Error × Heap :=
  match validate_arguments (heap.get input) (bias.map heap.get) (heap.get output) min max with
  | .runtime_error d => (.runtime_error d, heap)
  | .ok =>
    let ci := heap.clone input
    let cb : Option Ptr × Heap :=
      match bias with
      | some bias => let c := Heap.clone ci.2 bias; (some c.1, c.2)
      | none => (none, ci.2)
    let co := Heap.clone cb.2 output
    let r := validate_and_configure_window H co.2 ci.1 cb.1 co.1
    let heap' := r.2.take heap.length
    match r.1.1 with
    | .runtime_error d => (.runtime_error d, heap')
    | .ok => (.ok, heap')

/-- The members of the kernel object; `_func` is `none` for `nullptr` and
`some b` for `&run<b>`, `_window` is the window of `IKernel`, unset until
`INEKernel::configure`. -/
structure Kernel where
  _func : Option Bool
  _input : Option Ptr
  _bias : Option Ptr
  _output : Option Ptr
  _result_fixedpoint_multiplier : Int
  _result_shift : Int
  _result_offset_after_shift : Int
  _min : Int
  _max : Int
  _window : Option Window
  deriving DecidableEq, Repr

/-- The constructor `NEGEMMLowpQuantizeDownInt32ToUint8ScaleByFixedPointKernel()`. -/
def Kernel.new : Kernel :=
  { _func := none, _input := none, _bias := none, _output := none,
    _result_fixedpoint_multiplier := 0, _result_shift := 0, _result_offset_after_shift := 0,
    _min := 0, _max := 0, _window := none }

/-- `configure(input, bias, output, result_fixedpoint_multiplier, result_shift,
result_offset_after_shift, min, max)`; tensors are given by the address of
their info.  A fatal error leaves no usable kernel. -/
def configure (H : Helpers) (heap : Heap) (k : Kernel) (input bias output : Option Ptr)
    (result_fixedpoint_multiplier result_shift result_offset_after_shift min max : Int) :
    Except Fatal (Kernel × Heap) :=
  match input, output with
  | some input, some output =>
    let heap1 := heap.put output
      (H.auto_init_if_empty (heap.get output)
        { heap.get input with data_type := DataType.QASYMM8 })
    match validate_arguments (heap1.get input) (bias.map heap1.get) (heap1.get output) min max with
    | .runtime_error d => .error (.thrown d)
    | .ok =>
      let k1 : Kernel :=
        { k with _input := some input, _bias := bias, _output := some output,
                 _result_fixedpoint_multiplier := result_fixedpoint_multiplier,
                 _result_shift := result_shift,
                 _result_offset_after_shift := result_offset_after_shift,
                 _min := min, _max := max }
      let win_config := validate_and_configure_window H heap1 input bias output
      match win_config.1.1 with
      | .runtime_error d => .error (.thrown d)
      | .ok =>
        let k2 : Kernel := { k1 with _window := some win_config.1.2 }
        let is_bounded_relu : Bool := (min != max) && !(min == 0 && max == 255)
        .ok ({ k2 with _func := some is_bounded_relu }, win_config.2)
  | _, _ => .error .nullptr

/-- What a call of `run(window, info)` does. -/
inductive RunOutcome where
  | fatal (e : Fatal)
  | null_call
  | dispatched (is_bounded_relu : Bool) (window : Window)
  deriving DecidableEq, Repr

/-- Modelled from the spec: `ARM_COMPUTE_ERROR_ON_UNCONFIGURED_KERNEL(k)` of
`arm_compute/core/Validate.h`, which is not among the sources; calling `run()`
before `configure()` is a fatal usage error that is reported. -/
def error_on_unconfigured_kernel (k : Kernel) : Bool := k._window.isNone

/-- `run(window, info)`: the two assertions, then `(this->*_func)(window)`. -/
def run (H : Helpers) (k : Kernel) (window : Window) : RunOutcome :=
  if error_on_unconfigured_kernel k then .fatal .unconfigured_kernel
  else if H.invalid_subwindow (k._window.getD default) window then .fatal .invalid_subwindow
  else
    match k._func with
    | none => .null_call
    | some b => .dispatched b window

end NEGEMMLowpQuantizeDownInt32ToUint8ScaleByFixedPointKernel

/-! ## NEGEMMLowpAArch64V8P4Kernel -/

namespace NEGEMMLowpAArch64V8P4Kernel

/-- `validate_arguments(input0, input1, output)`; `input1` may be null. -/
def validate_arguments (input0 : TensorInfo) (input1 : Option TensorInfo) (output : TensorInfo) :
    Error :=
  if data_type_channel_not_in input0 1 DataType.QASYMM8 then
    .runtime_error .input0_not_qasymm8_1ch
  else if data_type_channel_not_in output 1 DataType.S32 then .runtime_error .output_not_s32_1ch
  else
    match input1 with
    | none => .runtime_error .input1_nullptr
    | some input1 =>
      if mismatching_data_types input0 input1 then .runtime_error .input1_data_type
      else .ok

/-- `validate_and_configure_window(input0, input1, output)`. -/
def validate_and_configure_window (H : Helpers) (heap : Heap) (input0 input1 output : Ptr) :
    (Error × Window) × Heap :=
  let win := H.calculate_max_window (heap.get output) 1
  let output_access : AccessWindow := ⟨output, .rectangle 0 0 12 8⟩
  let input0_access_end := H.ceil_to_multiple ((heap.get input0).dimension 0) 8
  let input1_access_end := H.ceil_to_multiple ((heap.get input1).dimension 0) 12
  let r := update_window_and_padding H heap win
    [⟨input0, .static 0 0 input0_access_end ((heap.get input0).dimension 1)⟩,
     ⟨input1, .static 0 0 input1_access_end ((heap.get input1).dimension 1)⟩,
     output_access]
  let err := if r.1 then Error.runtime_error .insufficient_padding else Error.ok
  ((err, r.2.1), r.2.2)

/-- `validate(input0, input1, output)` (static).  After `validate_arguments`
succeeded `input1` is non-null, so the second case cannot occur. -/
def validate (H : Helpers) (heap : Heap) (input0 : Ptr) (input1 : Option Ptr) (output : Ptr) :
    Error × Heap :=
  match validate_arguments (heap.get input0) (input1.map heap.get) (heap.get output), input1 with
  | .runtime_error d, _ => (.runtime_error d, heap)
  | .ok, none => (.runtime_error .input1_nullptr, heap)
  | .ok, some input1 =>
    let c0 := heap.clone input0
    let c1 := Heap.clone c0.2 input1
    let co := Heap.clone c1.2 output
    let r := validate_and_configure_window H co.2 c0.1 c1.1 co.1
    let heap' := r.2.take heap.length
    match r.1.1 with
    | .runtime_error d => (.runtime_error d, heap')
    | .ok => (.ok, heap')

end NEGEMMLowpAArch64V8P4Kernel

/-- Modelled from the spec: the assertion macro `ARM_COMPUTE_ERROR_ON(cond)` of
`arm_compute/core/Error.h`, which is not among the sources; a usage error is
fatal and is reported (rejected) rather than silently handled. -/
def ARM_COMPUTE_ERROR_ON (cond : Bool) : Except Fatal Unit :=
  if cond then .error .assertion else .ok ()

/-! ## NEDepthwiseConvolution3x3 (src/runtime/NEON/functions/NEDepthwiseConvolution.cpp) -/

namespace NEDepthwiseConvolution3x3

/-- The three kernels owned by the function. -/
inductive Member where
  | _border_handler
  | _kernel
  | _bias_kernel
  deriving DecidableEq, Repr

/-- What the scheduler does, in order of occurrence. -/
inductive SchedulerEvent where
  | scheduled (kernel : Member) (split_dimension : Nat)
  | completed (kernel : Member)
  deriving DecidableEq, Repr

/-- Modelled from the spec: `NEScheduler::get().schedule(kernel, split_dimension)`,
whose definition is not among the sources; the CPU scheduler dispatches the
sub-windows and blocks until all of them complete before returning. -/
def schedule (trace : List SchedulerEvent) (kernel : Member) (split_dimension : Nat) :
    List SchedulerEvent :=
  trace ++ [.scheduled kernel split_dimension, .completed kernel]

/-- The member of the function object that `run` reads. -/
structure Function where
  _has_bias : Bool
  deriving DecidableEq, Repr

/-- `NEDepthwiseConvolution3x3::run()`, threading the scheduler's trace. -/
def run (f : Function) (trace : List SchedulerEvent) : List SchedulerEvent :=
  let t1 := schedule trace ._border_handler Window.DimX
  let t2 := schedule t1 ._kernel Window.DimX
  if f._has_bias then schedule t2 ._bias_kernel Window.DimX else t2

/-- The kernels of the `scheduled` events of a trace, with their split dimension. -/
def scheduled_sequence : List SchedulerEvent → List (Member × Nat)
  | [] => []
  | .scheduled k d :: rest => (k, d) :: scheduled_sequence rest
  | .completed _ :: rest => scheduled_sequence rest

end NEDepthwiseConvolution3x3

/-! ## OpenCLTimer (tests/framework/instruments/OpenCLTimer.cpp) -/

namespace OpenCLTimer

/-- A value of one of the two swappable `std::function` objects: a function
that was there before, or the lambda `test_start` creates. -/
inductive Callable where
  | original (id : Nat)
  | interceptor
  | task_interceptor
  deriving DecidableEq, Repr

/-- The two process-wide function objects; `none` is an empty `std::function`. -/
structure Globals where
  clEnqueueNDRangeKernel_ptr : Option Callable
  execute_function : Option Callable
  deriving DecidableEq, Repr

/-- The members of the timer that `test_start` and `test_stop` use. -/
structure Timer where
  _real_function : Option Callable
  _real_graph_function : Option Callable
  deriving DecidableEq, Repr

/-- `OpenCLTimer::test_start()`. -/
def test_start (t : Timer) (g : Globals) : Except Fatal (Timer × Globals) := do
  ARM_COMPUTE_ERROR_ON (t._real_function != none)
  ARM_COMPUTE_ERROR_ON (t._real_graph_function != none)
  let t1 : Timer :=
    { _real_function := g.clEnqueueNDRangeKernel_ptr, _real_graph_function := g.execute_function }
  pure (t1, { clEnqueueNDRangeKernel_ptr := some .interceptor,
              execute_function := some .task_interceptor })

/-- `OpenCLTimer::test_stop()`. -/
def test_stop (t : Timer) (_g : Globals) : Timer × Globals :=
  ({ _real_function := none, _real_graph_function := none },
   { clEnqueueNDRangeKernel_ptr := t._real_function,
     execute_function := t._real_graph_function })

end OpenCLTimer

/-! ## GraphContext (arm_compute/graph2/GraphContext.h) -/

namespace graph2

/-- Execution targets, `graph2::Target`. -/
inductive Target where
  | UNSPECIFIED
  | NEON
  | CL
  deriving DecidableEq, Repr

/-- `struct MemoryManagerContext`; `mm` is the identity of the shared memory
manager, `none` for `nullptr`. -/
structure MemoryManagerContext where
  target : Target := Target.UNSPECIFIED
  mm : Option Nat := none
  deriving DecidableEq, Repr

/-- `class GraphContext`: the member `_memory_managers`, a
`std::map<Target, MemoryManagerContext>`, as its list of entries. -/
structure GraphContext where
  _memory_managers : List (Target × MemoryManagerContext)
  deriving DecidableEq, Repr

namespace GraphContext

/-- The constructor `GraphContext()`. -/
def new : GraphContext := { _memory_managers := [] }

/-- Modelled from the spec: the body of `memory_management_ctx(target)`, which
is only declared in the header and documented there as returning the
"Management context for the target if exists else nullptr". -/
def memory_management_ctx (ctx : GraphContext) (target : Target) : Option MemoryManagerContext :=
  (ctx._memory_managers.find? (fun e => e.1 == target)).map Prod.snd

/-- Modelled from the spec: the body of `insert_memory_management_ctx`, which
is only declared in the header; it fails (returns false) if a context for that
target already exists, and otherwise stores the context under its target. -/
def insert_memory_management_ctx (ctx : GraphContext) (memory_ctx : MemoryManagerContext) :
    Bool × GraphContext :=
  if (ctx.memory_management_ctx memory_ctx.target).isSome then (false, ctx)
  else (true, { _memory_managers := ctx._memory_managers ++ [(memory_ctx.target, memory_ctx)] })

/-- The context after a sequence of `insert_memory_management_ctx` calls. -/
def insert_all (ctx : GraphContext) : List MemoryManagerContext → GraphContext
  | [] => ctx
  | m :: rest => insert_all (ctx.insert_memory_management_ctx m).2 rest

end GraphContext

end graph2

/-! ## CPU scheduler work splitting -/

namespace CPPScheduler

/-- An index range `[start, stop)` along the split dimension. -/
structure Range where
  start : Nat
  stop : Nat
  deriving DecidableEq, Repr

/-- The number of indices of a range. -/
def Range.extent (r : Range) : Nat := r.stop - r.start

/-- Modelled from the spec: the number of sub-windows `schedule` divides a
window into, `min(thread_count, window_extent)`; the scheduler is not among
the sources. -/
def num_sub_windows (thread_count : Nat) (w : Range) : Nat := min thread_count w.extent

/-- Modelled from the spec: sub-window `id` of `total` near-equal contiguous
sub-windows of `w`, the last of which absorbs the remainder; the window
splitting code is not among the sources. -/
def split_window (w : Range) (id total : Nat) : Range :=
  let per_sub_window := w.extent / total
  let start := w.start + id * per_sub_window
  if id + 1 = total then ⟨start, w.stop⟩ else ⟨start, start + per_sub_window⟩

/-- Modelled from the spec: the sub-windows `schedule(kernel, split_dimension)`
hands to the worker threads, in thread order. -/
def schedule (thread_count : Nat) (w : Range) : List Range :=
  (List.range (num_sub_windows thread_count w)).map
    (fun id => split_window w id (num_sub_windows thread_count w))

end CPPScheduler

/-! ## Memory manager: lifetime-based reuse of backing blocks -/

namespace MemoryManager

/-- Modelled from the spec: an allocation request of a memory group, with its
requested size and the lifetime interval `[start, stop)` of task-execution
steps during which its contents must stay valid; the memory manager is not
among the sources. -/
structure Request where
  size : Nat
  start : Nat
  stop : Nat
  deriving DecidableEq, Repr, Inhabited

/-- Modelled from the spec: the request is live at step `t`. -/
def Request.live (r : Request) (t : Nat) : Bool := decide (r.start ≤ t) && decide (t < r.stop)

/-- Modelled from the spec: the live intervals of two requests are not disjoint. -/
def overlap (a b : Request) : Bool := decide (a.start < b.stop) && decide (b.start < a.stop)

/-- Modelled from the spec: the order of the greedy pass, by interval start,
ties broken by descending size. -/
def before (a b : Nat × Request) : Prop :=
  a.2.start < b.2.start ∨ (a.2.start = b.2.start ∧ b.2.size ≤ a.2.size)

instance before_decidable : DecidableRel before := fun a b => by
  unfold before
  exact inferInstance

/-- The requests with their position in the input as identity. -/
def tagged (rs : List Request) : List (Nat × Request) :=
  (List.range rs.length).map (fun i => (i, rs.getD i default))

/-- Modelled from the spec: the requests in the order the greedy pass takes them. -/
def processing_order (rs : List Request) : List (Nat × Request) :=
  (tagged rs).insertionSort before

/-- Modelled from the spec: a request bound to a backing block (its colour). -/
structure Binding where
  id : Nat
  request : Request
  block : Nat
  deriving DecidableEq, Repr

/-- Modelled from the spec: the number of distinct backing blocks, one per colour
in use. -/
def num_blocks (bound : List Binding) : Nat :=
  (bound.map (fun b => b.block + 1)).foldr max 0

/-- Modelled from the spec: a request may share block `c` iff its live interval
is disjoint from that of every request already in the block. -/
def block_free (bound : List Binding) (r : Request) (c : Nat) : Bool :=
  bound.all (fun b => !(b.block == c && overlap b.request r))

/-- The first `c' ≥ c` among `n` candidates with `free c'`, or `c + n` if none is. -/
def first_free (free : Nat → Bool) : Nat → Nat → Nat
  | 0, c => c
  | n + 1, c => if free c then c else first_free free n (c + 1)

/-- Modelled from the spec: first fit; the lowest block the request may share,
or a new block if it may share none. -/
def choose_block (bound : List Binding) (r : Request) : Nat :=
  first_free (block_free bound r) (num_blocks bound) 0

/-- Modelled from the spec: the greedy pass over the remaining requests. -/
def bind_all : List Binding → List (Nat × Request) → List Binding
  | bound, [] => bound
  | bound, e :: rest => bind_all (bound ++ [⟨e.1, e.2, choose_block bound e.2⟩]) rest

/-- Modelled from the spec: the reuse assignment of a set of requests. -/
def assign (rs : List Request) : List Binding := bind_all [] (processing_order rs)

/-- Modelled from the spec: each colour's block size is the maximum of the sizes
of the allocations assigned to it. -/
def block_size (bound : List Binding) (c : Nat) : Nat :=
  ((bound.filter (fun b => b.block == c)).map (fun b => b.request.size)).foldr max 0

/-- Modelled from the spec: the backing blocks are laid out one after the other
from the group base, in colour order. -/
def block_offset (bound : List Binding) (c : Nat) : Nat :=
  ((List.range c).map (block_size bound)).sum

/-- Modelled from the spec: a tensor's final address, group base plus the offset
of its assigned block; it occupies `size` bytes from there. -/
def address (group_base : Nat) (bound : List Binding) (b : Binding) : Nat :=
  group_base + block_offset bound b.block

/-- The number of requests live at step `t`. -/
def live_count (rs : List Request) (t : Nat) : Nat := rs.countP (fun r => r.live t)

/-- The interval graph of the requests: vertices are the requests, two distinct
requests are adjacent iff their live intervals overlap. -/
def interval_graph (rs : List Request) : SimpleGraph (Fin rs.length) where
  Adj i j := i ≠ j ∧ overlap (rs.get i) (rs.get j) = true
  symm := by
    intro i j h
    refine ⟨h.1.symm, ?_⟩
    have := h.2
    simp only [overlap, Bool.and_eq_true, decide_eq_true_eq] at this ⊢
    exact ⟨this.2, this.1⟩
  loopless := fun i h => h.1 rfl

instance before_total : IsTotal (Nat × Request) before :=
  ⟨fun a b => by unfold before; omega⟩

instance before_trans : IsTrans (Nat × Request) before :=
  ⟨fun a b c h1 h2 => by unfold before at *; omega⟩

/-- The invariant of the greedy pass. -/
def Good (bound : List Binding) : Prop :=
  List.Pairwise (fun a b : Binding => overlap a.request b.request = true → a.block ≠ b.block) bound
  ∧ ∀ a ∈ bound, ∀ c < a.block, ∃ b ∈ bound, b.block = c ∧ b.request.live a.request.start = true

end MemoryManager

/-! ## OpenCL GEMM helper macros (src/core/CL/cl_kernels/gemm_helpers.h)

The macros paste a row suffix (`0`..`9`, `A`..`F`) onto a base name, so a
family of variables `BASENAME##s` is a map from the suffix character to the
value of the variable.  Addresses are byte addresses into global memory;
`DATA_TYPE` arithmetic is taken without overflow. -/

namespace gemm_helpers

/-- The row suffixes in row order: row `i` is named by the `i`-th character. -/
def suffixes : List Char :=
  ['0', '1', '2', '3', '4', '5', '6', '7', '8', '9', 'A', 'B', 'C', 'D', 'E', 'F']

/-- The suffix naming row `i`. -/
def suffix (i : Nat) : Char := suffixes.getD i '0'

/-- Global memory, byte by byte. -/
abbrev Memory := Nat → Nat

/-- A family of variables `NAME##s`, by suffix `s`. -/
abbrev Vars (α : Type) := Char → α

/-- Assignment to the variable `NAME##s`. -/
def Vars.assign {α : Type} (v : Vars α) (s : Char) (x : α) : Vars α :=
  fun c => if c = s then x else v c

/-- `VLOAD(N0)(0, (__global DATA_TYPE *)p)` for a vector occupying `bytes` bytes. -/
def VLOAD (bytes : Nat) (mem : Memory) (p : Nat) : List Nat :=
  (List.range bytes).map (fun k => mem (p + k))

/-- `VSTORE(N0)(data, 0, (__global DATA_TYPE *)p)` for a vector occupying
`bytes` bytes. -/
def VSTORE (bytes : Nat) (data : List Nat) (mem : Memory) (p : Nat) : Memory :=
  fun a => if p ≤ a ∧ a < p + bytes then data.getD (a - p) 0 else mem a

/-- The macro arguments `PTR`, `OFFSET`, `STRIDE_Y` and the variables `Z##s`,
and the size in bytes of `VEC_DATA_TYPE(DATA_TYPE, N0)`. -/
structure BlockArgs where
  bytes : Nat
  PTR : Nat
  OFFSET : Nat
  STRIDE_Y : Nat
  Z : Vars Nat

/-- What a sequence of row loads has done: the variables `BASENAME##s` and the
loads performed, in order, as (row variable, address). -/
structure LoadState where
  vars : Vars (List Nat)
  loads : List (Char × Nat)

/-- One statement `BASENAME##s = VLOAD(N0)(0, (__global DATA_TYPE *)(p));`. -/
def load_row (a : BlockArgs) (mem : Memory) (s : Char) (p : Nat) (st : LoadState) : LoadState :=
  { vars := st.vars.assign s (VLOAD a.bytes mem p), loads := st.loads ++ [(s, p)] }

/-- `LOAD_ROW_1`. -/
def LOAD_ROW_1 (a : BlockArgs) (mem : Memory) (st : LoadState) : LoadState :=
  load_row a mem '0' (a.PTR + a.OFFSET + 0 * a.STRIDE_Y + a.Z '0') st

/-- `LOAD_ROW_2`. -/
def LOAD_ROW_2 (a : BlockArgs) (mem : Memory) (st : LoadState) : LoadState :=
  load_row a mem '1' (a.PTR + a.OFFSET + 1 * a.STRIDE_Y + a.Z '1') (LOAD_ROW_1 a mem st)

/-- `LOAD_ROW_3`. -/
def LOAD_ROW_3 (a : BlockArgs) (mem : Memory) (st : LoadState) : LoadState :=
  load_row a mem '2' (a.PTR + a.OFFSET + 2 * a.STRIDE_Y + a.Z '2') (LOAD_ROW_2 a mem st)

/-- `LOAD_ROW_4`. -/
def LOAD_ROW_4 (a : BlockArgs) (mem : Memory) (st : LoadState) : LoadState :=
  load_row a mem '3' (a.PTR + a.OFFSET + 3 * a.STRIDE_Y + a.Z '3') (LOAD_ROW_3 a mem st)

/-- `LOAD_ROW_5`. -/
def LOAD_ROW_5 (a : BlockArgs) (mem : Memory) (st : LoadState) : LoadState :=
  load_row a mem '4' (a.PTR + a.OFFSET + 4 * a.STRIDE_Y + a.Z '4') (LOAD_ROW_4 a mem st)

/-- `LOAD_ROW_6`. -/
def LOAD_ROW_6 (a : BlockArgs) (mem : Memory) (st : LoadState) : LoadState :=
  load_row a mem '5' (a.PTR + a.OFFSET + 5 * a.STRIDE_Y + a.Z '5') (LOAD_ROW_5 a mem st)

/-- `LOAD_ROW_7`. -/
def LOAD_ROW_7 (a : BlockArgs) (mem : Memory) (st : LoadState) : LoadState :=
  load_row a mem '6' (a.PTR + a.OFFSET + 6 * a.STRIDE_Y + a.Z '6') (LOAD_ROW_6 a mem st)

/-- `LOAD_ROW_8`. -/
def LOAD_ROW_8 (a : BlockArgs) (mem : Memory) (st : LoadState) : LoadState :=
  load_row a mem '7' (a.PTR + a.OFFSET + 7 * a.STRIDE_Y + a.Z '7') (LOAD_ROW_7 a mem st)

/-- `LOAD_ROW_9`. -/
def LOAD_ROW_9 (a : BlockArgs) (mem : Memory) (st : LoadState) : LoadState :=
  load_row a mem '8' (a.PTR + a.OFFSET + 8 * a.STRIDE_Y + a.Z '8') (LOAD_ROW_8 a mem st)

/-- `LOAD_ROW_10`. -/
def LOAD_ROW_10 (a : BlockArgs) (mem : Memory) (st : LoadState) : LoadState :=
  load_row a mem '9' (a.PTR + a.OFFSET + 9 * a.STRIDE_Y + a.Z '9') (LOAD_ROW_9 a mem st)

/-- `LOAD_ROW_11`. -/
def LOAD_ROW_11 (a : BlockArgs) (mem : Memory) (st : LoadState) : LoadState :=
  load_row a mem 'A' (a.PTR + a.OFFSET + 10 * a.STRIDE_Y + a.Z 'A') (LOAD_ROW_10 a mem st)

/-- `LOAD_ROW_12`. -/
def LOAD_ROW_12 (a : BlockArgs) (mem : Memory) (st : LoadState) : LoadState :=
  load_row a mem 'B' (a.PTR + a.OFFSET + 11 * a.STRIDE_Y + a.Z 'B') (LOAD_ROW_11 a mem st)

/-- `LOAD_ROW_13`. -/
def LOAD_ROW_13 (a : BlockArgs) (mem : Memory) (st : LoadState) : LoadState :=
  load_row a mem 'C' (a.PTR + a.OFFSET + 12 * a.STRIDE_Y + a.Z 'C') (LOAD_ROW_12 a mem st)

/-- `LOAD_ROW_14`. -/
def LOAD_ROW_14 (a : BlockArgs) (mem : Memory) (st : LoadState) : LoadState :=
  load_row a mem 'D' (a.PTR + a.OFFSET + 13 * a.STRIDE_Y + a.Z 'D') (LOAD_ROW_13 a mem st)

/-- `LOAD_ROW_15`. -/
def LOAD_ROW_15 (a : BlockArgs) (mem : Memory) (st : LoadState) : LoadState :=
  load_row a mem 'E' (a.PTR + a.OFFSET + 14 * a.STRIDE_Y + a.Z 'E') (LOAD_ROW_14 a mem st)

/-- `LOAD_ROW_16`. -/
def LOAD_ROW_16 (a : BlockArgs) (mem : Memory) (st : LoadState) : LoadState :=
  load_row a mem 'F' (a.PTR + a.OFFSET + 15 * a.STRIDE_Y + a.Z 'F') (LOAD_ROW_15 a mem st)

/-- `LOAD_BLOCK(M0, ...)`, which expands to `LOAD_ROW_##M0(...)`; there is no such
macro for `M0` outside 1..16. -/
def LOAD_BLOCK (M0 : Nat) (a : BlockArgs) (mem : Memory) (st : LoadState) : Option LoadState :=
  match M0 with
  | 1 => some (LOAD_ROW_1 a mem st)
  | 2 => some (LOAD_ROW_2 a mem st)
  | 3 => some (LOAD_ROW_3 a mem st)
  | 4 => some (LOAD_ROW_4 a mem st)
  | 5 => some (LOAD_ROW_5 a mem st)
  | 6 => some (LOAD_ROW_6 a mem st)
  | 7 => some (LOAD_ROW_7 a mem st)
  | 8 => some (LOAD_ROW_8 a mem st)
  | 9 => some (LOAD_ROW_9 a mem st)
  | 10 => some (LOAD_ROW_10 a mem st)
  | 11 => some (LOAD_ROW_11 a mem st)
  | 12 => some (LOAD_ROW_12 a mem st)
  | 13 => some (LOAD_ROW_13 a mem st)
  | 14 => some (LOAD_ROW_14 a mem st)
  | 15 => some (LOAD_ROW_15 a mem st)
  | 16 => some (LOAD_ROW_16 a mem st)
  | _ => none

/-- What a sequence of row stores has done: global memory and the stores
performed, in order, as (row variable, address). -/
structure StoreState where
  mem : Memory
  stores : List (Char × Nat)

/-- One statement `VSTORE(N0)(BASENAME##s, 0, (__global DATA_TYPE *)(p));`. -/
def store_row (a : BlockArgs) (vars : Vars (List Nat)) (s : Char) (p : Nat) (st : StoreState) :
    StoreState :=
  { mem := VSTORE a.bytes (vars s) st.mem p, stores := st.stores ++ [(s, p)] }

/-- `STORE_ROW_1`. -/
def STORE_ROW_1 (a : BlockArgs) (vars : Vars (List Nat)) (st : StoreState) : StoreState :=
  store_row a vars '0' (a.PTR + 0 * a.STRIDE_Y + a.Z '0') st

/-- `STORE_ROW_2`. -/
def STORE_ROW_2 (a : BlockArgs) (vars : Vars (List Nat)) (st : StoreState) : StoreState :=
  store_row a vars '1' (a.PTR + 1 * a.STRIDE_Y + a.Z '1') (STORE_ROW_1 a vars st)

/-- `STORE_ROW_3`. -/
def STORE_ROW_3 (a : BlockArgs) (vars : Vars (List Nat)) (st : StoreState) : StoreState :=
  store_row a vars '2' (a.PTR + 2 * a.STRIDE_Y + a.Z '2') (STORE_ROW_2 a vars st)

/-- `STORE_ROW_4`. -/
def STORE_ROW_4 (a : BlockArgs) (vars : Vars (List Nat)) (st : StoreState) : StoreState :=
  store_row a vars '3' (a.PTR + 3 * a.STRIDE_Y + a.Z '3') (STORE_ROW_3 a vars st)

/-- `STORE_ROW_5`. -/
def STORE_ROW_5 (a : BlockArgs) (vars : Vars (List Nat)) (st : StoreState) : StoreState :=
  store_row a vars '4' (a.PTR + 4 * a.STRIDE_Y + a.Z '4') (STORE_ROW_4 a vars st)

/-- `STORE_ROW_6`. -/
def STORE_ROW_6 (a : BlockArgs) (vars : Vars (List Nat)) (st : StoreState) : StoreState :=
  store_row a vars '5' (a.PTR + 5 * a.STRIDE_Y + a.Z '5') (STORE_ROW_5 a vars st)

/-- `STORE_ROW_7`. -/
def STORE_ROW_7 (a : BlockArgs) (vars : Vars (List Nat)) (st : StoreState) : StoreState :=
  store_row a vars '6' (a.PTR + 6 * a.STRIDE_Y + a.Z '6') (STORE_ROW_6 a vars st)

/-- `STORE_ROW_8`. -/
def STORE_ROW_8 (a : BlockArgs) (vars : Vars (List Nat)) (st : StoreState) : StoreState :=
  store_row a vars '7' (a.PTR + 7 * a.STRIDE_Y + a.Z '7') (STORE_ROW_7 a vars st)

/-- `STORE_ROW_9`. -/
def STORE_ROW_9 (a : BlockArgs) (vars : Vars (List Nat)) (st : StoreState) : StoreState :=
  store_row a vars '8' (a.PTR + 8 * a.STRIDE_Y + a.Z '8') (STORE_ROW_8 a vars st)

/-- `STORE_ROW_10`. -/
def STORE_ROW_10 (a : BlockArgs) (vars : Vars (List Nat)) (st : StoreState) : StoreState :=
  store_row a vars '9' (a.PTR + 9 * a.STRIDE_Y + a.Z '9') (STORE_ROW_9 a vars st)

/-- `STORE_ROW_11`. -/
def STORE_ROW_11 (a : BlockArgs) (vars : Vars (List Nat)) (st : StoreState) : StoreState :=
  store_row a vars 'A' (a.PTR + 10 * a.STRIDE_Y + a.Z 'A') (STORE_ROW_10 a vars st)

/-- `STORE_ROW_12`. -/
def STORE_ROW_12 (a : BlockArgs) (vars : Vars (List Nat)) (st : StoreState) : StoreState :=
  store_row a vars 'B' (a.PTR + 11 * a.STRIDE_Y + a.Z 'B') (STORE_ROW_11 a vars st)

/-- `STORE_ROW_13`. -/
def STORE_ROW_13 (a : BlockArgs) (vars : Vars (List Nat)) (st : StoreState) : StoreState :=
  store_row a vars 'C' (a.PTR + 12 * a.STRIDE_Y + a.Z 'C') (STORE_ROW_12 a vars st)

/-- `STORE_ROW_14`. -/
def STORE_ROW_14 (a : BlockArgs) (vars : Vars (List Nat)) (st : StoreState) : StoreState :=
  store_row a vars 'D' (a.PTR + 13 * a.STRIDE_Y + a.Z 'D') (STORE_ROW_13 a vars st)

/-- `STORE_ROW_15`. -/
def STORE_ROW_15 (a : BlockArgs) (vars : Vars (List Nat)) (st : StoreState) : StoreState :=
  store_row a vars 'E' (a.PTR + 14 * a.STRIDE_Y + a.Z 'E') (STORE_ROW_14 a vars st)

/-- `STORE_ROW_16`. -/
def STORE_ROW_16 (a : BlockArgs) (vars : Vars (List Nat)) (st : StoreState) : StoreState :=
  store_row a vars 'F' (a.PTR + 15 * a.STRIDE_Y + a.Z 'F') (STORE_ROW_15 a vars st)

/-- `STORE_BLOCK(M0, ...)`, which expands to `STORE_ROW_##M0(...)`. -/
def STORE_BLOCK (M0 : Nat) (a : BlockArgs) (vars : Vars (List Nat)) (st : StoreState) :
    Option StoreState :=
  match M0 with
  | 1 => some (STORE_ROW_1 a vars st)
  | 2 => some (STORE_ROW_2 a vars st)
  | 3 => some (STORE_ROW_3 a vars st)
  | 4 => some (STORE_ROW_4 a vars st)
  | 5 => some (STORE_ROW_5 a vars st)
  | 6 => some (STORE_ROW_6 a vars st)
  | 7 => some (STORE_ROW_7 a vars st)
  | 8 => some (STORE_ROW_8 a vars st)
  | 9 => some (STORE_ROW_9 a vars st)
  | 10 => some (STORE_ROW_10 a vars st)
  | 11 => some (STORE_ROW_11 a vars st)
  | 12 => some (STORE_ROW_12 a vars st)
  | 13 => some (STORE_ROW_13 a vars st)
  | 14 => some (STORE_ROW_14 a vars st)
  | 15 => some (STORE_ROW_15 a vars st)
  | 16 => some (STORE_ROW_16 a vars st)
  | _ => none

/-- The rows `0..n-1` loaded one after the other, row `i` into the variable
named by suffix `i` from `PTR + OFFSET + i * STRIDE_Y + Z##i`. -/
def load_rows (a : BlockArgs) (mem : Memory) (st : LoadState) : Nat → LoadState
  | 0 => st
  | n + 1 =>
    load_row a mem (suffix n) (a.PTR + a.OFFSET + n * a.STRIDE_Y + a.Z (suffix n))
      (load_rows a mem st n)

/-- The rows `0..n-1` stored one after the other, row `i` from the variable
named by suffix `i` to `PTR + i * STRIDE_Y + Z##i`. -/
def store_rows (a : BlockArgs) (vars : Vars (List Nat)) (st : StoreState) : Nat → StoreState
  | 0 => st
  | n + 1 =>
    store_row a vars (suffix n) (a.PTR + n * a.STRIDE_Y + a.Z (suffix n))
      (store_rows a vars st n)

/-- The macro arguments of `CALCULATE_Z_OFFSET`. -/
structure ZArgs where
  M0 : Nat
  Y : Nat
  HEIGHT_GEMM3D : Nat
  DEPTH_GEMM3D : Nat
  CROSS_PLANE_PAD : Nat
  STRIDE_Y : Nat

/-- The three statements of one row:
`Z##s = (c + (DATA_TYPE)(Y * (DATA_TYPE)M0)) / (DATA_TYPE)HEIGHT_GEMM3D;`
`Z##s = min((DATA_TYPE)(DEPTH_GEMM3D - 1), Z##s);`
`Z##s *= (CROSS_PLANE_PAD * STRIDE_Y);`
`DATA_TYPE` is `uint`: `DEPTH_GEMM3D - 1` is computed as an `int` and converted,
which gives `2^32 - 1` for `DEPTH_GEMM3D = 0`. -/
def z_row (a : ZArgs) (s : Char) (c : Nat) (Z : Vars Nat) : Vars Nat :=
  let Z1 := Z.assign s ((c + a.Y * a.M0) / a.HEIGHT_GEMM3D)
  let Z2 := Z1.assign s (min ((a.DEPTH_GEMM3D + 4294967295) % 4294967296) (Z1 s))
  Z2.assign s (Z2 s * (a.CROSS_PLANE_PAD * a.STRIDE_Y))

/-- `CALCULATE_Z_OFFSET_1`. -/
def CALCULATE_Z_OFFSET_1 (a : ZArgs) (Z : Vars Nat) : Vars Nat :=
  z_row a '0' 0 Z

/-- `CALCULATE_Z_OFFSET_2`. -/
def CALCULATE_Z_OFFSET_2 (a : ZArgs) (Z : Vars Nat) : Vars Nat :=
  z_row a '1' 1 (CALCULATE_Z_OFFSET_1 a Z)

/-- `CALCULATE_Z_OFFSET_3`. -/
def CALCULATE_Z_OFFSET_3 (a : ZArgs) (Z : Vars Nat) : Vars Nat :=
  z_row a '2' 2 (CALCULATE_Z_OFFSET_2 a Z)

/-- `CALCULATE_Z_OFFSET_4`. -/
def CALCULATE_Z_OFFSET_4 (a : ZArgs) (Z : Vars Nat) : Vars Nat :=
  z_row a '3' 3 (CALCULATE_Z_OFFSET_3 a Z)

/-- `CALCULATE_Z_OFFSET_5`. -/
def CALCULATE_Z_OFFSET_5 (a : ZArgs) (Z : Vars Nat) : Vars Nat :=
  z_row a '4' 4 (CALCULATE_Z_OFFSET_4 a Z)

/-- `CALCULATE_Z_OFFSET_6`. -/
def CALCULATE_Z_OFFSET_6 (a : ZArgs) (Z : Vars Nat) : Vars Nat :=
  z_row a '5' 5 (CALCULATE_Z_OFFSET_5 a Z)

/-- `CALCULATE_Z_OFFSET_7`. -/
def CALCULATE_Z_OFFSET_7 (a : ZArgs) (Z : Vars Nat) : Vars Nat :=
  z_row a '6' 6 (CALCULATE_Z_OFFSET_6 a Z)

/-- `CALCULATE_Z_OFFSET_8`. -/
def CALCULATE_Z_OFFSET_8 (a : ZArgs) (Z : Vars Nat) : Vars Nat :=
  z_row a '7' 1 (CALCULATE_Z_OFFSET_7 a Z)

/-- `CALCULATE_Z_OFFSET(M0, ...)`, which expands to `CALCULATE_Z_OFFSET_##M0(M0, ...)`;
there is no such macro for `M0` outside 1..8. -/
def CALCULATE_Z_OFFSET (a : ZArgs) (Z : Vars Nat) : Option (Vars Nat) :=
  match a.M0 with
  | 1 => some (CALCULATE_Z_OFFSET_1 a Z)
  | 2 => some (CALCULATE_Z_OFFSET_2 a Z)
  | 3 => some (CALCULATE_Z_OFFSET_3 a Z)
  | 4 => some (CALCULATE_Z_OFFSET_4 a Z)
  | 5 => some (CALCULATE_Z_OFFSET_5 a Z)
  | 6 => some (CALCULATE_Z_OFFSET_6 a Z)
  | 7 => some (CALCULATE_Z_OFFSET_7 a Z)
  | 8 => some (CALCULATE_Z_OFFSET_8 a Z)
  | _ => none

/-- The offset of row `i` as the header documents it: computed from the row's
own index. -/
def z_offset (a : ZArgs) (i : Nat) : Nat :=
  min (a.DEPTH_GEMM3D - 1) ((i + a.Y * a.M0) / a.HEIGHT_GEMM3D) * (a.CROSS_PLANE_PAD * a.STRIDE_Y)

/-- The rows `0..n-1`, each computed from its own index. -/
def z_rows (a : ZArgs) (Z : Vars Nat) : Nat → Vars Nat
  | 0 => Z
  | n + 1 => z_row a (suffix n) n (z_rows a Z n)

end gemm_helpers

/-! ## GEMM-reshaped tuner example (examples/gemm_tuner/cl_gemm_reshaped.cpp) -/

namespace gemm_tuner

/-- `struct GemmConfigs`, with its default member initialisers. -/
structure GemmConfigs where
  m0 : Nat := 4
  n0 : Nat := 4
  k0 : Nat := 4
  v0 : Nat := 1
  h0 : Nat := 1
  interleave_lhs : Bool := true
  transpose_lhs : Bool := true
  interleave_rhs : Bool := true
  transpose_rhs : Bool := true
  deriving DecidableEq, Repr

/-- The values of the positional options of `class GemmConfigOptions`
(`option->value()`), each with the default its constructor registers. -/
structure GemmConfigOptions where
  m0 : Nat := 4
  n0 : Nat := 4
  k0 : Nat := 4
  v0 : Nat := 1
  h0 : Nat := 1
  interleave_lhs : Nat := 1
  interleave_rhs : Nat := 1
  transpose_rhs : Nat := 1
  deriving DecidableEq, Repr

/-- `consume_gemm_configs(options)`. -/
def consume_gemm_configs (options : GemmConfigOptions) : GemmConfigs :=
  let configs : GemmConfigs := {}
  let configs := { configs with m0 := options.m0 }
  let configs := { configs with n0 := options.n0 }
  let configs := { configs with k0 := options.k0 }
  let configs := { configs with v0 := options.v0 }
  let configs := { configs with h0 := options.h0 }
  let configs := { configs with interleave_lhs := options.interleave_lhs != 0 }
  let configs := { configs with transpose_lhs := options.transpose_rhs == 0 }
  let configs := { configs with interleave_rhs := options.interleave_rhs != 0 }
  { configs with transpose_rhs := options.transpose_rhs != 0 }

/-- The fields of `GEMMLHSMatrixInfo` that `do_setup` sets. -/
structure GEMMLHSMatrixInfo where
  m0 : Nat
  k0 : Nat
  v0 : Nat
  interleave : Bool
  transpose : Bool
  deriving DecidableEq, Repr

/-- The fields of `GEMMRHSMatrixInfo` that `do_setup` sets. -/
structure GEMMRHSMatrixInfo where
  n0 : Nat
  k0 : Nat
  h0 : Nat
  interleave : Bool
  transpose : Bool
  deriving DecidableEq, Repr

/-- `CLGEMMMatrixMultiplyReshapedExample::do_setup`, as far as the GEMM configs
go: `help` is `param_options.help->is_set() && param_options.help->value()`,
`valid` is `parser.validate()`, `config_options` the parsed options.  The result
is `none` when `do_setup` returns false before configuring anything, otherwise
the configs in use and the `lhs_info` and `rhs_info` passed to `gemm.configure`. -/
def do_setup (help valid : Bool) (config_options : GemmConfigOptions) :
    Option (GemmConfigs × GEMMLHSMatrixInfo × GEMMRHSMatrixInfo) :=
  let configs : GemmConfigs := {}
  if help then none
  else
    let configs := if !valid then configs else consume_gemm_configs config_options
    let lhs_info : GEMMLHSMatrixInfo :=
      { m0 := configs.m0, k0 := configs.k0, v0 := configs.v0,
        interleave := configs.interleave_lhs, transpose := configs.transpose_lhs }
    let rhs_info : GEMMRHSMatrixInfo :=
      { n0 := configs.n0, k0 := configs.k0, h0 := configs.h0,
        interleave := configs.interleave_rhs, transpose := configs.transpose_rhs }
    some (configs, lhs_info, rhs_info)

end gemm_tuner

/-! ## Convolution datasets (tests/datasets/LargeConvolutionLayerDataset.h) -/

namespace datasets

/-- `PadStrideInfo(stride_x, stride_y, pad_x, pad_y)`. -/
structure PadStrideInfo where
  stride_x : Nat
  stride_y : Nat
  pad_x : Nat
  pad_y : Nat
  deriving DecidableEq, Repr

/-- One configuration of a `ConvolutionLayerDataset`: the arguments of one
`add_config(src, weights, biases, dst, info)` call. -/
structure Config where
  src : List Nat
  weights : List Nat
  biases : List Nat
  dst : List Nat
  info : PadStrideInfo
  deriving DecidableEq, Repr

/-- `add_config(src, weights, biases, dst, info)`: appends one configuration. -/
def add_config (configs : List Config) (src weights biases dst : List Nat)
    (info : PadStrideInfo) : List Config :=
  configs ++ [⟨src, weights, biases, dst, info⟩]

/-- The constructor `LargeWinogradConvolutionLayer3x3Dataset()`. -/
def LargeWinogradConvolutionLayer3x3Dataset : List Config :=
  let d : List Config := []
  -- Kernel size 3, batch size 1
  let d := add_config d [224, 222, 64] [3, 3, 64, 64] [64] [224, 222, 64] ⟨1, 1, 1, 1⟩
  let d := add_config d [112, 113, 64] [3, 3, 64, 128] [128] [112, 113, 128] ⟨1, 1, 1, 1⟩
  let d := add_config d [112, 112, 128] [3, 3, 128, 129] [129] [112, 110, 129] ⟨1, 1, 1, 0⟩
  let d := add_config d [53, 56, 125] [3, 3, 125, 256] [256] [51, 56, 256] ⟨1, 1, 0, 1⟩
  let d := add_config d [56, 56, 256] [3, 3, 256, 256] [256] [56, 54, 256] ⟨1, 1, 1, 0⟩
  let d := add_config d [28, 28, 257] [3, 3, 257, 512] [512] [26, 28, 512] ⟨1, 1, 0, 1⟩
  let d := add_config d [28, 28, 512] [3, 3, 512, 512] [512] [28, 28, 512] ⟨1, 1, 1, 1⟩
  let d := add_config d [14, 14, 512] [3, 3, 512, 512] [512] [12, 12, 512] ⟨1, 1, 0, 0⟩
  -- Batch size 3, 2 and 4
  let d := add_config d [224, 222, 64, 3] [3, 3, 64, 64] [64] [224, 222, 64, 3] ⟨1, 1, 1, 1⟩
  let d := add_config d [112, 113, 64, 2] [3, 3, 64, 128] [128] [110, 113, 128, 2] ⟨1, 1, 0, 1⟩
  add_config d [111, 112, 127, 4] [3, 3, 127, 128] [128] [111, 112, 128, 4] ⟨1, 1, 1, 1⟩

/-- The constructor `LargeConvolutionLayerDataset()`. -/
def LargeConvolutionLayerDataset : List Config :=
  let d : List Config := []
  -- Batch size 1
  let d := add_config d [227, 227, 3] [11, 11, 3, 96] [96] [55, 55, 96] ⟨4, 4, 0, 0⟩
  let d := add_config d [27, 27, 96] [5, 5, 96, 256] [256] [27, 27, 256] ⟨1, 1, 2, 2⟩
  let d := add_config d [13, 13, 256] [3, 3, 256, 384] [384] [13, 13, 384] ⟨1, 1, 1, 1⟩
  let d := add_config d [13, 13, 384] [3, 3, 384, 384] [384] [13, 13, 384] ⟨1, 1, 1, 1⟩
  let d := add_config d [13, 13, 384] [3, 3, 384, 256] [256] [13, 13, 256] ⟨1, 1, 1, 1⟩
  let d := add_config d [224, 224, 3] [7, 7, 3, 64] [64] [112, 112, 64] ⟨2, 2, 3, 3⟩
  let d := add_config d [28, 28, 256] [1, 1, 256, 64] [64] [28, 28, 64] ⟨1, 1, 0, 0⟩
  -- Batch size 4
  let d := add_config d [227, 227, 3, 4] [11, 11, 3, 96] [96] [55, 55, 96, 4] ⟨4, 4, 0, 0⟩
  let d := add_config d [27, 27, 96, 4] [5, 5, 96, 256] [256] [27, 27, 256, 4] ⟨1, 1, 2, 2⟩
  let d := add_config d [13, 13, 256, 4] [3, 3, 256, 384] [384] [13, 13, 384, 4] ⟨1, 1, 1, 1⟩
  let d := add_config d [13, 13, 384, 4] [3, 3, 384, 384] [384] [13, 13, 384, 4] ⟨1, 1, 1, 1⟩
  let d := add_config d [13, 13, 384, 4] [3, 3, 384, 256] [256] [13, 13, 256, 4] ⟨1, 1, 1, 1⟩
  let d := add_config d [224, 224, 3, 4] [7, 7, 3, 64] [64] [112, 112, 64, 4] ⟨2, 2, 3, 3⟩
  let d := add_config d [28, 28, 256, 4] [1, 1, 256, 64] [64] [28, 28, 64, 4] ⟨1, 1, 0, 0⟩
  -- Batch size 8
  let d := add_config d [227, 227, 3, 8] [11, 11, 3, 96] [96] [55, 55, 96, 8] ⟨4, 4, 0, 0⟩
  let d := add_config d [27, 27, 96, 8] [5, 5, 96, 256] [256] [27, 27, 256, 8] ⟨1, 1, 2, 2⟩
  let d := add_config d [13, 13, 256, 8] [3, 3, 256, 384] [384] [13, 13, 384, 8] ⟨1, 1, 1, 1⟩
  let d := add_config d [13, 13, 384, 8] [3, 3, 384, 384] [384] [13, 13, 384, 8] ⟨1, 1, 1, 1⟩
  let d := add_config d [13, 13, 384, 8] [3, 3, 384, 256] [256] [13, 13, 256, 8] ⟨1, 1, 1, 1⟩
  let d := add_config d [224, 224, 3, 8] [7, 7, 3, 64] [64] [112, 112, 64, 8] ⟨2, 2, 3, 3⟩
  let d := add_config d [28, 28, 256, 8] [1, 1, 256, 64] [64] [28, 28, 64, 8] ⟨1, 1, 0, 0⟩
  -- Arbitrary batch size
  add_config d [227, 227, 3, 5] [11, 11, 3, 96] [96] [55, 55, 96, 5] ⟨4, 4, 0, 0⟩

/-- The extent of a `TensorShape` along axis `i`; axes not given have extent 1. -/
def extent (shape : List Nat) (i : Nat) : Nat := shape.getD i 1

/-- Standard convolution shape arithmetic for one configuration. -/
def Config.consistent (c : Config) : Prop :=
  extent c.dst 0 = (extent c.src 0 + 2 * c.info.pad_x - extent c.weights 0) / c.info.stride_x + 1
  ∧ extent c.dst 1 = (extent c.src 1 + 2 * c.info.pad_y - extent c.weights 1) / c.info.stride_y + 1
  ∧ extent c.dst 2 = extent c.weights 3
  ∧ extent c.weights 3 = extent c.biases 0
  ∧ extent c.weights 2 = extent c.src 2
  ∧ extent c.dst 3 = extent c.src 3
  ∧ extent c.weights 0 ≤ extent c.src 0 + 2 * c.info.pad_x
  ∧ extent c.weights 1 ≤ extent c.src 1 + 2 * c.info.pad_y

instance (c : Config) : Decidable c.consistent := by
  unfold Config.consistent
  exact inferInstance

end datasets

/-! ## AlexNetNetwork (tests/networks_new/AlexNetNetwork.h) -/

namespace AlexNetNetwork

/-- What one of the `std::unique_ptr<ITensorType>` members points to: a
sub-tensor of `w[parent]` or `b[parent]`, or a tensor of its own. -/
inductive Handle where
  | sub_w (parent : Nat) (shape : List Nat) (coords : List Nat)
  | sub_b (parent : Nat) (shape : List Nat) (coords : List Nat)
  | tensor (shape : List Nat)
  deriving DecidableEq, Repr

/-- The members of the network that `init` and `clear` assign among the weight
and bias handles; `none` is `nullptr`. -/
structure Network where
  _reshaped_weights : Bool := false
  _is_direct_conv : Bool
  w21 : Option Handle := none
  w22 : Option Handle := none
  b21 : Option Handle := none
  b22 : Option Handle := none
  w41 : Option Handle := none
  w42 : Option Handle := none
  b41 : Option Handle := none
  b42 : Option Handle := none
  w51 : Option Handle := none
  w52 : Option Handle := none
  b51 : Option Handle := none
  b52 : Option Handle := none
  deriving DecidableEq, Repr

/-- `init(data_type, fixed_point_position, batches, reshaped_weights)`, as far as
the handles go; `data_type_size` is `16 / data_size_from_type(_data_type)`. -/
def init (net : Network) (data_type_size : Nat) (reshaped_weights : Bool) : Network :=
  let net := { net with _reshaped_weights := reshaped_weights }
  if !net._reshaped_weights then
    let net := { net with w21 := some (.sub_w 1 [5, 5, 48, 128] []) }
    let net := { net with w22 := some (.sub_w 1 [5, 5, 48, 128] [0, 0, 0, 128]) }
    let net := { net with b21 := some (.sub_b 1 [128] []) }
    let net := { net with b22 := some (.sub_b 1 [128] [128]) }
    let net := { net with w41 := some (.sub_w 3 [3, 3, 192, 192] []) }
    let net := { net with w42 := some (.sub_w 3 [3, 3, 192, 192] [0, 0, 0, 192]) }
    let net := { net with b41 := some (.sub_b 3 [192] []) }
    let net := { net with b42 := some (.sub_b 3 [192] [192]) }
    let net := { net with w51 := some (.sub_w 4 [3, 3, 192, 128] []) }
    let net := { net with w52 := some (.sub_w 4 [3, 3, 192, 128] [0, 0, 0, 128]) }
    let net := { net with b51 := some (.sub_b 4 [128] []) }
    { net with b52 := some (.sub_b 4 [128] [128]) }
  else
    let net := { net with w21 := some (.tensor [1248 * data_type_size, 128 / data_type_size]) }
    let net := { net with w22 := some (.tensor [1248 * data_type_size, 128 / data_type_size]) }
    if !net._is_direct_conv then
      let net := { net with w41 := some (.tensor [1920 * data_type_size, 192 / data_type_size]) }
      let net := { net with w42 := some (.tensor [1920 * data_type_size, 192 / data_type_size]) }
      let net := { net with w51 := some (.tensor [1920 * data_type_size, 128 / data_type_size]) }
      { net with w52 := some (.tensor [1920 * data_type_size, 128 / data_type_size]) }
    else
      let net := { net with w41 := some (.sub_w 3 [3, 3, 192, 192] []) }
      let net := { net with w42 := some (.sub_w 3 [3, 3, 192, 192] [0, 0, 0, 192]) }
      let net := { net with b41 := some (.sub_b 3 [192] []) }
      let net := { net with b42 := some (.sub_b 3 [192] [192]) }
      let net := { net with w51 := some (.sub_w 4 [3, 3, 192, 128] []) }
      let net := { net with w52 := some (.sub_w 4 [3, 3, 192, 128] [0, 0, 0, 128]) }
      let net := { net with b51 := some (.sub_b 4 [128] []) }
      { net with b52 := some (.sub_b 4 [128] [128]) }

/-- `clear()`, as far as the handles go: the twelve `reset()` statements in
source order.  The `allocator()->free()` calls do not touch the handles. -/
def clear (net : Network) : Network :=
  let net := { net with w21 := none }
  let net := { net with w22 := none }
  let net := { net with b21 := none }
  let net := { net with b21 := none }
  let net := { net with w41 := none }
  let net := { net with w42 := none }
  let net := { net with b41 := none }
  let net := { net with b42 := none }
  let net := { net with w51 := none }
  let net := { net with w52 := none }
  let net := { net with b51 := none }
  { net with b52 := none }

/-- The twelve weight and bias handles, in declaration order. -/
def handles (net : Network) : List (Option Handle) :=
  [net.w21, net.w22, net.b21, net.b22, net.w41, net.w42, net.b41, net.b42,
   net.w51, net.w52, net.b51, net.b52]

end AlexNetNetwork

/-! ## Assembly GEMM set-up (arm_compute/runtime/NEON/AssemblyHelper.h) -/

namespace AssemblyHelper

/-- Modelled from the spec: an `arm_gemm::GemmCommon` object, whose class
(`gemm_common.hpp`) is not among the sources.  `arm_gemm.hpp` documents
`maxthreads` as the "Maximum (and default) number of threads that will call
execute method"; `set_nthreads` changes that number.  `window_size` and
`working_size` are what `get_window_size()` and `get_working_size()` return. -/
structure AssemblyGemm where
  maxthreads : Nat
  nthreads : Nat
  window_size : Nat
  working_size : Nat
  working_space : Option Ptr
  set_nthreads_calls : List Nat
  deriving DecidableEq, Repr

/-- Modelled from the spec: `GemmCommon::set_nthreads(n)` (see `AssemblyGemm`). -/
def AssemblyGemm.set_nthreads (g : AssemblyGemm) (n : Nat) : AssemblyGemm :=
  { g with nthreads := n, set_nthreads_calls := g.set_nthreads_calls ++ [n] }

/-- Modelled from the spec: `GemmCommon::set_working_space(p)` (see `AssemblyGemm`). -/
def AssemblyGemm.set_working_space (g : AssemblyGemm) (p : Ptr) : AssemblyGemm :=
  { g with working_space := some p }

/-- The GEMM implementations available to `arm_gemm::gemm`, a parameter of the
model: for the problem `M N K batches multis` and `maxthreads`, whether an
object can be created and, if so, its window size and working size. -/
structure GemmFactory where
  create : Nat → Nat → Nat → Nat → Nat → Nat → Option (Nat × Nat)

/-- `arm_gemm::gemm<Top, Tret>(ci, M, N, K, nbatches, nmulti, trA, trB, alpha,
beta, maxthreads, pretransposed_hint)`: null, or an object whose number of
threads is `maxthreads` by default. -/
def gemm (F : GemmFactory) (M N K nbatches nmulti maxthreads : Nat) : Option AssemblyGemm :=
  (F.create M N K nbatches nmulti maxthreads).map fun r =>
    { maxthreads := maxthreads, nthreads := maxthreads, window_size := r.1,
      working_size := r.2, working_space := none, set_nthreads_calls := [] }

/-- The members of `AssemblyKernelGlue`; `_optimised_kernel` holds whether the
wrapper it owns has been configured. -/
structure AssemblyKernelGlue where
  _gemm_kernel_asm : Option AssemblyGemm
  _optimised_kernel : Option Bool
  _a : Option Ptr
  _b : Option Ptr
  _d : Option Ptr
  deriving DecidableEq, Repr

/-- The constructor `AssemblyKernelGlue()`. -/
def AssemblyKernelGlue.new : AssemblyKernelGlue :=
  { _gemm_kernel_asm := none, _optimised_kernel := none, _a := none, _b := none, _d := none }

/-- `allocate_workspace(workspace_size, workspace, memory_group, alignment,
num_threads)`: the extent of the one-dimensional S8 workspace tensor. -/
def allocate_workspace (workspace_size alignment num_threads : Nat) : Except Fatal Nat := do
  ARM_COMPUTE_ERROR_ON (workspace_size == 0)
  pure ((workspace_size + alignment - 1) * num_threads)

/-- `setup_assembly_kernel(a, b, d, alpha, beta, workspace, memory_group,
asm_glue)`.  `scheduler_num_threads` is `NEScheduler::get().num_threads()`,
`acl_gemm_wrapper` the result of `make_unique`, `buffer` what
`workspace.buffer()` returns once the workspace is allocated; `workspace`
is the extent of the workspace tensor, if allocated.  The result is the
returned flag with the workspace and the glue afterwards. -/
def setup_assembly_kernel (F : GemmFactory) (scheduler_num_threads : Nat)
    (acl_gemm_wrapper : Option Bool) (buffer : Option Ptr) (heap : Heap) (a b d : Ptr)
    (workspace : Option Nat) (asm_glue : AssemblyKernelGlue) :
    Except Fatal (Bool × Option Nat × AssemblyKernelGlue) :=
  let M := (heap.get d).dimension 1
  let N := (heap.get d).dimension 0
  let K := (heap.get a).dimension 0
  let batches := ((heap.get a).tensor_shape.drop 2).prod
  let multis := (heap.get b).dimension 2
  let num_threads := scheduler_num_threads
  let asm_gemm := gemm F M N K batches multis num_threads
  match acl_gemm_wrapper, asm_gemm with
  | some _, some asm_gemm => do
    let acl_gemm_wrapper := some true
    let workspace_size := asm_gemm.working_size
    let (workspace, asm_gemm) ←
      if workspace_size != 0 then do
        let alignment := 4096
        let extent ← allocate_workspace workspace_size alignment num_threads
        match buffer with
        | none => throw Fatal.nullptr
        | some p => pure (some extent, asm_gemm.set_working_space p)
      else pure (workspace, asm_gemm)
    let window_size := asm_gemm.window_size
    let (_, asm_gemm) :=
      if window_size < num_threads then (window_size, asm_gemm.set_nthreads window_size)
      else (num_threads, asm_gemm)
    pure (true, workspace,
      { _gemm_kernel_asm := some asm_gemm, _optimised_kernel := acl_gemm_wrapper,
        _a := some a, _b := some b, _d := some d })
  | _, _ => pure (false, workspace, asm_glue)

end AssemblyHelper

/-! ## Reference helpers (tests/validation/CPP/Utils.cpp) -/

/-- Modelled from the spec: `TensorShape::operator[]`, `x()`, `y()`, whose class is
not among the sources; the extent along an axis, as for `TensorInfo.dimension`. -/
def shape_dim (shape : List Nat) (index : Nat) : Nat :=
  if shape.isEmpty then 0 else shape.getD index 1

/-- A reference tensor `SimpleTensor<T>`: its shape and its elements in memory
order. -/
structure SimpleTensor (α : Type) where
  shape : List Nat
  data : List α
  deriving DecidableEq, Repr

/-- `t[index]` read as a value; outside the buffer the value is unspecified,
here `default`. -/
def SimpleTensor.at {α : Type} [Inhabited α] (t : SimpleTensor α) (index : Nat) : α :=
  t.data.getD index default

/-- `t[index] = v`. -/
def SimpleTensor.put {α : Type} (t : SimpleTensor α) (index : Nat) (v : α) : SimpleTensor α :=
  { t with data := t.data.set index v }

/-- `Coordinates`: the x and y coordinates and those of the higher axes. -/
structure Coordinates where
  x : Int
  y : Int
  rest : List Int
  deriving DecidableEq, Repr

/-- `coord.set(dimension, value)`. -/
def Coordinates.set (c : Coordinates) (dimension : Nat) (value : Int) : Coordinates :=
  match dimension with
  | 0 => { c with x := value }
  | 1 => { c with y := value }
  | n + 2 => { c with rest := c.rest.set n value }

/-- `enum class BorderMode`. -/
inductive BorderMode where
  | UNDEFINED
  | CONSTANT
  | REPLICATE
  deriving DecidableEq, Repr

namespace validation

/-- `tensor_elem_at(in, coord, border_mode, constant_border_value)`;
`coord2index` (tests/Utils.h, not among the sources) is a parameter.  The
inner `match` is the point the early `return constant_border_value` leaves from. -/
def tensor_elem_at {α : Type} [Inhabited α] (coord2index : List Nat → Coordinates → Nat)
    (input : SimpleTensor α) (coord : Coordinates) (border_mode : BorderMode)
    (constant_border_value : α) : α :=
  let x := coord.x
  let y := coord.y
  let width : Int := (shape_dim input.shape 0 : Nat)
  let height : Int := (shape_dim input.shape 1 : Nat)
  let coord' : Option Coordinates :=
    if x < 0 ∨ y < 0 ∨ x ≥ width ∨ y ≥ height then
      if border_mode = BorderMode.REPLICATE then
        let coord := coord.set 0 (max 0 (min x (width - 1)))
        some (coord.set 1 (max 0 (min y (height - 1))))
      else none
    else some coord
  match coord' with
  | none => constant_border_value
  | some coord => input.at (coord2index input.shape coord)

/-- The values `lo, lo + 1, ..., hi` a loop `for(int v = lo; v <= hi; ++v)` takes. -/
def int_range_incl (lo hi : Int) : List Int :=
  (List.range (hi + 1 - lo).toNat).map (fun k : Nat => lo + (k : Int))

/-- The arithmetic of `apply_2d_spatial_filter`, which is floating point and a
parameter of the model: `D` stands for `double`, `S` for `float`. -/
structure FilterArith (D S T1 T2 T3 : Type) where
  zero : D
  add : D → D → D
  mul : D → D → D
  of_coefficient : T2 → D
  of_element : T1 → D
  of_scale : S → D
  trunc : D → D
  saturate_cast : D → T3

/-- The local state of the loops of `apply_2d_spatial_filter`: `filter_itr` is
the index of the coefficient the pointer is at, `reads` the indices of the
coefficients read so far. -/
structure FilterState (D : Type) where
  val : D
  coord : Coordinates
  filter_itr : Nat
  reads : List Nat

/-- The body of the inner loop of `apply_2d_spatial_filter`, for row `j` and
column `i`:
`coord.set(0, i); coord.set(1, j);`
`val += static_cast<double>(*filter_itr) * tensor_elem_at(in, coord, ...);`
`++filter_itr;` -/
def filter_step {D S T1 T2 T3 : Type} [Inhabited T1] (A : FilterArith D S T1 T2 T3)
    (coord2index : List Nat → Coordinates → Nat) (input : SimpleTensor T1) (filter : Nat → T2)
    (border_mode : BorderMode) (constant_border_value : T1) (j : Int) (st : FilterState D)
    (i : Int) : FilterState D :=
  let coord := (st.coord.set 0 i).set 1 j
  { val := A.add st.val (A.mul (A.of_coefficient (filter st.filter_itr))
      (A.of_element (tensor_elem_at coord2index input coord border_mode constant_border_value))),
    coord := coord,
    filter_itr := st.filter_itr + 1,
    reads := st.reads ++ [st.filter_itr] }

/-- `apply_2d_spatial_filter(coord, in, out, filter_shape, filter_itr, scale,
border_mode, constant_border_value)`: the output tensor afterwards and the
indices of the filter coefficients read, in order. -/
def apply_2d_spatial_filter {D S T1 T2 T3 : Type} [Inhabited T1] (A : FilterArith D S T1 T2 T3)
    (coord2index : List Nat → Coordinates → Nat) (coord : Coordinates)
    (input : SimpleTensor T1) (out : SimpleTensor T3) (filter_shape : List Nat)
    (filter : Nat → T2) (scale : S) (border_mode : BorderMode) (constant_border_value : T1) :
    SimpleTensor T3 × List Nat :=
  let x := coord.x
  let y := coord.y
  let half_w : Int := ((shape_dim filter_shape 0 / 2 : Nat) : Int)
  let half_h : Int := ((shape_dim filter_shape 1 / 2 : Nat) : Int)
  let st : FilterState D := { val := A.zero, coord := coord, filter_itr := 0, reads := [] }
  let st := (int_range_incl (y - half_h) (y + half_h)).foldl (fun st j =>
    (int_range_incl (x - half_w) (x + half_w)).foldl
      (filter_step A coord2index input filter border_mode constant_border_value j) st) st
  let coord := (st.coord.set 0 x).set 1 y
  let rounded_val := A.trunc (A.mul st.val (A.of_scale scale))
  (out.put (coord2index input.shape coord) (A.saturate_cast rounded_val), st.reads)

/-- The accumulation over the first `n` coefficients of one filter row whose
first coefficient has index `base`: coefficient `base + i` times the element at
`(x0 + i, yj, rest)`, added in order to `v`. -/
def row_sum {D S T1 T2 T3 : Type} [Inhabited T1] (A : FilterArith D S T1 T2 T3)
    (coord2index : List Nat → Coordinates → Nat) (input : SimpleTensor T1) (filter : Nat → T2)
    (border_mode : BorderMode) (constant_border_value : T1) (x0 : Int) (yj : Int)
    (rest : List Int) (base : Nat) (n : Nat) (v : D) : D :=
  (List.range n).foldl (fun v (i : Nat) =>
    A.add v (A.mul (A.of_coefficient (filter (base + i)))
      (A.of_element (tensor_elem_at coord2index input ⟨x0 + (i : Int), yj, rest⟩ border_mode
        constant_border_value)))) v

/-- The accumulation over the first `m` rows of a filter of width `fw`, in
row-major order: coefficient `j * fw + i` times the element at
`(x0 + i, y0 + j, rest)`. -/
def filter_sum {D S T1 T2 T3 : Type} [Inhabited T1] (A : FilterArith D S T1 T2 T3)
    (coord2index : List Nat → Coordinates → Nat) (input : SimpleTensor T1) (filter : Nat → T2)
    (border_mode : BorderMode) (constant_border_value : T1) (x0 y0 : Int)
    (rest : List Int) (fw : Nat) (m : Nat) : D :=
  (List.range m).foldl (fun v (j : Nat) =>
    row_sum A coord2index input filter border_mode constant_border_value x0 (y0 + (j : Int))
      rest (j * fw) fw v) A.zero

end validation

/-! ## Reference GEMMLowp (tests/validation/CPP/GEMMLowp.cpp) -/

/-- The value of an `int32_t` computation whose exact result is `x`: two's
complement wrap-around into `[-2^31, 2^31)`. -/
def wrap32 (x : Int) : Int := Int.bmod x (2 ^ 32)

/-- A loop `for(int i = 0; i < n; ++i)` whose body may fail (read or write
outside a buffer); the loop fails when an iteration does. -/
def for_range {σ : Type} (n : Nat) (body : Nat → σ → Option σ) (init : σ) : Option σ :=
  (List.range n).foldlM (fun s i => body i s) init

/-- `v[i]` read from a `std::vector`, checked against its size. -/
def vec_read (v : List Int) (i : Nat) : Option Int := v[i]?

/-- `v[i] = x` on a `std::vector`, checked against its size. -/
def vec_write (v : List Int) (i : Nat) (x : Int) : Option (List Int) :=
  if i < v.length then some (v.set i x) else none

/-- Modelled from the spec: `TensorShape::total_size()`, whose class is not among
the sources; the number of elements of a shape, the product of its extents. -/
def total_size (shape : List Nat) : Nat :=
  if shape.isEmpty then 0 else shape.prod

/-- `t.num_elements()`. -/
def SimpleTensor.num_elements {α : Type} (t : SimpleTensor α) : Nat := total_size t.shape

/-- `t[i]` read, checked against the buffer. -/
def SimpleTensor.read? {α : Type} (t : SimpleTensor α) (i : Nat) : Option α := t.data[i]?

/-- `t[i] = x`, checked against the buffer. -/
def SimpleTensor.write? {α : Type} (t : SimpleTensor α) (i : Nat) (x : α) :
    Option (SimpleTensor α) :=
  if i < t.data.length then some (t.put i x) else none

/-- The constructor `SimpleTensor<T>(shape, data_type)`: a buffer of
`total_size` elements, here zero-initialised. -/
def SimpleTensor.create (shape : List Nat) : SimpleTensor Int :=
  { shape := shape, data := List.replicate (total_size shape) 0 }

/-- `x >> s` on `int32_t`: undefined unless `0 <= s < 32`, otherwise the
arithmetic shift. -/
def shift_right32 (x s : Int) : Option Int :=
  if 0 ≤ s ∧ s < 32 then some (x >>> s.toNat) else none

namespace Reference

/-- `gemmlowp_matrix_multiply_core(a, b, a_offset, b_offset)`; the elements of
`a` and `b` are given by their values as `int32_t`.  `none` means that an
element was read or written outside its buffer. -/
def gemmlowp_matrix_multiply_core (a b : SimpleTensor Int) (a_offset b_offset : Int) :
    Option (SimpleTensor Int) :=
  let shape := [shape_dim b.shape 0, shape_dim a.shape 1]
  let c := SimpleTensor.create shape
  let K := shape_dim a.shape 0
  let b_width := shape_dim b.shape 0
  let rows := shape_dim c.shape 1
  let cols := shape_dim c.shape 0
  let acc : List Int := List.replicate cols 0
  (for_range rows (fun i (st : List Int × SimpleTensor Int) => do
    let acc ← for_range cols (fun j acc => vec_write acc j 0) st.1
    let acc ← for_range K (fun k acc => do
      let tmp_a := wrap32 (a_offset + (← a.read? (k + i * K)))
      for_range b_width (fun j acc => do
        let tmp_b := wrap32 (b_offset + (← b.read? (j + k * b_width)))
        let mult_as_int := wrap32 (tmp_a * tmp_b)
        vec_write acc j (wrap32 ((← vec_read acc j) + mult_as_int))) acc) acc
    let c ← for_range cols (fun j c => do c.write? (j + i * cols) (← vec_read acc j)) st.2
    pure (acc, c)) (acc, c)).map (fun st => st.2)

/-- `quantize_down_int32_to_uint8_scale(in, bias, dst, result_offset,
result_mult_int, result_shift, min, max)`; `bias` may be null.  The result is
`dst` afterwards, its `uint8_t` elements given by their values. -/
def quantize_down_int32_to_uint8_scale (input : SimpleTensor Int)
    (bias : Option (SimpleTensor Int)) (dst : SimpleTensor Int)
    (result_offset result_mult_int result_shift min max : Int) : Option (SimpleTensor Int) :=
  let cols_in := shape_dim input.shape 0
  for_range input.num_elements (fun i dst => do
    let result := wrap32 (wrap32 ((← input.read? i) + result_offset) * result_mult_int)
    let result ←
      match bias with
      | some bias => do pure (wrap32 (result + (← bias.read? (i % cols_in))))
      | none => pure result
    let result ← shift_right32 result result_shift
    let result := if min != max then Max.max min (Min.min max result) else result
    dst.write? i (Max.max 0 (Min.min 255 result))) dst

/-- `gemmlowp_quantize_down_int32_to_uint8_scale(in, result_offset,
result_mult_int, result_shift, min, max)`, the overload without bias. -/
def gemmlowp_quantize_down_int32_to_uint8_scale (input : SimpleTensor Int)
    (result_offset result_mult_int result_shift min max : Int) : Option (SimpleTensor Int) :=
  let dst := SimpleTensor.create input.shape
  quantize_down_int32_to_uint8_scale input none dst result_offset result_mult_int result_shift
    min max

/-- `gemmlowp_quantize_down_int32_to_uint8_scale(in, bias, result_offset,
result_mult_int, result_shift, min, max)`, the overload with bias. -/
def gemmlowp_quantize_down_int32_to_uint8_scale_bias (input bias : SimpleTensor Int)
    (result_offset result_mult_int result_shift min max : Int) : Option (SimpleTensor Int) :=
  let dst := SimpleTensor.create input.shape
  quantize_down_int32_to_uint8_scale input (some bias) dst result_offset result_mult_int
    result_shift min max

/-- The value the quantize-down stage computes for an accumulator `v` and a
bias term `bv`, in exact integer arithmetic. -/
def quantized (v bv result_offset result_mult_int result_shift min max : Int) : Int :=
  let r := ((v + result_offset) * result_mult_int + bv) / 2 ^ result_shift.toNat
  let r' := if min = max then r else Max.max min (Min.min max r)
  Max.max 0 (Min.min 255 r')

/-- The value lies in the range of `int32_t`. -/
def in_int32 (x : Int) : Prop := -2 ^ 31 ≤ x ∧ x < 2 ^ 31

instance (x : Int) : Decidable (in_int32 x) := by
  unfold in_int32
  exact inferInstance

/-- The exact sum of products for row `i` and column `j` over the first `n`
values of `k`. -/
def dot (a b : SimpleTensor Int) (a_offset b_offset : Int) (K N i j n : Nat) : Int :=
  Finset.sum (Finset.range n) (fun k =>
    (a_offset + a.data.getD (k + i * K) 0) * (b_offset + b.data.getD (j + k * N) 0))

end Reference

/-! ## Window loops and AlexNetNetwork::get_classifications -/

/-- Modelled from the spec: `Coordinates::num_max_dimensions`, the number of
axes of a `Window` (`Window.h` is not among the sources). -/
def num_max_dimensions : Nat := 6

/-- Modelled from the spec: the default constructor `Window()`, not among the
sources; every axis is `Dimension(0, 1, 1)`. -/
def Window.new : Window := ⟨List.replicate num_max_dimensions ⟨0, 1, 1⟩⟩

/-- Modelled from the spec: `window.set(dimension, dim)`. -/
def Window.set (w : Window) (dimension : Nat) (dim : Dimension) : Window :=
  ⟨w.dims.set dimension dim⟩

/-- The values `start, start + step, ...` below `stop` an axis of a window
takes. -/
def Dimension.values (d : Dimension) : List Int :=
  (List.range ((d.stop - d.start + d.step - 1) / d.step).toNat).map
    (fun k : Nat => d.start + (k : Int) * d.step)

/-- The coordinates of a rectangular iteration space, the first axis running
fastest. -/
def iteration_space : List Dimension → List (List Int)
  | [] => [[]]
  | d :: ds => ((iteration_space ds).map fun rest => d.values.map fun x => x :: rest).flatten

/-- Modelled from the spec: `execute_window_loop(window, lambda)` of
`Helpers.h`, not among the sources: the lambda is called once for every
coordinate of the window's rectangular iteration space, the results collected
in order of the calls. -/
def execute_window_loop {β : Type} (w : Window) (lambda_function : List Int → β) : List β :=
  (iteration_space w.dims).map lambda_function

/-- Modelled from the spec: `data_size_from_type(data_type)` of `Utils.h`, not
among the sources: the size in bytes of an element, read off the names of the
data types. -/
def data_size_from_type : DataType → Nat
  | .U8 | .S8 | .QS8 | .QASYMM8 => 1
  | .U16 | .S16 | .QS16 | .F16 => 2
  | .U32 | .S32 | .F32 => 4
  | .UNKNOWN => 0

namespace AlexNetNetwork

/-- The tensor `output` as its `Accessor` presents it: the data type and shape
given by `init` (`TensorInfo(TensorShape(1000U, _batches), 1, _data_type, ...)`),
the bytes of its buffer, and where the elements lie in it. -/
structure OutputTensor where
  data_type : DataType
  shape : List Nat
  buffer : List Nat
  offset_first_element_in_bytes : Nat
  strides_in_bytes : List Nat
  deriving DecidableEq, Repr

/-- Modelled from the spec: `output_accessor(id)`, that is
`ITensorInfo::offset_element_in_bytes(id)` (not among the sources): the
position in the buffer of the element at `id`, the offset of the first element
plus the coordinates times the strides. -/
def OutputTensor.offset_element_in_bytes (t : OutputTensor) (id : List Int) : Nat :=
  t.offset_first_element_in_bytes
    + (List.zipWith (fun (c : Int) (s : Nat) => c.toNat * s) id t.strides_in_bytes).sum

/-- The `n` bytes of the buffer from position `addr`; `none` when they do not
all lie inside the buffer. -/
def read_bytes (buffer : List Nat) (addr n : Nat) : Option (List Nat) :=
  if addr + n ≤ buffer.length then some ((buffer.drop addr).take n) else none

/-- `reinterpret_cast<const float *>(out_ptr)[l]`: the `float` held by the four
bytes at `out_ptr + 4 * l`, whatever the data type of the tensor;
`float_of_bytes` gives the value of a `float` from its bytes. -/
def read_float {α : Type} (float_of_bytes : List Nat → α) (buffer : List Nat)
    (out_ptr l : Nat) : Option α :=
  (read_bytes buffer (out_ptr + 4 * l) 4).map float_of_bytes

/-- The value of the element at the coordinate `c`: its
`data_size_from_type(data_type)` bytes in the buffer, read as a value of the
tensor's data type (`value_of_bytes`). -/
def OutputTensor.element {α : Type} (value_of_bytes : DataType → List Nat → α)
    (t : OutputTensor) (c : List Int) : α :=
  value_of_bytes t.data_type
    ((t.buffer.drop (t.offset_element_in_bytes c)).take (data_size_from_type t.data_type))

/-- The state of the inner loop of `get_classifications`. -/
structure Best (α : Type) where
  max_idx : Nat
  val : α
  deriving DecidableEq, Repr

/-- The body of the loop over `l` on a row of scores:
`if(curr_val > val) { max_idx = l; val = curr_val; }`. -/
def best_step {α : Type} [LT α] [DecidableRel (fun a b : α => a < b)] (row : Nat → α)
    (st : Best α) (l : Nat) : Best α :=
  let curr_val := row l
  if st.val < curr_val then { max_idx := l, val := curr_val } else st

/-- The loop over `l` on a row of `width` scores: the label it ends with. -/
def classify {α : Type} [LT α] [DecidableRel (fun a b : α => a < b)] [Zero α] (width : Nat)
    (row : Nat → α) : Nat :=
  ((List.range width).foldl (best_step row) { max_idx := 0, val := 0 }).max_idx

/-- The lambda of `get_classifications` at `out_ptr`: the loop over
`l < output_accessor.shape().x()`, which reads `curr_val` as a `float` behind
`out_ptr`, and the label pushed back; `none` when a read leaves the buffer. -/
def classify_at {α : Type} [LT α] [DecidableRel (fun a b : α => a < b)] [Zero α]
    (float_of_bytes : List Nat → α) (buffer : List Nat) (out_ptr width : Nat) : Option Nat :=
  (for_range width (fun l (st : Best α) => do
    let curr_val ← read_float float_of_bytes buffer out_ptr l
    pure (if st.val < curr_val then { max_idx := l, val := curr_val } else st))
    { max_idx := 0, val := 0 }).map fun st => st.max_idx

/-- `get_classifications()` on the tensor `output`; `none` when a read leaves
the buffer. -/
def get_classifications {α : Type} [LT α] [DecidableRel (fun a b : α => a < b)] [Zero α]
    (float_of_bytes : List Nat → α) (output : OutputTensor) : Option (List Nat) :=
  let window := Window.new.set Window.DimX ⟨0, 1, 1⟩
  let window := (List.range (output.shape.length - 1)).foldl (fun (w : Window) (k : Nat) =>
    let d := k + 1
    w.set d ⟨0, (shape_dim output.shape d : Nat), 1⟩) window
  List.mapM (fun (label : Option Nat) => label) (execute_window_loop window fun id =>
    let out_ptr := output.offset_element_in_bytes id
    classify_at float_of_bytes output.buffer out_ptr (shape_dim output.shape 0))

/-- The window `get_classifications` iterates over, for a shape of 1 to 6
dimensions. -/
def window_dims (shape : List Nat) : List Dimension :=
  ⟨0, 1, 1⟩ :: (shape.tail.map fun s => ⟨0, (s : Int), 1⟩)
    ++ List.replicate (num_max_dimensions - shape.length) ⟨0, 1, 1⟩

/-- The order of IEEE 754 values on their bytes (least significant first): the
bits without the sign bit, negated when the sign bit is set.  For values other
than NaN, `a < b` holds exactly when the key of `a` is less than that of `b`,
and the key of zero is 0. -/
def ieee_key (bytes : List Nat) : Int :=
  let bits : Nat := bytes.foldr (fun (b acc : Nat) => b + 256 * acc) 0
  let sign_bit : Nat := 2 ^ (8 * bytes.length - 1)
  if bits < sign_bit then (bits : Int) else -((bits - sign_bit : Nat) : Int)

end AlexNetNetwork

/-! ## CLHelpers (src/core/CL/CLHelpers.cpp) -/

namespace CLHelpers

/-- `enum class GPUTarget` (`CLTypes.h` is not among the sources): the
enumerators named in `string_from_target`. -/
inductive GPUTarget where
  | MIDGARD
  | BIFROST
  | T600
  | T700
  | T800
  | G70
  deriving DecidableEq, Repr

/-- `get_bifrost_target(name)`. -/
def get_bifrost_target (name : List Char) : GPUTarget :=
  let target := GPUTarget.MIDGARD
  if name = ['G', '7'] then GPUTarget.G70 else target

/-- `get_midgard_target(name)`. -/
def get_midgard_target (name : List Char) : GPUTarget :=
  let target := GPUTarget.MIDGARD
  if name = ['T', '6'] then GPUTarget.T600
  else if name = ['T', '7'] then GPUTarget.T700
  else if name = ['T', '8'] then GPUTarget.T800
  else target

/-- `s.find(str)` of `std::string`: the position of the first occurrence of
`str` in `s`, or `npos` (here `none`). -/
def find : List Char → List Char → Option Nat
  | [], str => if str.isPrefixOf [] then some 0 else none
  | c :: s, str => if str.isPrefixOf (c :: s) then some 0 else (find s str).map (· + 1)

/-- `s.substr(pos, n)` of `std::string` for `pos <= s.size()`: the at most `n`
characters from position `pos`. -/
def substr (s : List Char) (pos n : Nat) : List Char := (s.drop pos).take n

/-- `s[i]` of `std::string` for `i <= s.size()`: at `s.size()` it is the
terminating null character. -/
def char_at (s : List Char) (i : Nat) : Char := s.getD i (Char.ofNat 0)

/-- `"Mali-"`. -/
def name_mali : List Char := ['M', 'a', 'l', 'i', '-']

/-- `get_target_from_device(device)`: `err_size` and `name_size` are what the
first `clGetDeviceInfo` returns, `err_name` and `name` (of `name_size`
characters) what the second one returns. -/
def get_target_from_device (err_size : Int) (name_size : Nat) (err_name : Int)
    (name : List Char) : Except Fatal GPUTarget := do
  let target := GPUTarget.MIDGARD
  ARM_COMPUTE_ERROR_ON (err_size != 0 || name_size == 0)
  ARM_COMPUTE_ERROR_ON (err_name != 0)
  let name_str := name
  match find name_str name_mali with
  | some pos =>
    ARM_COMPUTE_ERROR_ON (decide ((pos + name_mali.length + 2) > name_str.length))
    let sub_name := substr name_str (pos + name_mali.length) 2
    if char_at sub_name 0 = 'G' then pure (get_bifrost_target sub_name)
    else if char_at sub_name 0 = 'T' then pure (get_midgard_target sub_name)
    else pure target
  | none => pure target

end CLHelpers

/-! ## CLMemory (src/runtime/CL/CLMemory.cpp) -/

/-- The number of `std::shared_ptr` objects owning the region at an address. -/
abbrev UseCount := Ptr → Nat

/-- A `std::shared_ptr` or `std::unique_ptr` gives up the region it holds, if any. -/
def UseCount.release (uc : UseCount) (p : Option Ptr) : UseCount :=
  match p with
  | none => uc
  | some a => Function.update uc a (uc a - 1)

/-- A `std::shared_ptr` starts to own the region it is given, if any. -/
def UseCount.acquire (uc : UseCount) (p : Option Ptr) : UseCount :=
  match p with
  | none => uc
  | some a => Function.update uc a (uc a + 1)

/-- The members of `CLMemory`: the raw pointer `_region` and the
`std::shared_ptr` `_region_owned`, each null or the address of a region. -/
structure CLMemory where
  _region : Option Ptr
  _region_owned : Option Ptr
  deriving DecidableEq, Repr

namespace CLMemory

/-- `std::move(p)` used to construct or assign a smart pointer: the value
taken and the moved-from pointer, which is null. -/
def std_move (p : Option Ptr) : Option Ptr × Option Ptr := (p, none)

/-- `CLMemory::CLMemory()`. -/
def create : CLMemory := { _region := none, _region_owned := none }

/-- `CLMemory::CLMemory(std::shared_ptr<ICLMemoryRegion> memory)`; `memory` is
the by-value parameter, one of the owners counted in `uc`.  The result is the
object with the use counts after the constructor returned. -/
def create_shared (memory : Option Ptr) (uc : UseCount) : CLMemory × UseCount :=
  -- `: _region(nullptr), _region_owned(std::move(memory))`
  let _region : Option Ptr := none
  let (_region_owned, memory) := std_move memory
  -- `_region_owned = memory;`
  let uc := (uc.release _region_owned).acquire memory
  let _region_owned := memory
  -- `_region = _region_owned.get();`
  let _region := _region_owned
  -- the parameter goes out of scope
  let uc := uc.release memory
  ({ _region := _region, _region_owned := _region_owned }, uc)

/-- `CLMemory::CLMemory(ICLMemoryRegion *memory)`. -/
def create_raw (memory : Option Ptr) : CLMemory :=
  let m : CLMemory := { _region := memory, _region_owned := none }
  { m with _region := memory }

/-- `cl_region()`. -/
def cl_region (m : CLMemory) : Option Ptr := m._region

/-- `region()`. -/
def region (m : CLMemory) : Option Ptr := m._region

/-- Modelled from the spec: `utils::cast::polymorphic_downcast<ICLMemoryRegion *>(p)`
and `polymorphic_downcast_unique_ptr` of `Cast.h`, not among the sources: the
same address, asserted to be null or the address of an `ICLMemoryRegion`
(`is_cl`). -/
def polymorphic_downcast (is_cl : Ptr → Bool) (p : Option Ptr) : Except Fatal (Option Ptr) := do
  ARM_COMPUTE_ERROR_ON (match p with
    | none => false
    | some a => !is_cl a)
  pure p

/-- `set_region(region)`. -/
def set_region (is_cl : Ptr → Bool) (m : CLMemory) (uc : UseCount) (region : Option Ptr) :
    Except Fatal (CLMemory × UseCount) := do
  let cl_region ← polymorphic_downcast is_cl region
  let uc := uc.release m._region_owned
  let m := { m with _region_owned := none }
  pure ({ m with _region := cl_region }, uc)

/-- `set_owned_region(region)`; `region` is a `std::unique_ptr`. -/
def set_owned_region (is_cl : Ptr → Bool) (m : CLMemory) (uc : UseCount)
    (region : Option Ptr) : Except Fatal (CLMemory × UseCount) := do
  let (region, _) := std_move region
  let owned ← polymorphic_downcast is_cl region
  let uc := (uc.release m._region_owned).acquire owned
  let m := { m with _region_owned := owned }
  pure ({ m with _region := m._region_owned }, uc)

/-- The two fields agree: an owned region is the one exposed. -/
def consistent (m : CLMemory) : Prop :=
  m._region_owned.isSome → m._region = m._region_owned

end CLMemory

/-! ## The workspace of NEGEMMLowpAArch64V8P4Kernel::run -/

namespace NEGEMMLowpAArch64V8P4Kernel

/-- Modelled from the spec: `support::cpp11::align(alignment, size, ptr, space)`
of `ToolchainSupport.h`, not among the sources, which is `std::align`: the
first address from `ptr` on that is a multiple of `alignment`, with the space
left behind it, or null (here `none`) when `size` bytes from there do not fit
into `space` bytes from `ptr`. -/
def align (alignment size ptr space : Nat) : Option (Ptr × Nat) :=
  let aligned := (ptr + alignment - 1) / alignment * alignment
  let padding := aligned - ptr
  if size + padding > space then none else some (aligned, space - padding)

/-- The part of `run(window, info)` that selects the workspace of the calling
thread: `working_size` is `gemm.get_working_size()`, `buffer` the address
`_workspace->buffer()`, `total_size` is `_workspace->info()->total_size()`.
The result is the pointer passed to `gemm.execute`; `none` is
`ARM_COMPUTE_ERROR("Not enough space to align buffer!")`. -/
def run_workspace (working_size : Nat) (buffer : Ptr) (total_size thread_id : Nat) :
    Option Ptr :=
  let alignment := 4096
  let offset := (working_size + alignment - 1) * thread_id
  let workspace := buffer + offset
  let workspace_size := total_size
  match align alignment working_size workspace workspace_size with
  | none => none
  | some (workspace, _) => some workspace

end NEGEMMLowpAArch64V8P4Kernel

/-! ## finalize_quantization
(src/core/NEON/kernels/NEGEMMLowpQuantizeDownInt32ToUint8ScaleByFixedPointKernel.cpp)

The NEON vector types are functions from the lane index to the value of the
lane; the intrinsics of `arm_neon.h` are given lane by lane. -/

namespace NEON

/-- Saturation of `x` to the range `[lo, hi]`. -/
def saturate (lo hi x : Int) : Int := max lo (min hi x)

/-- `vdupq_n_s32(x)`. -/
def vdupq_n_s32 (x : Int) : Fin 4 → Int := fun _ => x

/-- `vdupq_n_u8(x)`. -/
def vdupq_n_u8 (x : Int) : Fin 16 → Int := fun _ => x

/-- `vqrdmulhq_n_s32(a, b)`: saturating rounding doubling multiply returning
the high half. -/
def vqrdmulhq_n_s32 (a : Fin 4 → Int) (b : Int) : Fin 4 → Int :=
  fun i => saturate (-2 ^ 31) (2 ^ 31 - 1) ((2 * a i * b + 2 ^ 31) / 2 ^ 32)

/-- `vaddq_s32(a, b)`. -/
def vaddq_s32 (a b : Fin 4 → Int) : Fin 4 → Int := fun i => wrap32 (a i + b i)

/-- `vmaxq_s32(a, b)`. -/
def vmaxq_s32 (a b : Fin 4 → Int) : Fin 4 → Int := fun i => max (a i) (b i)

/-- `vqmovn_s32(a)`: saturating narrowing to `int16_t`. -/
def vqmovn_s32 (a : Fin 4 → Int) : Fin 4 → Int :=
  fun i => saturate (-2 ^ 15) (2 ^ 15 - 1) (a i)

/-- `vcombine_s16(low, high)`. -/
def vcombine_s16 (low high : Fin 4 → Int) : Fin 8 → Int := Fin.append low high

/-- `vqmovun_s16(a)`: saturating narrowing of signed to `uint8_t`. -/
def vqmovun_s16 (a : Fin 8 → Int) : Fin 8 → Int := fun i => saturate 0 255 (a i)

/-- `vcombine_u8(low, high)`. -/
def vcombine_u8 (low high : Fin 8 → Int) : Fin 16 → Int := Fin.append low high

/-- `vmaxq_u8(a, b)`. -/
def vmaxq_u8 (a b : Fin 16 → Int) : Fin 16 → Int := fun i => max (a i) (b i)

/-- `vminq_u8(a, b)`. -/
def vminq_u8 (a b : Fin 16 → Int) : Fin 16 → Int := fun i => min (a i) (b i)

end NEON

namespace NEGEMMLowpQuantizeDownInt32ToUint8ScaleByFixedPointKernel

open NEON in
/-- `finalize_quantization<is_bounded_relu>(in_s32, result_fixedpoint_multiplier,
result_shift, result_offset_after_shift_s32, min_u8, max_u8)`: the returned
vector.  `in_s32` is the four vectors `in_s32.val[0..3]`;
`rounding_divide_by_pow2` (`NEAsymm.h`, not among the sources) is a parameter. -/
def finalize_quantization (is_bounded_relu : Bool)
    (rounding_divide_by_pow2 : (Fin 4 → Int) → Int → Fin 4 → Int)
    (in_s32 : Fin 4 → Fin 4 → Int) (result_fixedpoint_multiplier result_shift : Int)
    (result_offset_after_shift_s32 : Fin 4 → Int) (min_u8 max_u8 : Fin 16 → Int) :
    Fin 16 → Int :=
  let zero_s32 := vdupq_n_s32 0
  -- Fixed point multiplication with vector saturating rounding doubling multiply high
  let in_s32 : Fin 4 → Fin 4 → Int :=
    fun v => vqrdmulhq_n_s32 (in_s32 v) result_fixedpoint_multiplier
  -- Round to the nearest division by a power-of-two using result_shift_s32
  let in_s32 : Fin 4 → Fin 4 → Int := fun v => rounding_divide_by_pow2 (in_s32 v) result_shift
  -- Add the offset terms
  let in_s32 : Fin 4 → Fin 4 → Int := fun v => vaddq_s32 (in_s32 v) result_offset_after_shift_s32
  -- Saturate negative values
  let in_s32 : Fin 4 → Fin 4 → Int := fun v => vmaxq_s32 (in_s32 v) zero_s32
  -- Convert S32 to S16
  let in_s16 : Fin 2 → Fin 8 → Int := fun v =>
    match v with
    | 0 => vcombine_s16 (vqmovn_s32 (in_s32 0)) (vqmovn_s32 (in_s32 1))
    | 1 => vcombine_s16 (vqmovn_s32 (in_s32 2)) (vqmovn_s32 (in_s32 3))
  -- Convert S16 to U8
  let out_u8 := vcombine_u8 (vqmovun_s16 (in_s16 0)) (vqmovun_s16 (in_s16 1))
  if is_bounded_relu then
    let out_u8 := vmaxq_u8 out_u8 min_u8
    vminq_u8 out_u8 max_u8
  else out_u8

end NEGEMMLowpQuantizeDownInt32ToUint8ScaleByFixedPointKernel

/-! ## The benchmark main (tests/benchmark_new/main.cpp) -/

namespace benchmark_main

/-- `framework::LogFormat`, the values of `supported_log_formats`. -/
inductive LogFormat where
  | NONE
  | PRETTY
  | JSON
  deriving DecidableEq, Repr

/-- The printer objects `main` creates. -/
inductive Printer where
  | JSONPrinter
  | PrettyPrinter (color_output : Bool)
  deriving DecidableEq, Repr

/-- What `main` does that can be observed, in order. -/
inductive Event where
  | print_help
  | set_stream
  | print_global_header
  | print_entry (name : String)
  | framework_init
  | framework_set_printer (printer : Option Printer)
  | list_tests
  | framework_run
  | print_global_footer
  deriving DecidableEq, Repr

/-- The ways `main` can stop other than by returning. -/
inductive Fault where
  | null_dereference (trace : List Event)
  deriving DecidableEq, Repr

/-- The values of the parsed command line that `main` branches on. -/
structure Options where
  help_is_set : Bool
  help : Bool
  valid : Bool
  log_format : LogFormat
  color_output : Bool
  log_file_is_set : Bool
  list_tests : Bool
  deriving DecidableEq, Repr

/-- A member call `printer->f()` through the `std::unique_ptr`. -/
def call (printer : Option Printer) (e : Event) (trace : List Event) :
    Except Fault (List Event) :=
  match printer with
  | none => .error (.null_dereference trace)
  | some _ => .ok (trace ++ [e])

/-- The body of the `try` block of `main` after `parser.parse(argc, argv)`:
the return value and the events; `run_success` is what `framework.run()`
returns. -/
def main (o : Options) (run_success : Bool) : Except Fault (Int × List Event) := do
  if o.help_is_set && o.help then
    return (0, [Event.print_help])
  if !o.valid then
    return (1, [])
  let printer : Option Printer :=
    match o.log_format with
    | .JSON => some .JSONPrinter
    | .NONE => none
    | .PRETTY => some (.PrettyPrinter o.color_output)
  let trace : List Event :=
    if printer != none then
      if o.log_file_is_set then [Event.set_stream] else []
    else []
  let trace ← call printer .print_global_header trace
  let trace ← call printer (.print_entry "Seed") trace
  let trace ← call printer (.print_entry "Iterations") trace
  let trace ← call printer (.print_entry "Threads") trace
  let trace ← call printer (.print_entry "Dataset mode") trace
  let trace := trace ++ [Event.framework_init, Event.framework_set_printer printer]
  let (success, trace) :=
    if o.list_tests then (true, trace ++ [Event.list_tests])
    else (run_success, trace ++ [Event.framework_run])
  let trace ← call printer .print_global_footer trace
  return (if success then 0 else 1, trace)

end benchmark_main

/-! ## Reference convolution3d (tests/validation_new/CPP/ConvolutionLayer.cpp) -/

namespace Reference

/-- `is_valid_pixel(i, min, max)`. -/
def is_valid_pixel (i min max : Int) : Bool := decide (i ≥ min) && decide (i < max)

/-- `p[i]` for a pointer `p` to the first element of the buffer `buf` and an
`int` index, checked against the buffer. -/
def read_at {α : Type} (buf : List α) (i : Int) : Option α :=
  if 0 ≤ i then buf[i.toNat]? else none

/-- The body of the innermost loop of `convolution3d`, for the input feature
map `ifm` and the tap `(xk, yk)`. -/
def tap_step {α : Type} [Add α] [Mul α] (input weights : List α)
    (xi yi width_in height_in width_weights height_weights : Int) (ifm yk : Int) (acc : α)
    (xk : Int) : Option α :=
  let half_width_weights := Int.tdiv width_weights 2
  let half_height_weights := Int.tdiv height_weights 2
  let offset_slice_in := xi + yi * width_in + ifm * width_in * height_in
  -- Check if the pixel is out-of-bound
  if is_valid_pixel (xi + xk) 0 width_in && is_valid_pixel (yi + yk) 0 height_in then do
    let idx := xk + half_width_weights
    let idy := yk + half_height_weights
    let i_value ← read_at input (offset_slice_in + xk + yk * width_in)
    let w_value ← read_at weights
      (idx + idy * width_weights + ifm * width_weights * height_weights)
    pure (acc + i_value * w_value)
  else pure acc

/-- `convolution3d(in, weights, bias, out, xi, yi, width_in, height_in,
depth_in, width_weights, height_weights, fixed_point_position)` for a floating
point type, whose arithmetic is that of `α`: `input` and `weights` are the
buffers behind `in` and `weights`, `bias` is `*bias`, the result is `*out`
afterwards; `none` means that an element was read outside its buffer. -/
def convolution3d {α : Type} [Zero α] [Add α] [Mul α] (input weights : List α) (bias : α)
    (xi yi width_in height_in depth_in width_weights height_weights : Int) : Option α := do
  let half_width_weights := Int.tdiv width_weights 2
  let half_height_weights := Int.tdiv height_weights 2
  -- Reset accumulator
  let acc : α := 0
  -- Compute a 2D convolution for each IFM and accumulate the result
  let acc ← (List.range depth_in.toNat).foldlM (fun acc (ifm : Nat) =>
    (validation.int_range_incl (-half_height_weights) half_height_weights).foldlM
      (fun acc yk =>
        (validation.int_range_incl (-half_width_weights) half_width_weights).foldlM
          (tap_step input weights xi yi width_in height_in width_weights height_weights
            (ifm : Int) yk) acc) acc) acc
  -- Accumulate the bias and store the result
  pure (acc + bias)

/-- The taps of `convolution3d` in the order of its loops: the input feature
map, `yk` and `xk`. -/
def taps (depth_in : Nat) (half_width_weights half_height_weights : Int) :
    List (Nat × Int × Int) :=
  (List.range depth_in).flatMap fun ifm =>
    (validation.int_range_incl (-half_height_weights) half_height_weights).flatMap fun yk =>
      (validation.int_range_incl (-half_width_weights) half_width_weights).map fun xk =>
        (ifm, yk, xk)

/-- The index of the input element under a tap. -/
def input_index (xi yi width_in height_in : Int) (t : Nat × Int × Int) : Int :=
  xi + yi * width_in + (t.1 : Int) * width_in * height_in + t.2.2 + t.2.1 * width_in

/-- The index of the weight of a tap. -/
def weight_index (width_weights height_weights : Int) (t : Nat × Int × Int) : Int :=
  t.2.2 + Int.tdiv width_weights 2 + (t.2.1 + Int.tdiv height_weights 2) * width_weights
    + (t.1 : Int) * width_weights * height_weights

/-- The tap falls inside the image. -/
def in_image (xi yi width_in height_in : Int) (t : Nat × Int × Int) : Bool :=
  is_valid_pixel (xi + t.2.2) 0 width_in && is_valid_pixel (yi + t.2.1) 0 height_in

/-- The accumulator after the tap `t`, when the tap is inside the image. -/
def tap_value {α : Type} [Zero α] [Add α] [Mul α] (input weights : List α)
    (xi yi width_in height_in width_weights height_weights : Int) (acc : α)
    (t : Nat × Int × Int) : α :=
  acc + input.getD (input_index xi yi width_in height_in t).toNat 0
    * weights.getD (weight_index width_weights height_weights t).toNat 0

end Reference

/-! ## NEDepthwiseConvolution3x3::configure -/

namespace NEDepthwiseConvolution3x3

/-- What the three member kernels were last configured with: `_kernel` with
`(input, output, weights)`, `_border_handler` with `input`, `_bias_kernel`
with `(output, biases)`; `none` before their first `configure`. -/
structure Kernels where
  _kernel : Option (Ptr × Ptr × Ptr)
  _border_handler : Option Ptr
  _bias_kernel : Option (Ptr × Ptr)
  deriving DecidableEq, Repr

/-- The constructor `NEDepthwiseConvolution3x3()`: `_has_bias(false)`. -/
def Function.new : Function := { _has_bias := false }

/-- The member kernels after the constructor. -/
def Kernels.new : Kernels := { _kernel := none, _border_handler := none, _bias_kernel := none }

/-- `configure(input, output, weights, biases, conv_info)`; `biases` may be
null.  The `configure` functions of the member kernels are not among the
sources; they are taken to succeed and recorded in `Kernels`. -/
def configure (heap : Heap) (f : Function) (ks : Kernels) (input output weights : Ptr)
    (biases : Option Ptr) : Except Fatal (Function × Kernels) := do
  ARM_COMPUTE_ERROR_ON (data_type_channel_not_in (heap.get input) 1 DataType.F32)
  ARM_COMPUTE_ERROR_ON (mismatching_data_types (heap.get input) (heap.get output)
    || mismatching_data_types (heap.get input) (heap.get weights))
  -- Call convolution kernel
  let ks := { ks with _kernel := some (input, output, weights) }
  let ks := { ks with _border_handler := some input }
  match biases with
  | some biases =>
    let ks := { ks with _bias_kernel := some (output, biases) }
    pure ({ f with _has_bias := true }, ks)
  | none => pure (f, ks)

end NEDepthwiseConvolution3x3

/-! ## Proofs -/

namespace Reference

theorem axis_loop_from (start stop stride : Int) (hs : 0 < stride) (n : Nat)
    (hn : start + (n : Int) * stride ≥ stop)
    (hlt : ∀ j : Nat, j < n → start + (j : Int) * stride < stop) :
    ∀ (m j : Nat), j + m = n → ∀ fuel, m < fuel →
      axis_loop fuel (start + (j : Int) * stride) start stop stride
        = some ((List.range' j m).map (fun i : Nat => (i : Int))) := by
  intro m
  induction m with
  | zero =>
    intro j hj fuel hf
    obtain ⟨f, rfl⟩ : ∃ f, fuel = f + 1 := ⟨fuel - 1, by omega⟩
    have : j = n := by omega
    subst this
    simp [axis_loop, not_lt.mpr hn]
  | succ m ih =>
    intro j hj fuel hf
    obtain ⟨f, rfl⟩ : ∃ f, fuel = f + 1 := ⟨fuel - 1, by omega⟩
    have hj' : j < n := by omega
    have h1 := hlt j hj'
    have h2 := ih (j + 1) (by omega) f (by omega)
    have e : start + (j : Int) * stride + stride = start + ((j + 1 : Nat) : Int) * stride := by
      push_cast; ring
    have d : Int.tdiv (start + (j : Int) * stride - start) stride = (j : Int) := by
      have : start + (j : Int) * stride - start = (j : Int) * stride := by ring
      rw [this, Int.tdiv_eq_ediv (by positivity) hs.le]
      exact Int.mul_ediv_cancel _ hs.ne'
    rw [axis_loop, if_pos h1, e, h2, d]
    simp [List.range'_succ]

end Reference

/-- C1: along one spatial axis the reference `convolution_layer` loop, for odd
kernel extent `k`, stride `s ≥ 1`, padding `p ≤ k / 2` and `W + 2p ≥ k`,
terminates having visited exactly `(W + 2p - k) / s + 1` positions whose output
coordinates are `0, 1, 2, ...` in order; for `W = 28, k = 5, s = 1, p = 0`
that is 24 positions. -/
theorem C1_convolution_axis_output_extent (W k s p : Nat) (hk : k % 2 = 1) (hs : 1 ≤ s)
    (hp : p ≤ k / 2) (hW : k ≤ W + 2 * p) (fuel : Nat) (hfuel : (W + 2 * p - k) / s + 1 < fuel) :
    Reference.convolution_axis fuel W k s p
        = some ((List.range ((W + 2 * p - k) / s + 1)).map (fun i : Nat => (i : Int)))
      ∧ (Reference.convolution_axis 26 28 5 1 0).map List.length = some 24 := by
  refine ⟨?_, by decide⟩
  have hk2 : 2 * (k / 2) + 1 = k := by omega
  have hhalf : Int.tdiv (k : Int) 2 = ((k / 2 : Nat) : Int) := by
    rw [Int.tdiv_eq_ediv (by positivity) (by norm_num)]; norm_cast
  have hstart : Reference.start_xi p k = ((k / 2 - p : Nat) : Int) := by
    unfold Reference.start_xi Reference.pad_xi
    rw [hhalf, min_eq_left (by exact_mod_cast hp)]
    omega
  obtain ⟨n, hn⟩ : ∃ n, n = (W + 2 * p - k) / s + 1 := ⟨_, rfl⟩
  have hdiv := Nat.div_add_mod (W + 2 * p - k) s
  have hmod := Nat.mod_lt (W + 2 * p - k) hs
  have key := Reference.axis_loop_from (Reference.start_xi p k) (Reference.end_xi W p k) (s : Int)
    (by exact_mod_cast hs) n ?_ ?_ n 0 (by omega) fuel (by omega)
  · unfold Reference.convolution_axis
    rw [← hn, List.range_eq_range']
    simpa using key
  · unfold Reference.end_xi
    rw [hstart]
    have : (W + 2 * p - k) < s * n := by
      rw [hn, Nat.mul_add]; omega
    have h3 : ((W + 2 * p - k : Nat) : Int) < (s : Int) * (n : Int) := by exact_mod_cast this
    have h4 : (n : Int) * (s : Int) = (s : Int) * (n : Int) := by ring
    omega
  · intro j hj
    unfold Reference.end_xi
    rw [hstart]
    have : s * j ≤ (W + 2 * p - k) := by
      have : s * j ≤ s * ((W + 2 * p - k) / s) := Nat.mul_le_mul_left _ (by omega)
      omega
    have h3 : (s : Int) * (j : Int) ≤ ((W + 2 * p - k : Nat) : Int) := by exact_mod_cast this
    have h4 : (j : Int) * (s : Int) = (s : Int) * (j : Int) := by ring
    omega

/-! ### Writes through pointers to clones leave the older objects alone -/

theorem Heap.take_put (h : Heap) (n p : Nat) (v : TensorInfo) (hp : n ≤ p) :
    (Heap.put h p v).take n = h.take n := by
  unfold Heap.put
  rw [List.set_take]
  apply List.set_eq_of_length_le
  rw [List.length_take]
  omega

theorem update_padding_frame (H : Helpers) (win : Window) (n : Nat) :
    ∀ (patterns : List AccessWindow) (heap : Heap), (∀ a ∈ patterns, n ≤ a.info) →
      (update_padding H win heap patterns).take n = heap.take n := by
  intro patterns
  induction patterns with
  | nil => intro heap _; rfl
  | cons a rest ih =>
    intro heap hall
    rw [update_padding, ih _ (fun b hb => hall b (List.mem_cons_of_mem _ hb))]
    exact Heap.take_put _ _ _ _ (hall a (List.mem_cons_self _ _))

theorem update_window_and_padding_frame (H : Helpers) (heap : Heap) (win : Window) (n : Nat)
    (patterns : List AccessWindow) (hall : ∀ a ∈ patterns, n ≤ a.info) :
    (update_window_and_padding H heap win patterns).2.2.take n = heap.take n := by
  unfold update_window_and_padding
  exact update_padding_frame H _ n patterns heap hall

theorem NEGEMMLowpQuantizeDownInt32ToUint8ScaleByFixedPointKernel.quantize_down_window_frame (H : Helpers)
    (heap : Heap) (n : Nat) (input : Ptr) (bias : Option Ptr) (output : Ptr)
    (hi : n ≤ input) (hb : ∀ b, bias = some b → n ≤ b) (ho : n ≤ output) :
    (validate_and_configure_window H heap input bias output).2.take n = heap.take n := by
  unfold validate_and_configure_window
  simp only []
  rw [Heap.take_put _ _ _ _ ho]
  have h1 := update_window_and_padding_frame H heap
    (H.calculate_max_window (heap.get output) 16) n
    [⟨input, .horizontal 0 16⟩, ⟨output, .horizontal 0 16⟩]
    (by intro a ha; simp at ha; rcases ha with rfl | rfl <;> assumption)
  cases bias with
  | none => exact h1
  | some b =>
    simp only []
    split
    · exact h1
    · rw [update_window_and_padding_frame H _ _ n _
        (by intro a ha; simp at ha; subst ha; exact hb b rfl)]
      exact h1

theorem NEGEMMLowpAArch64V8P4Kernel.v8p4_window_frame (H : Helpers)
    (heap : Heap) (n : Nat) (input0 input1 output : Ptr)
    (h0 : n ≤ input0) (h1 : n ≤ input1) (ho : n ≤ output) :
    (validate_and_configure_window H heap input0 input1 output).2.take n = heap.take n := by
  unfold validate_and_configure_window
  simp only []
  exact update_window_and_padding_frame H heap _ n _
    (by intro a ha; simp at ha; rcases ha with rfl | rfl | rfl <;> assumption)

/-- C2: the static `validate` functions of
NEGEMMLowpQuantizeDownInt32ToUint8ScaleByFixedPointKernel and of
NEGEMMLowpAArch64V8P4Kernel leave every tensor info that existed before the
call exactly as it was, for all helper behaviours, arguments and outcomes: the
window and padding computation only writes to the clones (run on the objects
themselves, as `configure` does, it does change them). -/
theorem C2_validate_has_no_side_effects (H : Helpers) (heap : Heap) (input output : Ptr)
    (bias : Option Ptr) (min max : Int) :
    (NEGEMMLowpQuantizeDownInt32ToUint8ScaleByFixedPointKernel.validate H heap input bias output
        min max).2 = heap
      ∧ (NEGEMMLowpAArch64V8P4Kernel.validate H heap input bias output).2 = heap
      ∧ (NEGEMMLowpQuantizeDownInt32ToUint8ScaleByFixedPointKernel.validate_and_configure_window
            Helpers.sample [TensorInfo.sample .S32, TensorInfo.sample .QASYMM8] 0 none 1).2
          ≠ [TensorInfo.sample .S32, TensorInfo.sample .QASYMM8] := by
  refine ⟨?_, ?_, by decide⟩
  · unfold NEGEMMLowpQuantizeDownInt32ToUint8ScaleByFixedPointKernel.validate
    split
    · rfl
    · cases bias with
      | none =>
        have key := NEGEMMLowpQuantizeDownInt32ToUint8ScaleByFixedPointKernel.quantize_down_window_frame H
          (Heap.clone (Heap.clone heap input).2 output).2 heap.length
          (Heap.clone heap input).1 none (Heap.clone (Heap.clone heap input).2 output).1
          (by simp [Heap.clone]) (by intro b hb; cases hb) (by simp [Heap.clone])
        have hpre : List.take heap.length (Heap.clone (Heap.clone heap input).2 output).2 = heap := by
          simp [Heap.clone, List.take_append_of_le_length]
        rw [hpre] at key
        dsimp only
        split <;> exact key
      | some b =>
        have key := NEGEMMLowpQuantizeDownInt32ToUint8ScaleByFixedPointKernel.quantize_down_window_frame H
          (Heap.clone (Heap.clone (Heap.clone heap input).2 b).2 output).2 heap.length
          (Heap.clone heap input).1 (some (Heap.clone (Heap.clone heap input).2 b).1)
          (Heap.clone (Heap.clone (Heap.clone heap input).2 b).2 output).1
          (by simp [Heap.clone])
          (by intro c hc; cases hc; simp [Heap.clone])
          (by simp [Heap.clone])
        have hpre : List.take heap.length
            (Heap.clone (Heap.clone (Heap.clone heap input).2 b).2 output).2 = heap := by
          simp [Heap.clone, List.take_append_of_le_length]
        rw [hpre] at key
        dsimp only
        split <;> exact key
  · unfold NEGEMMLowpAArch64V8P4Kernel.validate
    split
    · rfl
    · rfl
    · rename_i input1 _
      have key := NEGEMMLowpAArch64V8P4Kernel.v8p4_window_frame H
        (Heap.clone (Heap.clone (Heap.clone heap input).2 input1).2 output).2 heap.length
        (Heap.clone heap input).1 (Heap.clone (Heap.clone heap input).2 input1).1
        (Heap.clone (Heap.clone (Heap.clone heap input).2 input1).2 output).1
        (by simp [Heap.clone]) (by simp [Heap.clone]) (by simp [Heap.clone])
      have hpre : List.take heap.length
          (Heap.clone (Heap.clone (Heap.clone heap input).2 input1).2 output).2 = heap := by
        simp [Heap.clone, List.take_append_of_le_length]
      rw [hpre] at key
      dsimp only
      split <;> exact key

theorem mismatching_shapes_self_shape (a b : TensorInfo) (h : a.tensor_shape = b.tensor_shape) :
    mismatching_shapes a b = false := by
  simp [mismatching_shapes, TensorInfo.dimension, h]

/-- C3: `validate_arguments` of the quantize-down-by-fixed-point kernel always
returns an `Error` value, which describes the first violated check in source
order; for a single-channel S32 input and single-channel QASYMM8 output of
identical shape it succeeds without bias iff `0 ≤ min ≤ max ≤ 255`, and with a
bias iff in addition the bias has the input's data type, at most one dimension
and the input's `dimension(0)`. -/
theorem C3_validate_arguments_first_violation (input output : TensorInfo)
    (bias : Option TensorInfo) (min max : Int) :
    NEGEMMLowpQuantizeDownInt32ToUint8ScaleByFixedPointKernel.validate_arguments input bias output
        min max
      = NEGEMMLowpQuantizeDownInt32ToUint8ScaleByFixedPointKernel.first_violated
          (NEGEMMLowpQuantizeDownInt32ToUint8ScaleByFixedPointKernel.validate_arguments_checks
            input bias output min max)
    ∧ (input.data_type = DataType.S32 → input.num_channels = 1 →
        output.data_type = DataType.QASYMM8 → output.num_channels = 1 →
        input.tensor_shape = output.tensor_shape →
        (NEGEMMLowpQuantizeDownInt32ToUint8ScaleByFixedPointKernel.validate_arguments input none
            output min max = Error.ok ↔ 0 ≤ min ∧ min ≤ max ∧ max ≤ 255)
        ∧ ∀ b : TensorInfo,
          (NEGEMMLowpQuantizeDownInt32ToUint8ScaleByFixedPointKernel.validate_arguments input
              (some b) output min max = Error.ok ↔
            (0 ≤ min ∧ min ≤ max ∧ max ≤ 255) ∧ b.data_type = input.data_type
              ∧ b.num_dimensions ≤ 1 ∧ input.dimension 0 = b.dimension 0)) := by
  constructor
  · unfold NEGEMMLowpQuantizeDownInt32ToUint8ScaleByFixedPointKernel.validate_arguments
      NEGEMMLowpQuantizeDownInt32ToUint8ScaleByFixedPointKernel.validate_arguments_checks
    cases bias <;>
      simp only [NEGEMMLowpQuantizeDownInt32ToUint8ScaleByFixedPointKernel.first_violated,
        List.cons_append, List.nil_append, List.append_nil, Bool.or_eq_true, decide_eq_true_eq]
  · intro h1 h2 h3 h4 h5
    have hs := mismatching_shapes_self_shape input output h5
    have hc1 : data_type_channel_not_in input 1 DataType.S32 = false := by
      simp [data_type_channel_not_in, h1, h2]
    have hc2 : data_type_channel_not_in output 1 DataType.QASYMM8 = false := by
      simp [data_type_channel_not_in, h3, h4]
    constructor
    · unfold NEGEMMLowpQuantizeDownInt32ToUint8ScaleByFixedPointKernel.validate_arguments
      simp only [hc1, hc2, hs, Bool.false_eq_true, if_false]
      by_cases hmax : max > 255 <;> by_cases hmin : min < 0 <;> by_cases hmm : min > max <;>
        simp [hmax, hmin, hmm] <;> omega
    · intro b
      unfold NEGEMMLowpQuantizeDownInt32ToUint8ScaleByFixedPointKernel.validate_arguments
      simp only [hc1, hc2, hs, Bool.false_eq_true, if_false]
      by_cases hmax : max > 255 <;> by_cases hmin : min < 0 <;> by_cases hmm : min > max <;>
        by_cases hd : b.data_type = input.data_type <;>
        by_cases hn : b.num_dimensions > 1 <;>
        by_cases h0 : input.dimension 0 = b.dimension 0 <;>
        simp [hmax, hmin, hmm, hd, hn, h0, mismatching_data_types, Ne.symm] <;>
        omega

/-- C4: `run(window, info)` on a never-configured kernel is reported as a fatal
error and is not a call through the null `_func`; after a successful
`configure`, `_func` is `&run<is_bounded_relu>` (non-null), the kernel is
configured, and `run` on a valid sub-window dispatches to `_func`. -/
theorem C4_run_requires_configure (H : Helpers) (heap : Heap) (window : Window) :
    NEGEMMLowpQuantizeDownInt32ToUint8ScaleByFixedPointKernel.run H
        NEGEMMLowpQuantizeDownInt32ToUint8ScaleByFixedPointKernel.Kernel.new window
      = .fatal .unconfigured_kernel
    ∧ ∀ (k k' : NEGEMMLowpQuantizeDownInt32ToUint8ScaleByFixedPointKernel.Kernel)
        (input bias output : Option Ptr) (multiplier shift offset min max : Int) (heap' : Heap),
        NEGEMMLowpQuantizeDownInt32ToUint8ScaleByFixedPointKernel.configure H heap k input bias
            output multiplier shift offset min max = .ok (k', heap') →
        k'._func = some ((min != max) && !(min == 0 && max == 255))
        ∧ ∃ win, k'._window = some win
          ∧ (H.invalid_subwindow win window = false →
              NEGEMMLowpQuantizeDownInt32ToUint8ScaleByFixedPointKernel.run H k' window
                = .dispatched ((min != max) && !(min == 0 && max == 255)) window) := by
  constructor
  · rfl
  · intro k k' input bias output multiplier shift offset min max heap' hcfg
    unfold NEGEMMLowpQuantizeDownInt32ToUint8ScaleByFixedPointKernel.configure at hcfg
    split at hcfg
    · dsimp only at hcfg
      split at hcfg
      · cases hcfg
      · split at hcfg
        · cases hcfg
        · injection hcfg with hcfg
          injection hcfg with hk hh
          subst hk
          refine ⟨rfl, _, rfl, ?_⟩
          intro hv
          simp [NEGEMMLowpQuantizeDownInt32ToUint8ScaleByFixedPointKernel.run,
            NEGEMMLowpQuantizeDownInt32ToUint8ScaleByFixedPointKernel.error_on_unconfigured_kernel,
            hv]
    · cases hcfg

/-- C5: every call of `NEDepthwiseConvolution3x3::run` appends to the
scheduler's trace exactly: border handler scheduled and completed, then the
convolution kernel scheduled and completed, then (only with a bias) the bias
kernel; the scheduled sequence is [border handler, convolution kernel] or
[border handler, convolution kernel, bias kernel], all along `Window::DimX`. -/
theorem C5_depthwise_run_schedule_order (f : NEDepthwiseConvolution3x3.Function)
    (trace : List NEDepthwiseConvolution3x3.SchedulerEvent) :
    NEDepthwiseConvolution3x3.run f trace
      = trace ++ ([.scheduled ._border_handler Window.DimX, .completed ._border_handler,
                   .scheduled ._kernel Window.DimX, .completed ._kernel]
                  ++ if f._has_bias then
                      [.scheduled ._bias_kernel Window.DimX, .completed ._bias_kernel]
                     else [])
    ∧ NEDepthwiseConvolution3x3.scheduled_sequence
          ((NEDepthwiseConvolution3x3.run f trace).drop trace.length)
        = (if f._has_bias then
            [(._border_handler, Window.DimX), (._kernel, Window.DimX),
             (._bias_kernel, Window.DimX)]
           else [(._border_handler, Window.DimX), (._kernel, Window.DimX)]) := by
  have h : NEDepthwiseConvolution3x3.run f trace
      = trace ++ ([.scheduled ._border_handler Window.DimX, .completed ._border_handler,
                   .scheduled ._kernel Window.DimX, .completed ._kernel]
                  ++ if f._has_bias then
                      [.scheduled ._bias_kernel Window.DimX, .completed ._bias_kernel]
                     else []) := by
    unfold NEDepthwiseConvolution3x3.run NEDepthwiseConvolution3x3.schedule
    cases f._has_bias <;> simp
  refine ⟨h, ?_⟩
  rw [h, List.drop_left]
  cases f._has_bias <;> simp [NEDepthwiseConvolution3x3.scheduled_sequence]

/-- C6: for a timer with no interceptor installed (`_real_function` and
`_real_graph_function` null), `test_start()` succeeds and installs the two
interceptors, and `test_stop()` after it restores both global function objects
to their values before `test_start()` and nulls both members again;
`test_start()` on a timer with an interceptor installed (a member non-null) is
rejected by the assertion, and so is a second `test_start()` right after a
first one whenever one of the global function objects was non-empty. -/
theorem C6_timer_interception_round_trip (g : OpenCLTimer.Globals) :
    (∃ t1 g1, OpenCLTimer.test_start ⟨none, none⟩ g = .ok (t1, g1)
        ∧ g1 = ⟨some .interceptor, some .task_interceptor⟩
        ∧ OpenCLTimer.test_stop t1 g1 = (⟨none, none⟩, g))
    ∧ (∀ t : OpenCLTimer.Timer, (t._real_function ≠ none ∨ t._real_graph_function ≠ none) →
        OpenCLTimer.test_start t g = .error .assertion)
    ∧ ((g.clEnqueueNDRangeKernel_ptr ≠ none ∨ g.execute_function ≠ none) →
        ∀ t1 g1, OpenCLTimer.test_start ⟨none, none⟩ g = .ok (t1, g1) →
          OpenCLTimer.test_start t1 g1 = .error .assertion) := by
  refine ⟨⟨_, _, rfl, rfl, rfl⟩, ?_, ?_⟩
  · rintro ⟨f1, f2⟩ h
    cases f1 <;> cases f2 <;> simp_all [OpenCLTimer.test_start, ARM_COMPUTE_ERROR_ON, bind,
      Except.bind]
  · obtain ⟨c, e⟩ := g
    intro h t1 g1 h1
    cases c <;> cases e <;> simp_all [OpenCLTimer.test_start, ARM_COMPUTE_ERROR_ON, bind,
      Except.bind, pure, Except.pure] <;> (obtain ⟨rfl, rfl⟩ := h1; rfl)

/-! ### GraphContext -/

namespace graph2.GraphContext

theorem lookup_append_of_ne (l : List (Target × MemoryManagerContext)) (m : MemoryManagerContext)
    (t : Target) (h : m.target ≠ t) :
    ((l ++ [(m.target, m)]).find? (fun e => e.1 == t)) = l.find? (fun e => e.1 == t) := by
  induction l with
  | nil =>
    have hb : (m.target == t) = false := by simpa using h
    simp [List.find?, hb]
  | cons a rest ih =>
    simp only [List.cons_append, List.find?]
    split
    · rfl
    · exact ih

theorem lookup_insert_of_ne (ctx : GraphContext) (m : MemoryManagerContext) (t : Target)
    (h : m.target ≠ t) :
    (ctx.insert_memory_management_ctx m).2.memory_management_ctx t
      = ctx.memory_management_ctx t := by
  unfold insert_memory_management_ctx
  split
  · rfl
  · simp only [memory_management_ctx]
    rw [lookup_append_of_ne _ _ _ h]

theorem lookup_eq_none_iff (ctx : GraphContext) (t : Target) :
    ctx.memory_management_ctx t = none ↔ t ∉ ctx._memory_managers.map Prod.fst := by
  simp only [memory_management_ctx, Option.map_eq_none', List.find?_eq_none, List.mem_map,
    not_exists, not_and]
  constructor
  · intro h x hx e
    have := h x hx
    simp [e] at this
  · intro h x hx
    have := h x hx
    simpa using this

theorem insert_keeps_nodup (ctx : GraphContext) (m : MemoryManagerContext)
    (h : (ctx._memory_managers.map Prod.fst).Nodup) :
    ((ctx.insert_memory_management_ctx m).2._memory_managers.map Prod.fst).Nodup := by
  unfold insert_memory_management_ctx
  split
  · exact h
  · rename_i hnone
    have hn : ctx.memory_management_ctx m.target = none := by
      cases hc : ctx.memory_management_ctx m.target with
      | none => rfl
      | some v => simp [hc] at hnone
    rw [lookup_eq_none_iff] at hn
    simp only [List.map_append, List.map_cons, List.map_nil]
    rw [List.nodup_append]
    refine ⟨h, List.nodup_singleton _, ?_⟩
    intro a ha hb
    simp at hb
    subst hb
    exact hn ha

theorem insert_all_nodup : ∀ (ms : List MemoryManagerContext) (ctx : GraphContext),
    (ctx._memory_managers.map Prod.fst).Nodup →
      ((ctx.insert_all ms)._memory_managers.map Prod.fst).Nodup := by
  intro ms
  induction ms with
  | nil => intro ctx h; exact h
  | cons m rest ih => intro ctx h; exact ih _ (insert_keeps_nodup ctx m h)

theorem insert_all_lookup_of_not_mem : ∀ (ms : List MemoryManagerContext) (ctx : GraphContext)
    (t : Target), (∀ m ∈ ms, m.target ≠ t) →
      (ctx.insert_all ms).memory_management_ctx t = ctx.memory_management_ctx t := by
  intro ms
  induction ms with
  | nil => intro ctx t _; rfl
  | cons m rest ih =>
    intro ctx t h
    rw [insert_all, ih _ t (fun x hx => h x (List.mem_cons_of_mem _ hx)),
      lookup_insert_of_ne ctx m t (h m (List.mem_cons_self _ _))]

end graph2.GraphContext

/-- C7: `insert_memory_management_ctx` returns false and leaves the context
unchanged whenever a context for the same target is already present; after any
sequence of insertions into a new `GraphContext` the stored targets are
pairwise distinct (at most one context per target), and
`memory_management_ctx(target)` is null for a target that was never inserted. -/
theorem C7_one_memory_manager_per_target (ctx : graph2.GraphContext)
    (memory_ctx : graph2.MemoryManagerContext) (ms : List graph2.MemoryManagerContext)
    (target : graph2.Target) :
    ((ctx.memory_management_ctx memory_ctx.target).isSome →
        ctx.insert_memory_management_ctx memory_ctx = (false, ctx))
    ∧ (((graph2.GraphContext.new.insert_all ms)._memory_managers.map Prod.fst).Nodup)
    ∧ ((∀ m ∈ ms, m.target ≠ target) →
        (graph2.GraphContext.new.insert_all ms).memory_management_ctx target = none) := by
  refine ⟨?_, ?_, ?_⟩
  · intro h
    simp [graph2.GraphContext.insert_memory_management_ctx, h]
  · exact graph2.GraphContext.insert_all_nodup ms _ (by simp [graph2.GraphContext.new])
  · intro h
    rw [graph2.GraphContext.insert_all_lookup_of_not_mem ms _ target h]
    rfl

/-! ### CPU scheduler work splitting -/

namespace CPPScheduler

theorem split_window_start (w : Range) (id total : Nat) :
    (split_window w id total).start = w.start + id * (w.extent / total) := by
  unfold split_window
  dsimp only
  split <;> rfl

theorem split_window_stop (w : Range) (id total : Nat) :
    (split_window w id total).stop
      = if id + 1 = total then w.stop else w.start + (id + 1) * (w.extent / total) := by
  unfold split_window
  dsimp only
  split
  · rfl
  · simp only [Nat.add_mul, Nat.one_mul, Nat.add_assoc]

theorem mul_div_le_extent (E T i : Nat) (hi : i ≤ T) : i * (E / T) ≤ E := by
  calc i * (E / T) ≤ T * (E / T) := Nat.mul_le_mul_right _ hi
    _ ≤ E := Nat.mul_div_le E T

end CPPScheduler

/-- C8: for a window of extent `E` and a thread count `T` with `1 ≤ T ≤ E`, the
scheduler hands out exactly `T` sub-windows that are contiguous (each starts
where the previous one stops), non-empty, pairwise disjoint, and whose union
is exactly the index range of the window; for `E = 17`, `T = 4` the extents
are 4, 4, 4, 5 in thread order, the multiset {5, 4, 4, 4}. -/
theorem C8_scheduler_split_partitions_window (T E start : Nat) (hT : 1 ≤ T) (hTE : T ≤ E) :
    (CPPScheduler.schedule T ⟨start, start + E⟩).length = T
    ∧ List.Chain' (fun a b : CPPScheduler.Range => a.stop = b.start)
        (CPPScheduler.schedule T ⟨start, start + E⟩)
    ∧ (∀ r ∈ CPPScheduler.schedule T ⟨start, start + E⟩, r.start < r.stop)
    ∧ List.Pairwise (fun a b : CPPScheduler.Range =>
          ∀ x, ¬ ((a.start ≤ x ∧ x < a.stop) ∧ (b.start ≤ x ∧ x < b.stop)))
        (CPPScheduler.schedule T ⟨start, start + E⟩)
    ∧ (∀ x, (start ≤ x ∧ x < start + E) ↔
        ∃ r ∈ CPPScheduler.schedule T ⟨start, start + E⟩, r.start ≤ x ∧ x < r.stop)
    ∧ (CPPScheduler.schedule 4 ⟨0, 17⟩).map CPPScheduler.Range.extent = [4, 4, 4, 5]
    ∧ (((CPPScheduler.schedule 4 ⟨0, 17⟩).map CPPScheduler.Range.extent : List Nat) :
        Multiset Nat) = {5, 4, 4, 4} := by
  have hn : CPPScheduler.num_sub_windows T ⟨start, start + E⟩ = T := by
    simp [CPPScheduler.num_sub_windows, CPPScheduler.Range.extent, hTE]
  have hext : (⟨start, start + E⟩ : CPPScheduler.Range).extent = E := by simp [CPPScheduler.Range.extent]
  have hq : 1 ≤ E / T := (Nat.one_le_div_iff (by omega)).mpr hTE
  have hst : ∀ i, (CPPScheduler.split_window ⟨start, start + E⟩ i T).start = start + i * (E / T) := by
    intro i; rw [CPPScheduler.split_window_start, hext]
  have hsp : ∀ i, i < T → (CPPScheduler.split_window ⟨start, start + E⟩ i T).stop
      = if i + 1 = T then start + E else start + (i + 1) * (E / T) := by
    intro i hi; rw [CPPScheduler.split_window_stop, hext]
  have hle : ∀ i, i ≤ T → i * (E / T) ≤ E := fun i hi => CPPScheduler.mul_div_le_extent E T i hi
  have hmono : ∀ i j, i ≤ j → i * (E / T) ≤ j * (E / T) := fun i j h => Nat.mul_le_mul_right _ h
  unfold CPPScheduler.schedule
  rw [hn]
  refine ⟨by simp, ?_, ?_, ?_, ?_, by decide, by decide⟩
  · rw [List.chain'_map]
    obtain ⟨n, rfl⟩ : ∃ n, T = n + 1 := ⟨T - 1, by omega⟩
    rw [List.chain'_range_succ]
    intro m hm
    rw [hst, hsp m (by omega), if_neg (by omega)]
  · intro r hr
    simp only [List.mem_map, List.mem_range] at hr
    obtain ⟨i, hi, rfl⟩ := hr
    rw [hst, hsp i hi]
    split
    · have := hle i (by omega)
      have h2 := hle (i + 1) (by omega)
      rw [Nat.add_mul] at h2
      omega
    · rw [Nat.add_mul]; omega
  · rw [List.pairwise_map]
    refine List.Pairwise.imp_of_mem ?_ (List.pairwise_lt_range T)
    intro i j hi hj hij x
    simp only [List.mem_range] at hi hj
    rw [hst, hst, hsp i hi, if_neg (by omega)]
    have := hmono (i + 1) j (by omega)
    omega
  · intro x
    simp only [List.mem_map, List.mem_range]
    constructor
    · rintro ⟨h1, h2⟩
      by_cases hlast : start + (T - 1) * (E / T) ≤ x
      · refine ⟨_, ⟨T - 1, by omega, rfl⟩, ?_⟩
        rw [hst, hsp _ (by omega), if_pos (by omega)]
        exact ⟨hlast, h2⟩
      · have hx : (x - start) / (E / T) < T - 1 := by
          rw [Nat.div_lt_iff_lt_mul (by omega)]
          omega
        refine ⟨_, ⟨(x - start) / (E / T), by omega, rfl⟩, ?_⟩
        rw [hst, hsp _ (by omega), if_neg (by omega)]
        have h3 := Nat.div_add_mod (x - start) (E / T)
        have h4 := Nat.mod_lt (x - start) (show 0 < E / T by omega)
        rw [Nat.add_mul, Nat.one_mul, Nat.mul_comm]
        constructor <;> omega
    · rintro ⟨r, ⟨i, hi, rfl⟩, h1, h2⟩
      rw [hst] at h1
      rw [hsp i hi] at h2
      split at h2
      · omega
      · have := hle (i + 1) (by omega)
        omega

/-! ### Memory manager -/

namespace MemoryManager

theorem overlap_symm (a b : Request) : overlap a b = overlap b a := by
  simp only [overlap]; rw [Bool.and_comm]

theorem overlap_of_live (a b : Request) (t : Nat) (ha : a.live t = true) (hb : b.live t = true) :
    overlap a b = true := by
  simp only [Request.live, overlap, Bool.and_eq_true, decide_eq_true_eq] at *
  omega

theorem live_start_of_overlap (a r : Request) (h : overlap a r = true) (hle : a.start ≤ r.start) :
    a.live r.start = true := by
  simp only [Request.live, overlap, Bool.and_eq_true, decide_eq_true_eq] at *
  omega

theorem block_lt_num_blocks (bound : List Binding) (b : Binding) (hb : b ∈ bound) :
    b.block < num_blocks bound := by
  induction bound with
  | nil => cases hb
  | cons a rest ih =>
    simp only [num_blocks, List.map_cons, List.foldr_cons] at *
    rcases List.mem_cons.mp hb with rfl | h
    · omega
    · have := ih h; omega

theorem exists_block_eq_pred (bound : List Binding) (h : 0 < num_blocks bound) :
    ∃ b ∈ bound, b.block + 1 = num_blocks bound := by
  induction bound with
  | nil => simp [num_blocks] at h
  | cons a rest ih =>
    simp only [num_blocks, List.map_cons, List.foldr_cons] at *
    by_cases hc : List.foldr max 0 (List.map (fun b => b.block + 1) rest) ≤ a.block + 1
    · exact ⟨a, List.mem_cons_self _ _, by omega⟩
    · obtain ⟨b, hb, he⟩ := ih (by omega)
      exact ⟨b, List.mem_cons_of_mem _ hb, by omega⟩

theorem first_free_le (free : Nat → Bool) : ∀ n c, first_free free n c ≤ c + n := by
  intro n
  induction n with
  | zero => intro c; simp [first_free]
  | succ n ih =>
    intro c
    simp only [first_free]
    split
    · omega
    · have := ih (c + 1); omega

theorem first_free_below (free : Nat → Bool) :
    ∀ n c c', c ≤ c' → c' < first_free free n c → free c' = false := by
  intro n
  induction n with
  | zero => intro c c' h1 h2; simp [first_free] at h2; omega
  | succ n ih =>
    intro c c' h1 h2
    simp only [first_free] at h2
    split at h2
    · omega
    · rename_i hf
      by_cases hc : c' = c
      · subst hc; simpa using hf
      · exact ih (c + 1) c' (by omega) h2

theorem first_free_spec (free : Nat → Bool) :
    ∀ n c, first_free free n c < c + n → free (first_free free n c) = true := by
  intro n
  induction n with
  | zero => intro c h; simp [first_free] at h
  | succ n ih =>
    intro c h
    simp only [first_free] at h ⊢
    split
    · assumption
    · rename_i hf
      rw [if_neg hf] at h
      exact ih (c + 1) (by omega)

theorem choose_block_le (bound : List Binding) (r : Request) :
    choose_block bound r ≤ num_blocks bound := by
  have := first_free_le (block_free bound r) (num_blocks bound) 0
  simpa [choose_block] using this

theorem block_free_num_blocks (bound : List Binding) (r : Request) :
    block_free bound r (num_blocks bound) = true := by
  simp only [block_free, List.all_eq_true]
  intro b hb
  have := block_lt_num_blocks bound b hb
  have hne : (b.block == num_blocks bound) = false := by
    simp; omega
  simp [hne]

theorem choose_block_free (bound : List Binding) (r : Request) :
    block_free bound r (choose_block bound r) = true := by
  rcases Nat.lt_or_ge (choose_block bound r) (num_blocks bound) with h | h
  · exact first_free_spec (block_free bound r) (num_blocks bound) 0 (by simpa [choose_block] using h)
  · have : choose_block bound r = num_blocks bound := le_antisymm (choose_block_le bound r) h
    rw [this]
    exact block_free_num_blocks bound r

theorem choose_block_below (bound : List Binding) (r : Request) (c : Nat)
    (hc : c < choose_block bound r) :
    ∃ b ∈ bound, b.block = c ∧ overlap b.request r = true := by
  have h := first_free_below (block_free bound r) (num_blocks bound) 0 c (Nat.zero_le _) hc
  simp only [block_free] at h
  have : ¬ (bound.all (fun b => !(b.block == c && overlap b.request r)) = true) := by
    rw [h]; simp
  rw [List.all_eq_true] at this
  push_neg at this
  obtain ⟨b, hb, hbb⟩ := this
  refine ⟨b, hb, ?_⟩
  simpa using hbb

theorem good_nil : Good [] := ⟨List.Pairwise.nil, fun a ha => by cases ha⟩

theorem good_step (bound : List Binding) (i : Nat) (r : Request) (hg : Good bound)
    (hle : ∀ a ∈ bound, a.request.start ≤ r.start) :
    Good (bound ++ [⟨i, r, choose_block bound r⟩]) := by
  obtain ⟨hp, hw⟩ := hg
  constructor
  · rw [List.pairwise_append]
    refine ⟨hp, List.pairwise_singleton _ _, ?_⟩
    intro a ha b hb hov
    simp only [List.mem_singleton] at hb
    subst hb
    have hfree := choose_block_free bound r
    simp only [block_free, List.all_eq_true] at hfree
    have := hfree a ha
    intro heq
    simp only [] at hov heq
    simp [heq, hov] at this
  · intro a ha c hc
    rcases List.mem_append.mp ha with h | h
    · obtain ⟨b, hb, h1, h2⟩ := hw a h c hc
      exact ⟨b, List.mem_append_left _ hb, h1, h2⟩
    · simp only [List.mem_singleton] at h
      subst h
      obtain ⟨b, hb, h1, h2⟩ := choose_block_below bound r c hc
      exact ⟨b, List.mem_append_left _ hb, h1, live_start_of_overlap _ _ h2 (hle b hb)⟩

theorem bind_all_good : ∀ (rest : List (Nat × Request)) (bound : List Binding), Good bound →
    (∀ a ∈ bound, ∀ e ∈ rest, a.request.start ≤ e.2.start) →
    List.Pairwise (fun x y : Nat × Request => x.2.start ≤ y.2.start) rest →
    Good (bind_all bound rest) := by
  intro rest
  induction rest with
  | nil => intro bound hg _ _; exact hg
  | cons e rest ih =>
    intro bound hg hle hs
    rw [bind_all]
    rw [List.pairwise_cons] at hs
    apply ih
    · exact good_step bound e.1 e.2 hg (fun a ha => hle a ha e (List.mem_cons_self _ _))
    · intro a ha x hx
      rcases List.mem_append.mp ha with h | h
      · exact hle a h x (List.mem_cons_of_mem _ hx)
      · simp only [List.mem_singleton] at h
        subst h
        exact hs.1 x hx
    · exact hs.2

theorem bind_all_map : ∀ (rest : List (Nat × Request)) (bound : List Binding),
    (bind_all bound rest).map (fun b => (b.id, b.request))
      = bound.map (fun b => (b.id, b.request)) ++ rest := by
  intro rest
  induction rest with
  | nil => intro bound; simp [bind_all]
  | cons e rest ih =>
    intro bound
    rw [bind_all, ih]
    simp

theorem processing_order_perm (rs : List Request) : (processing_order rs).Perm (tagged rs) :=
  List.perm_insertionSort _ _

theorem processing_order_sorted (rs : List Request) :
    List.Pairwise (fun x y : Nat × Request => x.2.start ≤ y.2.start) (processing_order rs) := by
  have h : List.Sorted before (processing_order rs) := List.sorted_insertionSort _ _
  exact List.Pairwise.imp (fun {a b} hab => by unfold before at hab; omega) h

theorem assign_map (rs : List Request) :
    (assign rs).map (fun b => (b.id, b.request)) = processing_order rs := by
  simp [assign, bind_all_map]

theorem assign_good (rs : List Request) : Good (assign rs) :=
  bind_all_good _ _ good_nil (fun a ha => by cases ha) (processing_order_sorted rs)

theorem assign_perm (rs : List Request) :
    ((assign rs).map (fun b => (b.id, b.request))).Perm (tagged rs) := by
  rw [assign_map]; exact processing_order_perm rs

theorem tagged_map_fst (rs : List Request) : (tagged rs).map Prod.fst = List.range rs.length := by
  simp [tagged, Function.comp_def]

theorem tagged_map_snd (rs : List Request) : (tagged rs).map Prod.snd = rs := by
  apply List.ext_getElem
  · simp [tagged]
  · intro n h1 h2
    simp [tagged, List.getD_eq_getElem, h2]

theorem assign_ids_nodup (rs : List Request) : ((assign rs).map Binding.id).Nodup := by
  have h := (assign_perm rs).map Prod.fst
  rw [tagged_map_fst, List.map_map] at h
  exact h.nodup_iff.mpr (List.nodup_range _)

theorem assign_requests_perm (rs : List Request) :
    ((assign rs).map Binding.request).Perm rs := by
  have h := (assign_perm rs).map Prod.snd
  rw [tagged_map_snd, List.map_map] at h
  exact h

theorem assign_mem (rs : List Request) (a : Binding) (ha : a ∈ assign rs) :
    a.id < rs.length ∧ a.request = rs.getD a.id default := by
  have h : (a.id, a.request) ∈ (assign rs).map (fun b => (b.id, b.request)) :=
    List.mem_map.mpr ⟨a, ha, rfl⟩
  have h2 := (assign_perm rs).mem_iff.mp h
  simp only [tagged, List.mem_map, List.mem_range, Prod.mk.injEq] at h2
  obtain ⟨i, hi, h3, h4⟩ := h2
  subst h3
  exact ⟨hi, h4.symm⟩

theorem assign_exists (rs : List Request) (i : Nat) (hi : i < rs.length) :
    ∃ a ∈ assign rs, a.id = i ∧ a.request = rs.getD i default := by
  have h : (i, rs.getD i default) ∈ tagged rs := by
    simp only [tagged, List.mem_map, List.mem_range]
    exact ⟨i, hi, rfl⟩
  have h2 := (assign_perm rs).mem_iff.mpr h
  simp only [List.mem_map, Prod.mk.injEq] at h2
  obtain ⟨a, ha, h3, h4⟩ := h2
  exact ⟨a, ha, h3, h4⟩

theorem live_count_eq_filter (rs : List Request) (t : Nat) :
    live_count rs t = ((assign rs).filter (fun b => b.request.live t)).length := by
  unfold live_count
  rw [← (assign_requests_perm rs).countP_eq, List.countP_map, List.countP_eq_length_filter]
  rfl

theorem live_count_le_num_blocks (rs : List Request) (t : Nat) :
    live_count rs t ≤ num_blocks (assign rs) := by
  rw [live_count_eq_filter]
  have hp : List.Pairwise (fun a b : Binding => a.block ≠ b.block)
      ((assign rs).filter (fun b => b.request.live t)) := by
    refine List.Pairwise.imp_of_mem ?_ ((assign_good rs).1.filter _)
    intro a b ha hb h
    simp only [List.mem_filter] at ha hb
    exact h (overlap_of_live _ _ t ha.2 hb.2)
  have hnd : (((assign rs).filter (fun b => b.request.live t)).map Binding.block).Nodup := by
    rw [List.Nodup, List.pairwise_map]
    exact hp
  have hsub : ((assign rs).filter (fun b => b.request.live t)).map Binding.block
      ⊆ List.range (num_blocks (assign rs)) := by
    intro c hc
    simp only [List.mem_map, List.mem_filter] at hc
    obtain ⟨b, ⟨hb, _⟩, rfl⟩ := hc
    exact List.mem_range.mpr (block_lt_num_blocks _ b hb)
  have := (List.subperm_of_subset hnd hsub).length_le
  simpa using this

theorem num_blocks_le_live_count (rs : List Request) (t : Nat)
    (h : ∀ c < num_blocks (assign rs), ∃ b ∈ assign rs, b.block = c ∧ b.request.live t = true) :
    num_blocks (assign rs) ≤ live_count rs t := by
  rw [live_count_eq_filter]
  have hsub : List.range (num_blocks (assign rs))
      ⊆ ((assign rs).filter (fun b => b.request.live t)).map Binding.block := by
    intro c hc
    obtain ⟨b, hb, h1, h2⟩ := h c (List.mem_range.mp hc)
    exact List.mem_map.mpr ⟨b, List.mem_filter.mpr ⟨hb, h2⟩, h1⟩
  have := (List.subperm_of_subset (List.nodup_range _) hsub).length_le
  simpa using this

theorem exists_clique_time (rs : List Request) (hwf : ∀ r ∈ rs, r.start < r.stop) :
    ∃ t, ∀ c < num_blocks (assign rs),
      ∃ b ∈ assign rs, b.block = c ∧ b.request.live t = true := by
  rcases Nat.eq_zero_or_pos (num_blocks (assign rs)) with h0 | hpos
  · exact ⟨0, fun c hc => by omega⟩
  · obtain ⟨a, ha, hk⟩ := exists_block_eq_pred _ hpos
    refine ⟨a.request.start, fun c hc => ?_⟩
    rcases Nat.lt_or_ge c a.block with h | h
    · exact (assign_good rs).2 a ha c h
    · have hmem : a.request ∈ rs :=
        (assign_requests_perm rs).mem_iff.mp (List.mem_map.mpr ⟨a, ha, rfl⟩)
      have := hwf _ hmem
      refine ⟨a, ha, by omega, ?_⟩
      simp only [Request.live, Bool.and_eq_true, decide_eq_true_eq]
      omega

theorem block_size_cons (x : Binding) (rest : List Binding) (c : Nat) :
    block_size (x :: rest) c
      = if x.block = c then max x.request.size (block_size rest c) else block_size rest c := by
  unfold block_size
  by_cases h : x.block = c
  · simp [List.filter_cons, h]
  · simp [List.filter_cons, h]

theorem size_le_block_size (bound : List Binding) (a : Binding) (ha : a ∈ bound) :
    a.request.size ≤ block_size bound a.block := by
  induction bound with
  | nil => cases ha
  | cons x rest ih =>
    rw [block_size_cons]
    rcases List.mem_cons.mp ha with rfl | h
    · simp
    · have := ih h
      split
      · omega
      · exact this

theorem block_offset_succ (bound : List Binding) (c : Nat) :
    block_offset bound (c + 1) = block_offset bound c + block_size bound c := by
  unfold block_offset
  exact List.sum_range_succ _ _

theorem block_offset_mono (bound : List Binding) (c c' : Nat) (h : c ≤ c') :
    block_offset bound c ≤ block_offset bound c' := by
  induction c' with
  | zero =>
    have : c = 0 := by omega
    subst this; exact le_refl _
  | succ n ih =>
    rcases Nat.lt_or_ge c (n + 1) with h1 | h1
    · have := ih (by omega)
      rw [block_offset_succ]; omega
    · have : c = n + 1 := by omega
      subst this; exact le_refl _

theorem bytes_disjoint_of_block_lt (group_base : Nat) (bound : List Binding) (a b : Binding)
    (ha : a ∈ bound) (hlt : a.block < b.block) :
    address group_base bound a + a.request.size ≤ address group_base bound b := by
  unfold address
  have h1 := size_le_block_size bound a ha
  have h2 := block_offset_succ bound a.block
  have h3 := block_offset_mono bound (a.block + 1) b.block hlt
  omega

theorem assign_blocks_ne (rs : List Request) (a b : Binding) (ha : a ∈ assign rs)
    (hb : b ∈ assign rs) (hid : a.id ≠ b.id) (hov : overlap a.request b.request = true) :
    a.block ≠ b.block := by
  have hsymm : Symmetric (fun a b : Binding =>
      overlap a.request b.request = true → a.block ≠ b.block) := by
    intro x y h hyx
    rw [overlap_symm] at hyx
    exact (h hyx).symm
  exact (assign_good rs).1.forall hsymm ha hb (fun e => hid (by rw [e])) hov

theorem get_eq_of_assign_mem (rs : List Request) (a : Binding) (ha : a ∈ assign rs) :
    rs.get ⟨a.id, (assign_mem rs a ha).1⟩ = a.request := by
  have h := (assign_mem rs a ha).2
  rw [List.getD_eq_getElem _ _ (assign_mem rs a ha).1] at h
  exact h.symm

theorem interval_graph_colorable (rs : List Request) :
    (interval_graph rs).Colorable (num_blocks (assign rs)) := by
  classical
  have hex : ∀ i : Fin rs.length, ∃ a, a ∈ assign rs ∧ a.id = i.1 ∧ a.request = rs.getD i.1 default :=
    fun i => assign_exists rs i.1 i.2
  choose f hf using hex
  refine ⟨SimpleGraph.Coloring.mk
    (fun i => (⟨(f i).block, block_lt_num_blocks _ _ (hf i).1⟩ : Fin (num_blocks (assign rs)))) ?_⟩
  intro v w hadj heq
  have hb : (f v).block = (f w).block := congrArg Fin.val heq
  have hreq : ∀ i : Fin rs.length, (f i).request = rs.get i := by
    intro i
    rw [(hf i).2.2, List.getD_eq_getElem _ _ i.2]
    rfl
  refine assign_blocks_ne rs (f v) (f w) (hf v).1 (hf w).1 ?_ ?_ hb
  · rw [(hf v).2.1, (hf w).2.1]
    exact fun e => hadj.1 (Fin.ext e)
  · rw [hreq, hreq]
    exact hadj.2

theorem num_blocks_le_chromaticNumber (rs : List Request) (hwf : ∀ r ∈ rs, r.start < r.stop) :
    (num_blocks (assign rs) : ℕ∞) ≤ (interval_graph rs).chromaticNumber := by
  classical
  obtain ⟨t, ht⟩ := exists_clique_time rs hwf
  have hex : ∀ c : Fin (num_blocks (assign rs)),
      ∃ b, b ∈ assign rs ∧ b.block = c.1 ∧ b.request.live t = true := fun c => ht c.1 c.2
  choose g hg using hex
  let f : Fin (num_blocks (assign rs)) → Fin rs.length :=
    fun c => ⟨(g c).id, (assign_mem rs _ (hg c).1).1⟩
  have hinj : Function.Injective f := by
    intro c c' h
    have hid : (g c).id = (g c').id := congrArg Fin.val h
    have := List.inj_on_of_nodup_map (assign_ids_nodup rs) (hg c).1 (hg c').1 hid
    apply Fin.ext
    rw [← (hg c).2.1, ← (hg c').2.1, this]
  have hclique : (interval_graph rs).IsClique ((Finset.univ.image f : Finset (Fin rs.length)) : Set _) := by
    intro x hx y hy hxy
    simp only [Finset.coe_image, Finset.coe_univ, Set.image_univ, Set.mem_range] at hx hy
    obtain ⟨c, rfl⟩ := hx
    obtain ⟨c', rfl⟩ := hy
    refine ⟨hxy, ?_⟩
    have h1 : rs.get (f c) = (g c).request := get_eq_of_assign_mem rs _ (hg c).1
    have h2 : rs.get (f c') = (g c').request := get_eq_of_assign_mem rs _ (hg c').1
    rw [h1, h2]
    exact overlap_of_live _ _ t (hg c).2.2 (hg c').2.2
  have := hclique.card_le_chromaticNumber
  rw [Finset.card_image_of_injective _ hinj] at this
  simpa using this

end MemoryManager

/-- C9: for every list of allocation requests with non-empty lifetime intervals,
every request is bound exactly once, two distinct requests whose lifetimes
overlap are bound to disjoint byte ranges, the number of backing blocks equals
the chromatic number of the interval graph of the requests and is the maximum
number of simultaneously live requests; requests of sizes 100 and 50 with
lifetimes [0,2) and [2,5) share one backing block of 100 bytes. -/
theorem C9_memory_reuse_is_optimal_interval_colouring (rs : List MemoryManager.Request)
    (group_base : Nat) (hwf : ∀ r ∈ rs, r.start < r.stop) :
    ((MemoryManager.assign rs).map (fun b => (b.id, b.request))).Perm (MemoryManager.tagged rs)
    ∧ (∀ a ∈ MemoryManager.assign rs, ∀ b ∈ MemoryManager.assign rs, a.id ≠ b.id →
        MemoryManager.overlap a.request b.request = true →
        MemoryManager.address group_base (MemoryManager.assign rs) a + a.request.size
            ≤ MemoryManager.address group_base (MemoryManager.assign rs) b
          ∨ MemoryManager.address group_base (MemoryManager.assign rs) b + b.request.size
            ≤ MemoryManager.address group_base (MemoryManager.assign rs) a)
    ∧ (MemoryManager.interval_graph rs).chromaticNumber
        = MemoryManager.num_blocks (MemoryManager.assign rs)
    ∧ (∀ t, MemoryManager.live_count rs t ≤ MemoryManager.num_blocks (MemoryManager.assign rs))
    ∧ (∃ t, MemoryManager.live_count rs t = MemoryManager.num_blocks (MemoryManager.assign rs))
    ∧ MemoryManager.assign [⟨100, 0, 2⟩, ⟨50, 2, 5⟩]
        = [⟨0, ⟨100, 0, 2⟩, 0⟩, ⟨1, ⟨50, 2, 5⟩, 0⟩]
    ∧ MemoryManager.num_blocks (MemoryManager.assign [⟨100, 0, 2⟩, ⟨50, 2, 5⟩]) = 1
    ∧ MemoryManager.block_size (MemoryManager.assign [⟨100, 0, 2⟩, ⟨50, 2, 5⟩]) 0 = 100 := by
  refine ⟨MemoryManager.assign_perm rs, ?_, ?_, MemoryManager.live_count_le_num_blocks rs, ?_,
    by decide, by decide, by decide⟩
  · intro a ha b hb hid hov
    have hne := MemoryManager.assign_blocks_ne rs a b ha hb hid hov
    rcases Nat.lt_or_gt_of_ne hne with h | h
    · exact Or.inl (MemoryManager.bytes_disjoint_of_block_lt group_base _ a b ha h)
    · exact Or.inr (MemoryManager.bytes_disjoint_of_block_lt group_base _ b a hb h)
  · exact le_antisymm (MemoryManager.interval_graph_colorable rs).chromaticNumber_le
      (MemoryManager.num_blocks_le_chromaticNumber rs hwf)
  · obtain ⟨t, ht⟩ := MemoryManager.exists_clique_time rs hwf
    exact ⟨t, le_antisymm (MemoryManager.live_count_le_num_blocks rs t)
      (MemoryManager.num_blocks_le_live_count rs t ht)⟩

/-! ### OpenCL GEMM helper macros -/

namespace gemm_helpers

theorem LOAD_BLOCK_eq_load_rows (M0 : Nat) (h1 : 1 ≤ M0) (h16 : M0 ≤ 16) (a : BlockArgs)
    (mem : Memory) (st : LoadState) :
    LOAD_BLOCK M0 a mem st = some (load_rows a mem st M0) := by
  interval_cases M0 <;> rfl

theorem STORE_BLOCK_eq_store_rows (M0 : Nat) (h1 : 1 ≤ M0) (h16 : M0 ≤ 16) (a : BlockArgs)
    (vars : Vars (List Nat)) (st : StoreState) :
    STORE_BLOCK M0 a vars st = some (store_rows a vars st M0) := by
  interval_cases M0 <;> rfl

theorem suffix_injective (i j : Nat) (hi : i < 16) (hj : j < 16) (h : suffix i = suffix j) :
    i = j := by
  interval_cases i <;> interval_cases j <;> first | rfl | (exact absurd h (by decide))

theorem load_rows_loads (a : BlockArgs) (mem : Memory) (st : LoadState) (n : Nat) :
    (load_rows a mem st n).loads
      = st.loads ++ (List.range n).map
          (fun i => (suffix i, a.PTR + a.OFFSET + i * a.STRIDE_Y + a.Z (suffix i))) := by
  induction n with
  | zero => simp [load_rows]
  | succ n ih => simp [load_rows, load_row, ih, List.range_succ]

theorem load_rows_vars_of_ge (a : BlockArgs) (mem : Memory) (st : LoadState) (n : Nat)
    (c : Char) (hc : ∀ i < n, suffix i ≠ c) :
    (load_rows a mem st n).vars c = st.vars c := by
  induction n with
  | zero => rfl
  | succ n ih =>
    have h1 : c ≠ suffix n := fun e => hc n (Nat.lt_succ_self n) e.symm
    simp only [load_rows, load_row, Vars.assign, if_neg h1]
    exact ih (fun i hi => hc i (Nat.lt_succ_of_lt hi))

theorem load_rows_vars (a : BlockArgs) (mem : Memory) (st : LoadState) (n : Nat) (hn : n ≤ 16)
    (i : Nat) (hi : i < n) :
    (load_rows a mem st n).vars (suffix i)
      = VLOAD a.bytes mem (a.PTR + a.OFFSET + i * a.STRIDE_Y + a.Z (suffix i)) := by
  induction n with
  | zero => omega
  | succ n ih =>
    simp only [load_rows, load_row, Vars.assign]
    by_cases h : i = n
    · subst h; simp
    · have hne : suffix i ≠ suffix n :=
        fun e => h (suffix_injective i n (by omega) (by omega) e)
      rw [if_neg hne]
      exact ih (by omega) (by omega)

theorem store_rows_stores (a : BlockArgs) (vars : Vars (List Nat)) (st : StoreState) (n : Nat) :
    (store_rows a vars st n).stores
      = st.stores ++ (List.range n).map
          (fun i => (suffix i, a.PTR + i * a.STRIDE_Y + a.Z (suffix i))) := by
  induction n with
  | zero => simp [store_rows]
  | succ n ih => simp [store_rows, store_row, ih, List.range_succ]

theorem store_rows_mem (a : BlockArgs) (vars : Vars (List Nat)) (st : StoreState) (n : Nat) :
    (store_rows a vars st n).mem
      = (List.range n).foldl
          (fun m i => VSTORE a.bytes (vars (suffix i)) m (a.PTR + i * a.STRIDE_Y + a.Z (suffix i)))
          st.mem := by
  induction n with
  | zero => simp [store_rows]
  | succ n ih => simp [store_rows, store_row, ih, List.range_succ, List.foldl_append]

theorem VSTORE_VLOAD (bytes : Nat) (mem : Memory) (p : Nat) :
    VSTORE bytes (VLOAD bytes mem p) mem p = mem := by
  funext x
  unfold VSTORE VLOAD
  split
  · rename_i h
    have hlt : x - p < bytes := by omega
    rw [List.getD_eq_getElem _ _ (by simpa using hlt)]
    simp
    congr 1
    omega
  · rfl

theorem store_rows_round_trip (a : BlockArgs) (mem : Memory) (st : LoadState)
    (stores : List (Char × Nat)) (h0 : a.OFFSET = 0) (N : Nat) (hN : N ≤ 16) (n : Nat)
    (hn : n ≤ N) :
    (store_rows a (load_rows a mem st N).vars ⟨mem, stores⟩ n).mem = mem := by
  induction n with
  | zero => rfl
  | succ n ih =>
    simp only [store_rows, store_row]
    rw [ih (by omega), load_rows_vars a mem st N hN n (by omega), h0, Nat.add_zero]
    exact VSTORE_VLOAD _ _ _

theorem z_row_eq (a : ZArgs) (hD : 1 ≤ a.DEPTH_GEMM3D) (hD' : a.DEPTH_GEMM3D ≤ 4294967296)
    (s : Char) (c : Nat) (Z : Vars Nat) :
    z_row a s c Z
      = Z.assign s (min (a.DEPTH_GEMM3D - 1) ((c + a.Y * a.M0) / a.HEIGHT_GEMM3D)
          * (a.CROSS_PLANE_PAD * a.STRIDE_Y)) := by
  have hwrap : (a.DEPTH_GEMM3D + 4294967295) % 4294967296 = a.DEPTH_GEMM3D - 1 := by omega
  funext x
  simp only [z_row, Vars.assign, hwrap]
  split <;> simp

theorem z_rows_apply (a : ZArgs) (hD : 1 ≤ a.DEPTH_GEMM3D) (hD' : a.DEPTH_GEMM3D ≤ 4294967296)
    (Z : Vars Nat) (n : Nat) (hn : n ≤ 16) (i : Nat) (hi : i < n) :
    z_rows a Z n (suffix i) = z_offset a i := by
  induction n with
  | zero => omega
  | succ n ih =>
    rw [z_rows, z_row_eq a hD hD']
    simp only [Vars.assign]
    by_cases h : i = n
    · subst h; simp [z_offset]
    · have hne : suffix i ≠ suffix n :=
        fun e => h (suffix_injective i n (by omega) (by omega) e)
      rw [if_neg hne]
      exact ih (by omega) (by omega)

theorem CALCULATE_Z_OFFSET_rows_below_7 (a : ZArgs) (hD : 1 ≤ a.DEPTH_GEMM3D)
    (hD' : a.DEPTH_GEMM3D ≤ 4294967296) (Z : Vars Nat) (h1 : 1 ≤ a.M0)
    (h8 : a.M0 ≤ 8) (i : Nat) (hi : i < a.M0) (h7 : i < 7) :
    (CALCULATE_Z_OFFSET a Z).map (fun Z' => Z' (suffix i)) = some (z_offset a i) := by
  by_cases h : a.M0 = 8
  · have e : CALCULATE_Z_OFFSET a Z = some (z_row a '7' 1 (z_rows a Z 7)) := by
      unfold CALCULATE_Z_OFFSET; rw [h]; rfl
    have hne : suffix i ≠ '7' := by
      interval_cases i <;> decide
    rw [e, Option.map_some', z_row_eq a hD hD']
    simp only [Vars.assign, if_neg hne]
    rw [z_rows_apply a hD hD' Z 7 (by omega) i h7]
  · have e : CALCULATE_Z_OFFSET a Z = some (z_rows a Z a.M0) := by
      unfold CALCULATE_Z_OFFSET
      have h7' : a.M0 ≤ 7 := by omega
      generalize a.M0 = m at h1 h7'
      interval_cases m <;> rfl
    rw [e, Option.map_some', z_rows_apply a hD hD' Z a.M0 (by omega) i hi]

end gemm_helpers

/-- C13: `CALCULATE_Z_OFFSET(8, ...)` computes `Z##7` from row index 1 instead of
7: with `Y = 0`, `HEIGHT_GEMM3D = 2`, `DEPTH_GEMM3D = 8`, `CROSS_PLANE_PAD = 1`,
`STRIDE_Y = 1` it leaves `Z7 = 0` (the value of row 1), whereas the offset of
row 7 is `min(7, 7 / 2) * 1 = 3`; the rows 0..6 have their own offsets. -/
theorem C13_calculate_z_offset_8_uses_row_1_for_z7 :
    (gemm_helpers.CALCULATE_Z_OFFSET ⟨8, 0, 2, 8, 1, 1⟩ (fun _ => 0)).map (fun Z => Z '7') = some 0
    ∧ gemm_helpers.z_offset ⟨8, 0, 2, 8, 1, 1⟩ 7 = 3
    ∧ gemm_helpers.z_offset ⟨8, 0, 2, 8, 1, 1⟩ 1 = 0
    ∧ (gemm_helpers.CALCULATE_Z_OFFSET ⟨8, 0, 2, 8, 1, 1⟩ (fun _ => 0)).map
          (fun Z => (List.range 7).map (fun i => Z (gemm_helpers.suffix i)))
        = some ((List.range 7).map (gemm_helpers.z_offset ⟨8, 0, 2, 8, 1, 1⟩)) := by
  refine ⟨by decide, by decide, by decide, by decide⟩

/-- C14: for every `M0` in 1..16, `LOAD_BLOCK` loads row `i` (for each `i < M0`, once,
in row order, and no other row) into the variable with suffix `i` from
`PTR + OFFSET + i * STRIDE_Y + Z##i` and leaves the other variables alone;
`STORE_BLOCK` stores row `i` from the variable with suffix `i` to
`PTR + i * STRIDE_Y + Z##i`, each row once and no other; and `STORE_BLOCK` after
`LOAD_BLOCK` with `OFFSET = 0` and the same arguments leaves memory as it was. -/
theorem C14_load_store_block_rows (M0 : Nat) (h1 : 1 ≤ M0) (h16 : M0 ≤ 16)
    (a : gemm_helpers.BlockArgs) (mem : gemm_helpers.Memory) (st : gemm_helpers.LoadState)
    (vars : gemm_helpers.Vars (List Nat)) (sst : gemm_helpers.StoreState) :
    (∃ st', gemm_helpers.LOAD_BLOCK M0 a mem st = some st'
        ∧ st'.loads = st.loads ++ (List.range M0).map (fun i =>
            (gemm_helpers.suffix i,
              a.PTR + a.OFFSET + i * a.STRIDE_Y + a.Z (gemm_helpers.suffix i)))
        ∧ (∀ i < M0, st'.vars (gemm_helpers.suffix i)
            = gemm_helpers.VLOAD a.bytes mem
                (a.PTR + a.OFFSET + i * a.STRIDE_Y + a.Z (gemm_helpers.suffix i)))
        ∧ (∀ c, (∀ i < M0, gemm_helpers.suffix i ≠ c) → st'.vars c = st.vars c))
    ∧ (∃ sst', gemm_helpers.STORE_BLOCK M0 a vars sst = some sst'
        ∧ sst'.stores = sst.stores ++ (List.range M0).map (fun i =>
            (gemm_helpers.suffix i, a.PTR + i * a.STRIDE_Y + a.Z (gemm_helpers.suffix i)))
        ∧ sst'.mem = (List.range M0).foldl (fun m i =>
            gemm_helpers.VSTORE a.bytes (vars (gemm_helpers.suffix i)) m
              (a.PTR + i * a.STRIDE_Y + a.Z (gemm_helpers.suffix i))) sst.mem)
    ∧ (a.OFFSET = 0 → ∃ st' sst', gemm_helpers.LOAD_BLOCK M0 a mem st = some st'
        ∧ gemm_helpers.STORE_BLOCK M0 a st'.vars ⟨mem, []⟩ = some sst'
        ∧ sst'.mem = mem) := by
  refine ⟨⟨_, gemm_helpers.LOAD_BLOCK_eq_load_rows M0 h1 h16 a mem st,
      gemm_helpers.load_rows_loads a mem st M0,
      fun i hi => gemm_helpers.load_rows_vars a mem st M0 h16 i hi,
      fun c hc => gemm_helpers.load_rows_vars_of_ge a mem st M0 c hc⟩,
    ⟨_, gemm_helpers.STORE_BLOCK_eq_store_rows M0 h1 h16 a vars sst,
      gemm_helpers.store_rows_stores a vars sst M0,
      gemm_helpers.store_rows_mem a vars sst M0⟩, ?_⟩
  intro h0
  exact ⟨_, _, gemm_helpers.LOAD_BLOCK_eq_load_rows M0 h1 h16 a mem st,
    gemm_helpers.STORE_BLOCK_eq_store_rows M0 h1 h16 a _ _,
    gemm_helpers.store_rows_round_trip a mem st [] h0 M0 h16 M0 (le_refl _)⟩

/-- C16: on the fallback path of `do_setup` (invalid arguments) the configs
copied into `lhs_info`/`rhs_info` are the default-initialised `GemmConfigs`,
which has `transpose_lhs = transpose_rhs = true`, not opposites, and differs
from what `consume_gemm_configs` produces from the options' default values
(`transpose_lhs = false`); on the valid path the two flags are opposites. -/
theorem C16_fallback_configs_transpose_both :
    (gemm_tuner.do_setup false false {}).map (fun r => (r.2.1.transpose, r.2.2.transpose))
        = some (true, true)
    ∧ (gemm_tuner.do_setup false false {}).map (fun r => r.1) = some {}
    ∧ (gemm_tuner.consume_gemm_configs {}).transpose_lhs = false
    ∧ (gemm_tuner.consume_gemm_configs {}).transpose_rhs = true
    ∧ ({} : gemm_tuner.GemmConfigs) ≠ gemm_tuner.consume_gemm_configs {}
    ∧ (gemm_tuner.do_setup false true {}).map (fun r => (r.2.1.transpose, r.2.2.transpose))
        = some (false, true) := by
  refine ⟨by decide, by decide, by decide, by decide, by decide, by decide⟩

/-- C19: every configuration registered by `LargeWinogradConvolutionLayer3x3Dataset`
and by `LargeConvolutionLayerDataset` satisfies the convolution shape
arithmetic: `dst.x = (src.x + 2 pad_x - weights.x) / stride_x + 1`, likewise
for `y`, `dst.z = weights[3] = bias[0]`, `weights.z = src.z`, and the batch
extent of `dst` equals that of `src`; there are 11 and 22 configurations. -/
theorem C19_large_convolution_datasets_consistent :
    (∀ c ∈ datasets.LargeWinogradConvolutionLayer3x3Dataset, c.consistent)
    ∧ (∀ c ∈ datasets.LargeConvolutionLayerDataset, c.consistent)
    ∧ datasets.LargeWinogradConvolutionLayer3x3Dataset.length = 11
    ∧ datasets.LargeConvolutionLayerDataset.length = 22 := by
  refine ⟨by decide, by decide, by decide, by decide⟩

/-- C20: `clear()` resets `b21` twice and never `b22`: after
`init(..., reshaped_weights = false)` and `clear()` the handle `b22` still
holds the sub-tensor of `b[1]` created by `init`, while the other eleven
handles are null; in the reshaped-weights configuration of a fresh network
`b22` was never set, so all twelve are null after `clear()`. -/
theorem C20_clear_leaves_b22 :
    (AlexNetNetwork.clear (AlexNetNetwork.init { _is_direct_conv := true } 4 false)).b22
        = some (.sub_b 1 [128] [128])
    ∧ AlexNetNetwork.handles
          (AlexNetNetwork.clear (AlexNetNetwork.init { _is_direct_conv := true } 4 false))
        = [none, none, none, some (.sub_b 1 [128] [128]), none, none, none, none,
           none, none, none, none]
    ∧ AlexNetNetwork.handles
          (AlexNetNetwork.clear (AlexNetNetwork.init { _is_direct_conv := false } 4 false))
        = [none, none, none, some (.sub_b 1 [128] [128]), none, none, none, none,
           none, none, none, none]
    ∧ AlexNetNetwork.handles
          (AlexNetNetwork.clear (AlexNetNetwork.init { _is_direct_conv := true } 4 true))
        = List.replicate 12 none
    ∧ AlexNetNetwork.handles
          (AlexNetNetwork.clear (AlexNetNetwork.init { _is_direct_conv := false } 4 true))
        = List.replicate 12 none := by
  refine ⟨by decide, by decide, by decide, by decide, by decide⟩

/-- C15: `setup_assembly_kernel` returns true exactly when both the GEMM object
and the wrapper exist (and the workspace buffer, if one is needed, is
non-null; otherwise it stops with a fatal error); then the object stored in
`asm_glue` was created with `maxthreads` = scheduler thread count, its number
of threads is `min(scheduler thread count, window size)`, and `set_nthreads`
was called, once with the window size, exactly when the window size is
smaller.  When it returns false, `asm_glue` is unchanged. -/
theorem C15_setup_assembly_kernel_threads (F : AssemblyHelper.GemmFactory)
    (scheduler_num_threads : Nat) (acl_gemm_wrapper : Option Bool) (buffer : Option Ptr)
    (heap : Heap) (a b d : Ptr) (workspace : Option Nat)
    (asm_glue : AssemblyHelper.AssemblyKernelGlue) :
    (∀ ws glue, AssemblyHelper.setup_assembly_kernel F scheduler_num_threads acl_gemm_wrapper
          buffer heap a b d workspace asm_glue = .ok (true, ws, glue) →
        ∃ g, glue._gemm_kernel_asm = some g
          ∧ g.maxthreads = scheduler_num_threads
          ∧ g.nthreads = min scheduler_num_threads g.window_size
          ∧ g.set_nthreads_calls
              = (if g.window_size < scheduler_num_threads then [g.window_size] else []))
    ∧ (∀ ws glue, AssemblyHelper.setup_assembly_kernel F scheduler_num_threads acl_gemm_wrapper
          buffer heap a b d workspace asm_glue = .ok (false, ws, glue) →
        glue = asm_glue ∧ ws = workspace)
    ∧ (∀ g, AssemblyHelper.gemm F ((heap.get d).dimension 1) ((heap.get d).dimension 0)
            ((heap.get a).dimension 0) (((heap.get a).tensor_shape.drop 2).prod)
            ((heap.get b).dimension 2) scheduler_num_threads = some g →
        acl_gemm_wrapper.isSome → (g.working_size = 0 ∨ buffer.isSome) →
        ∃ ws glue, AssemblyHelper.setup_assembly_kernel F scheduler_num_threads
          acl_gemm_wrapper buffer heap a b d workspace asm_glue = .ok (true, ws, glue)) := by
  unfold AssemblyHelper.setup_assembly_kernel
  dsimp only
  cases hg : AssemblyHelper.gemm F ((heap.get d).dimension 1) ((heap.get d).dimension 0)
      ((heap.get a).dimension 0) (((heap.get a).tensor_shape.drop 2).prod)
      ((heap.get b).dimension 2) scheduler_num_threads with
  | none =>
    refine ⟨?_, ?_, ?_⟩
    · intro ws glue h
      cases acl_gemm_wrapper <;> simp [pure, Except.pure] at h
    · intro ws glue h
      cases acl_gemm_wrapper <;> simp [pure, Except.pure] at h <;> exact ⟨h.2.symm, h.1.symm⟩
    · intro g h; cases h
  | some g =>
    have hmax : g.maxthreads = scheduler_num_threads ∧ g.nthreads = scheduler_num_threads
        ∧ g.set_nthreads_calls = [] := by
      unfold AssemblyHelper.gemm at hg
      cases hc : F.create ((heap.get d).dimension 1) ((heap.get d).dimension 0)
          ((heap.get a).dimension 0) (((heap.get a).tensor_shape.drop 2).prod)
          ((heap.get b).dimension 2) scheduler_num_threads with
      | none => rw [hc] at hg; cases hg
      | some r =>
        rw [hc] at hg
        simp only [Option.map_some', Option.some.injEq] at hg
        subst hg
        exact ⟨rfl, rfl, rfl⟩
    obtain ⟨h1, h2, h3⟩ := hmax
    cases acl_gemm_wrapper with
    | none =>
      refine ⟨?_, ?_, ?_⟩
      · intro ws glue h; simp [pure, Except.pure] at h
      · intro ws glue h
        simp [pure, Except.pure] at h
        exact ⟨h.2.symm, h.1.symm⟩
      · intro g' _ hw; cases hw
    | some wr =>
      by_cases hws : g.working_size = 0
      · refine ⟨?_, ?_, ?_⟩
        · intro ws glue h
          by_cases hlt : g.window_size < scheduler_num_threads
          · simp [hws, hlt, pure, Except.pure, bind, Except.bind] at h
            obtain ⟨_, rfl⟩ := h
            refine ⟨_, rfl, ?_, ?_, ?_⟩
            · simpa [AssemblyHelper.AssemblyGemm.set_nthreads] using h1
            · simp [AssemblyHelper.AssemblyGemm.set_nthreads]; omega
            · simp [AssemblyHelper.AssemblyGemm.set_nthreads, h3, hlt]
          · simp [hws, hlt, pure, Except.pure, bind, Except.bind] at h
            obtain ⟨_, rfl⟩ := h
            refine ⟨_, rfl, h1, ?_, ?_⟩
            · rw [h2]; omega
            · simp [h3, hlt]
        · intro ws glue h
          by_cases hlt : g.window_size < scheduler_num_threads <;>
            simp [hws, hlt, pure, Except.pure, bind, Except.bind] at h
        · intro g' hg' _ _
          by_cases hlt : g.window_size < scheduler_num_threads <;>
            simp [hws, hlt, pure, Except.pure, bind, Except.bind]
      · cases buffer with
        | none =>
          refine ⟨?_, ?_, ?_⟩
          · intro ws glue h
            simp [hws, pure, Except.pure, bind, Except.bind, AssemblyHelper.allocate_workspace,
              ARM_COMPUTE_ERROR_ON, throw, throwThe, MonadExceptOf.throw] at h
          · intro ws glue h
            simp [hws, pure, Except.pure, bind, Except.bind, AssemblyHelper.allocate_workspace,
              ARM_COMPUTE_ERROR_ON, throw, throwThe, MonadExceptOf.throw] at h
          · intro g' hg' _ hb
            cases hg'
            rcases hb with hb | hb
            · exact absurd hb hws
            · cases hb
        | some p =>
          refine ⟨?_, ?_, ?_⟩
          · intro ws glue h
            by_cases hlt : g.window_size < scheduler_num_threads
            · simp [hws, hlt, pure, Except.pure, bind, Except.bind,
                AssemblyHelper.allocate_workspace, ARM_COMPUTE_ERROR_ON,
                AssemblyHelper.AssemblyGemm.set_working_space] at h
              obtain ⟨_, rfl⟩ := h
              refine ⟨_, rfl, ?_, ?_, ?_⟩
              · simpa [AssemblyHelper.AssemblyGemm.set_nthreads] using h1
              · simp [AssemblyHelper.AssemblyGemm.set_nthreads]; omega
              · simp [AssemblyHelper.AssemblyGemm.set_nthreads, h3, hlt]
            · simp [hws, hlt, pure, Except.pure, bind, Except.bind,
                AssemblyHelper.allocate_workspace, ARM_COMPUTE_ERROR_ON,
                AssemblyHelper.AssemblyGemm.set_working_space] at h
              obtain ⟨_, rfl⟩ := h
              refine ⟨_, rfl, h1, ?_, ?_⟩
              · simp [h2]; omega
              · simp [h3, hlt]
          · intro ws glue h
            by_cases hlt : g.window_size < scheduler_num_threads <;>
              simp [hws, hlt, pure, Except.pure, bind, Except.bind,
                AssemblyHelper.allocate_workspace, ARM_COMPUTE_ERROR_ON,
                AssemblyHelper.AssemblyGemm.set_working_space] at h
          · intro g' hg' _ _
            by_cases hlt : g.window_size < scheduler_num_threads <;>
              simp [hws, hlt, pure, Except.pure, bind, Except.bind,
                AssemblyHelper.allocate_workspace, ARM_COMPUTE_ERROR_ON,
                AssemblyHelper.AssemblyGemm.set_working_space]

/-- C18: for a tensor of width `w ≥ 1` and height `h ≥ 1`, `tensor_elem_at`
returns the element at the coordinate when `0 ≤ x < w` and `0 ≤ y < h`;
otherwise with `BorderMode::REPLICATE` the element at
`(clamp(x, 0, w-1), clamp(y, 0, h-1), rest)`, whose x and y lie in `[0, w)` and
`[0, h)`; otherwise, for any other border mode, `constant_border_value`. -/
theorem C18_tensor_elem_at_border_cases {α : Type} [Inhabited α]
    (coord2index : List Nat → Coordinates → Nat) (input : SimpleTensor α) (coord : Coordinates)
    (border_mode : BorderMode) (constant_border_value : α)
    (hw : 1 ≤ shape_dim input.shape 0) (hh : 1 ≤ shape_dim input.shape 1) :
    ((0 ≤ coord.x ∧ coord.x < shape_dim input.shape 0
        ∧ 0 ≤ coord.y ∧ coord.y < shape_dim input.shape 1) →
      validation.tensor_elem_at coord2index input coord border_mode constant_border_value
        = input.at (coord2index input.shape coord))
    ∧ (¬ (0 ≤ coord.x ∧ coord.x < shape_dim input.shape 0
        ∧ 0 ≤ coord.y ∧ coord.y < shape_dim input.shape 1) →
      (border_mode = BorderMode.REPLICATE →
        validation.tensor_elem_at coord2index input coord border_mode constant_border_value
          = input.at (coord2index input.shape
              ⟨max 0 (min coord.x ((shape_dim input.shape 0 : Nat) - 1)),
               max 0 (min coord.y ((shape_dim input.shape 1 : Nat) - 1)), coord.rest⟩))
      ∧ (border_mode ≠ BorderMode.REPLICATE →
        validation.tensor_elem_at coord2index input coord border_mode constant_border_value
          = constant_border_value))
    ∧ (0 ≤ max 0 (min coord.x ((shape_dim input.shape 0 : Nat) - 1))
        ∧ max 0 (min coord.x ((shape_dim input.shape 0 : Nat) - 1)) < shape_dim input.shape 0
        ∧ 0 ≤ max 0 (min coord.y ((shape_dim input.shape 1 : Nat) - 1))
        ∧ max 0 (min coord.y ((shape_dim input.shape 1 : Nat) - 1))
            < shape_dim input.shape 1) := by
  have hw' : (1 : Int) ≤ (shape_dim input.shape 0 : Nat) := by exact_mod_cast hw
  have hh' : (1 : Int) ≤ (shape_dim input.shape 1 : Nat) := by exact_mod_cast hh
  refine ⟨?_, ?_, ?_⟩
  · rintro ⟨h1, h2, h3, h4⟩
    have hc : ¬ (coord.x < 0 ∨ coord.y < 0 ∨ coord.x ≥ (shape_dim input.shape 0 : Nat)
        ∨ coord.y ≥ (shape_dim input.shape 1 : Nat)) := by omega
    simp only [validation.tensor_elem_at, if_neg hc]
  · intro hn
    have hc : coord.x < 0 ∨ coord.y < 0 ∨ coord.x ≥ (shape_dim input.shape 0 : Nat)
        ∨ coord.y ≥ (shape_dim input.shape 1 : Nat) := by omega
    constructor
    · intro hb
      simp only [validation.tensor_elem_at, if_pos hc, hb, if_true, Coordinates.set]
    · intro hb
      simp only [validation.tensor_elem_at, if_pos hc, if_neg hb]
  · omega

/-! ### Reference helpers -/

namespace validation

theorem int_range_incl_centered (c : Int) (h : Nat) :
    int_range_incl (c - h) (c + h) = (List.range (2 * h + 1)).map (fun k : Nat => c - h + (k : Int)) := by
  unfold int_range_incl
  have : (c + h + 1 - (c - h)).toNat = 2 * h + 1 := by omega
  rw [this]

theorem inner_loop {D S T1 T2 T3 : Type} [Inhabited T1] (A : FilterArith D S T1 T2 T3)
    (coord2index : List Nat → Coordinates → Nat) (input : SimpleTensor T1) (filter : Nat → T2)
    (border_mode : BorderMode) (constant_border_value : T1) (x0 : Int) (yj : Int)
    (st : FilterState D) (n : Nat) :
    (((List.range n).map (fun k : Nat => x0 + (k : Int))).foldl
        (filter_step A coord2index input filter border_mode constant_border_value yj) st).val
      = row_sum A coord2index input filter border_mode constant_border_value x0 yj
          st.coord.rest st.filter_itr n st.val
    ∧ (((List.range n).map (fun k : Nat => x0 + (k : Int))).foldl
        (filter_step A coord2index input filter border_mode constant_border_value yj)
          st).coord.rest = st.coord.rest
    ∧ (((List.range n).map (fun k : Nat => x0 + (k : Int))).foldl
        (filter_step A coord2index input filter border_mode constant_border_value yj)
          st).filter_itr = st.filter_itr + n
    ∧ (((List.range n).map (fun k : Nat => x0 + (k : Int))).foldl
        (filter_step A coord2index input filter border_mode constant_border_value yj)
          st).reads = st.reads ++ (List.range n).map (fun i => st.filter_itr + i) := by
  induction n with
  | zero => simp [row_sum]
  | succ n ih =>
    simp only [List.range_succ, List.map_append, List.foldl_append, List.map_cons, List.map_nil,
      List.foldl_cons, List.foldl_nil, row_sum] at ih ⊢
    obtain ⟨h1, h2, h3, h4⟩ := ih
    refine ⟨?_, ?_, ?_, ?_⟩
    · simp only [filter_step, Coordinates.set, h1, h2, h3]
    · simp only [filter_step, Coordinates.set, h2]
    · simp only [filter_step, h3]; omega
    · simp only [filter_step, h4, h3]; simp

theorem outer_loop {D S T1 T2 T3 : Type} [Inhabited T1] (A : FilterArith D S T1 T2 T3)
    (coord2index : List Nat → Coordinates → Nat) (input : SimpleTensor T1) (filter : Nat → T2)
    (border_mode : BorderMode) (constant_border_value : T1) (x0 y0 : Int) (fw : Nat)
    (coord : Coordinates) (m : Nat) :
    (((List.range m).map (fun k : Nat => y0 + (k : Int))).foldl (fun st j =>
        ((List.range fw).map (fun k : Nat => x0 + (k : Int))).foldl
          (filter_step A coord2index input filter border_mode constant_border_value j) st)
        ({ val := A.zero, coord := coord, filter_itr := 0, reads := [] } : FilterState D)).val
      = filter_sum A coord2index input filter border_mode constant_border_value x0 y0
          coord.rest fw m
    ∧ (((List.range m).map (fun k : Nat => y0 + (k : Int))).foldl (fun st j =>
        ((List.range fw).map (fun k : Nat => x0 + (k : Int))).foldl
          (filter_step A coord2index input filter border_mode constant_border_value j) st)
        ({ val := A.zero, coord := coord, filter_itr := 0, reads := [] } : FilterState D)
        ).coord.rest = coord.rest
    ∧ (((List.range m).map (fun k : Nat => y0 + (k : Int))).foldl (fun st j =>
        ((List.range fw).map (fun k : Nat => x0 + (k : Int))).foldl
          (filter_step A coord2index input filter border_mode constant_border_value j) st)
        ({ val := A.zero, coord := coord, filter_itr := 0, reads := [] } : FilterState D)
        ).filter_itr = m * fw
    ∧ (((List.range m).map (fun k : Nat => y0 + (k : Int))).foldl (fun st j =>
        ((List.range fw).map (fun k : Nat => x0 + (k : Int))).foldl
          (filter_step A coord2index input filter border_mode constant_border_value j) st)
        ({ val := A.zero, coord := coord, filter_itr := 0, reads := [] } : FilterState D)
        ).reads = List.range (m * fw) := by
  induction m with
  | zero => simp [filter_sum]
  | succ m ih =>
    simp only [List.range_succ, List.map_append, List.foldl_append, List.map_cons, List.map_nil,
      List.foldl_cons, List.foldl_nil, filter_sum] at ih ⊢
    obtain ⟨h1, h2, h3, h4⟩ := ih
    have hin := inner_loop A coord2index input filter border_mode constant_border_value x0
      (y0 + (m : Int))
      (((List.range m).map (fun k : Nat => y0 + (k : Int))).foldl (fun st j =>
        ((List.range fw).map (fun k : Nat => x0 + (k : Int))).foldl
          (filter_step A coord2index input filter border_mode constant_border_value j) st)
        ({ val := A.zero, coord := coord, filter_itr := 0, reads := [] } : FilterState D)) fw
    obtain ⟨g1, g2, g3, g4⟩ := hin
    refine ⟨?_, ?_, ?_, ?_⟩
    · rw [g1, h1, h2, h3]
    · rw [g2, h2]
    · rw [g3, h3]; ring
    · rw [g4, h4, h3]
      have : (m + 1) * fw = m * fw + fw := by ring
      rw [this, List.range_add]

end validation

/-- C17: for odd filter width `fw` and odd filter height `fh`,
`apply_2d_spatial_filter` reads the coefficients `0, 1, ..., fw*fh - 1` in that
order and no other, coefficient `j * fw + i` being multiplied with
`tensor_elem_at(in, (x - fw/2 + i, y - fh/2 + j, rest))` and the products added
up in row-major order; it writes one output element, the one at
`coord2index(in.shape(), coord)`, with `saturate_cast(trunc(sum * scale))`, and
leaves all other output elements unchanged. -/
theorem C17_apply_2d_spatial_filter_row_major {D S T1 T2 T3 : Type} [Inhabited T1]
    (A : validation.FilterArith D S T1 T2 T3) (coord2index : List Nat → Coordinates → Nat)
    (coord : Coordinates) (input : SimpleTensor T1) (out : SimpleTensor T3)
    (filter_shape : List Nat) (filter : Nat → T2) (scale : S) (border_mode : BorderMode)
    (constant_border_value : T1)
    (hw : shape_dim filter_shape 0 % 2 = 1) (hh : shape_dim filter_shape 1 % 2 = 1) :
    (validation.apply_2d_spatial_filter A coord2index coord input out filter_shape filter scale
        border_mode constant_border_value).2
      = List.range (shape_dim filter_shape 0 * shape_dim filter_shape 1)
    ∧ (validation.apply_2d_spatial_filter A coord2index coord input out filter_shape filter scale
        border_mode constant_border_value).1
      = out.put (coord2index input.shape coord)
          (A.saturate_cast (A.trunc (A.mul
            (validation.filter_sum A coord2index input filter border_mode constant_border_value
              (coord.x - ((shape_dim filter_shape 0 / 2 : Nat) : Int))
              (coord.y - ((shape_dim filter_shape 1 / 2 : Nat) : Int))
              coord.rest (shape_dim filter_shape 0) (shape_dim filter_shape 1))
            (A.of_scale scale))))
    ∧ (validation.apply_2d_spatial_filter A coord2index coord input out filter_shape filter scale
        border_mode constant_border_value).1.shape = out.shape
    ∧ (validation.apply_2d_spatial_filter A coord2index coord input out filter_shape filter scale
        border_mode constant_border_value).1.data.length = out.data.length
    ∧ ∀ k, k ≠ coord2index input.shape coord →
        (validation.apply_2d_spatial_filter A coord2index coord input out filter_shape filter
          scale border_mode constant_border_value).1.data[k]? = out.data[k]? := by
  have h1 : 2 * (shape_dim filter_shape 0 / 2) + 1 = shape_dim filter_shape 0 := by omega
  have h2 : 2 * (shape_dim filter_shape 1 / 2) + 1 = shape_dim filter_shape 1 := by omega
  have key := validation.outer_loop A coord2index input filter border_mode constant_border_value
    (coord.x - ((shape_dim filter_shape 0 / 2 : Nat) : Int))
    (coord.y - ((shape_dim filter_shape 1 / 2 : Nat) : Int))
    (shape_dim filter_shape 0) coord (shape_dim filter_shape 1)
  obtain ⟨k1, k2, _, k4⟩ := key
  have e : validation.apply_2d_spatial_filter A coord2index coord input out filter_shape filter
      scale border_mode constant_border_value
      = (out.put (coord2index input.shape coord)
          (A.saturate_cast (A.trunc (A.mul
            (validation.filter_sum A coord2index input filter border_mode constant_border_value
              (coord.x - ((shape_dim filter_shape 0 / 2 : Nat) : Int))
              (coord.y - ((shape_dim filter_shape 1 / 2 : Nat) : Int))
              coord.rest (shape_dim filter_shape 0) (shape_dim filter_shape 1))
            (A.of_scale scale)))),
         List.range (shape_dim filter_shape 0 * shape_dim filter_shape 1)) := by
    unfold validation.apply_2d_spatial_filter
    simp only [validation.int_range_incl_centered, h1, h2]
    rw [k1, k4, Nat.mul_comm (shape_dim filter_shape 1)]
    simp only [Coordinates.set, k2]
  rw [e]
  refine ⟨rfl, rfl, rfl, ?_, ?_⟩
  · simp [SimpleTensor.put]
  · intro k hk
    simp only [SimpleTensor.put]
    rw [List.getElem?_set_ne (Ne.symm hk)]

/-! ### Reference GEMMLowp -/

theorem for_range_succ {σ : Type} (n : Nat) (body : Nat → σ → Option σ) (init : σ) :
    for_range (n + 1) body init = (for_range n body init).bind (body n) := by
  unfold for_range
  rw [List.range_succ, List.foldlM_append]
  cases h : List.foldlM (fun s i => body i s) init (List.range n) with
  | none => rfl
  | some s => simp [List.foldlM]

theorem for_range_inv {σ : Type} (body : Nat → σ → Option σ) (Inv : Nat → σ → Prop) (init : σ)
    (h0 : Inv 0 init) :
    ∀ n, (∀ i, i < n → ∀ s, Inv i s → ∃ s', body i s = some s' ∧ Inv (i + 1) s') →
      ∃ s', for_range n body init = some s' ∧ Inv n s' := by
  intro n
  induction n with
  | zero => intro _; exact ⟨init, rfl, h0⟩
  | succ n ih =>
    intro hstep
    obtain ⟨s, hs, hinv⟩ := ih (fun i hi => hstep i (Nat.lt_succ_of_lt hi))
    obtain ⟨s', hs', hinv'⟩ := hstep n (Nat.lt_succ_self n) s hinv
    exact ⟨s', by rw [for_range_succ, hs]; exact hs', hinv'⟩

theorem for_range_congr {σ : Type} (body body' : Nat → σ → Option σ) (init : σ) :
    ∀ n, (∀ i, i < n → ∀ s, body i s = body' i s) → for_range n body init = for_range n body' init := by
  intro n
  induction n with
  | zero => intro _; rfl
  | succ n ih =>
    intro h
    rw [for_range_succ, for_range_succ, ih (fun i hi => h i (Nat.lt_succ_of_lt hi))]
    cases for_range n body' init with
    | none => rfl
    | some s => exact h n (Nat.lt_succ_self n) s

theorem wrap32_of_in_int32 (x : Int) (h : -2 ^ 31 ≤ x ∧ x < 2 ^ 31) : wrap32 x = x := by
  unfold wrap32
  rw [Int.bmod_def]
  norm_num at h ⊢
  split <;> omega

theorem wrap32_wrap32 (x : Int) : wrap32 (wrap32 x) = wrap32 x := by
  unfold wrap32; exact Int.bmod_bmod

theorem wrap32_accumulate (s x y : Int) :
    wrap32 (wrap32 s + wrap32 (wrap32 x * wrap32 y)) = wrap32 (s + x * y) := by
  unfold wrap32
  rw [Int.add_bmod_bmod, Int.bmod_add_bmod_congr]
  have h : (x.bmod (2 ^ 32) * y.bmod (2 ^ 32)).bmod (2 ^ 32) = (x * y).bmod (2 ^ 32) := by
    rw [Int.mul_bmod_bmod, Int.bmod_mul_bmod]
  rw [← Int.add_bmod_bmod, h, Int.add_bmod_bmod]

theorem getD_set_eq (l : List Int) (i : Nat) (x : Int) (h : i < l.length) :
    (l.set i x).getD i 0 = x := by
  simp [List.getD_eq_getElem?_getD, List.getElem?_set_self, h]

theorem getD_set_ne (l : List Int) (i j : Nat) (x : Int) (h : i ≠ j) :
    (l.set i x).getD j 0 = l.getD j 0 := by
  simp [List.getD_eq_getElem?_getD, List.getElem?_set_ne h]

theorem getElem?_eq_some_getD (l : List Int) (i : Nat) (h : i < l.length) :
    l[i]? = some (l.getD i 0) := by
  simp [List.getD_eq_getElem?_getD, List.getElem?_eq_getElem h]

theorem mul_index_lt (k i K M : Nat) (hk : k < K) (hi : i < M) : k + i * K < K * M := by
  have : (i + 1) * K ≤ M * K := Nat.mul_le_mul_right K hi
  rw [Nat.add_mul, Nat.one_mul] at this
  rw [Nat.mul_comm K M]
  omega

namespace Reference

theorem zero_loop (cols : Nat) (acc : List Int) (hl : acc.length = cols) :
    ∃ acc', for_range cols (fun j acc => vec_write acc j 0) acc = some acc'
      ∧ acc'.length = cols ∧ ∀ j < cols, acc'.getD j 0 = 0 := by
  obtain ⟨acc', h, hinv⟩ := for_range_inv (fun j acc => vec_write acc j 0)
    (fun m acc' => acc'.length = cols ∧ ∀ j < m, acc'.getD j 0 = 0) acc ⟨hl, fun j hj => by omega⟩
    cols (by
      intro i hi s ⟨hs, hz⟩
      refine ⟨s.set i 0, by simp [vec_write, hs, hi], by simp [hs], ?_⟩
      intro j hj
      by_cases e : i = j
      · subst e; exact getD_set_eq _ _ _ (by omega)
      · rw [getD_set_ne _ _ _ _ e]; exact hz j (by omega))
  exact ⟨acc', h, hinv.1, hinv.2⟩

theorem column_loop (b : SimpleTensor Int) (b_offset tmp_a : Int) (N K k : Nat) (hk : k < K)
    (hbl : b.data.length = N * K) (acc : List Int) (hl : acc.length = N) :
    ∃ acc', for_range N (fun j acc => do
        let tmp_b := wrap32 (b_offset + (← b.read? (j + k * N)))
        let mult_as_int := wrap32 (tmp_a * tmp_b)
        vec_write acc j (wrap32 ((← vec_read acc j) + mult_as_int))) acc = some acc'
      ∧ acc'.length = N
      ∧ ∀ j < N, acc'.getD j 0
          = wrap32 (acc.getD j 0 + wrap32 (tmp_a * wrap32 (b_offset + b.data.getD (j + k * N) 0))) := by
  obtain ⟨acc', h, hinv⟩ := for_range_inv (fun j acc => do
        let tmp_b := wrap32 (b_offset + (← b.read? (j + k * N)))
        let mult_as_int := wrap32 (tmp_a * tmp_b)
        vec_write acc j (wrap32 ((← vec_read acc j) + mult_as_int)))
    (fun m acc' => acc'.length = N
      ∧ (∀ j < m, acc'.getD j 0
          = wrap32 (acc.getD j 0 + wrap32 (tmp_a * wrap32 (b_offset + b.data.getD (j + k * N) 0))))
      ∧ ∀ j, m ≤ j → acc'.getD j 0 = acc.getD j 0) acc
    ⟨hl, fun j hj => by omega, fun j _ => rfl⟩ N (by
      intro i hi s ⟨hs, hdone, hrest⟩
      have hb : i + k * N < b.data.length := by
        rw [hbl]; exact mul_index_lt i k N K hi hk
      refine ⟨s.set i (wrap32 (s.getD i 0
          + wrap32 (tmp_a * wrap32 (b_offset + b.data.getD (i + k * N) 0)))), ?_, by simp [hs], ?_, ?_⟩
      · have e1 : b.read? (i + k * N) = some (b.data.getD (i + k * N) 0) :=
          getElem?_eq_some_getD _ _ hb
        have e2 : vec_read s i = some (s.getD i 0) := getElem?_eq_some_getD _ _ (by omega)
        have e3 : ∀ x, vec_write s i x = some (s.set i x) := fun x => by
          simp [vec_write, hs, hi]
        simp only [e1, e2, e3, Option.bind_eq_bind, Option.some_bind]
      · intro j hj
        by_cases e : i = j
        · subst e
          rw [getD_set_eq _ _ _ (by omega), hrest i (le_refl _)]
        · rw [getD_set_ne _ _ _ _ e]; exact hdone j (by omega)
      · intro j hj
        rw [getD_set_ne _ _ _ _ (by omega)]
        exact hrest j (by omega))
  exact ⟨acc', h, hinv.1, hinv.2.1⟩

theorem depth_loop (a b : SimpleTensor Int) (a_offset b_offset : Int) (K M N i : Nat)
    (hi : i < M) (hal : a.data.length = K * M) (hbl : b.data.length = N * K)
    (acc : List Int) (hl : acc.length = N) (hz : ∀ j < N, acc.getD j 0 = 0) :
    ∃ acc', for_range K (fun k acc => do
        let tmp_a := wrap32 (a_offset + (← a.read? (k + i * K)))
        for_range N (fun j acc => do
          let tmp_b := wrap32 (b_offset + (← b.read? (j + k * N)))
          let mult_as_int := wrap32 (tmp_a * tmp_b)
          vec_write acc j (wrap32 ((← vec_read acc j) + mult_as_int))) acc) acc = some acc'
      ∧ acc'.length = N
      ∧ ∀ j < N, acc'.getD j 0 = wrap32 (dot a b a_offset b_offset K N i j K) := by
  obtain ⟨acc', h, hinv⟩ := for_range_inv (fun k acc => do
        let tmp_a := wrap32 (a_offset + (← a.read? (k + i * K)))
        for_range N (fun j acc => do
          let tmp_b := wrap32 (b_offset + (← b.read? (j + k * N)))
          let mult_as_int := wrap32 (tmp_a * tmp_b)
          vec_write acc j (wrap32 ((← vec_read acc j) + mult_as_int))) acc)
    (fun m acc' => acc'.length = N
      ∧ ∀ j < N, acc'.getD j 0 = wrap32 (dot a b a_offset b_offset K N i j m)) acc
    ⟨hl, fun j hj => by rw [hz j hj]; simp [dot, wrap32]⟩ K (by
      intro k hk s ⟨hs, hsum⟩
      have ha : k + i * K < a.data.length := by
        rw [hal]; exact mul_index_lt k i K M hk hi
      obtain ⟨s', hs', hl', hv⟩ := column_loop b b_offset
        (wrap32 (a_offset + a.data.getD (k + i * K) 0)) N K k hk hbl s hs
      refine ⟨s', ?_, hl', ?_⟩
      · have e1 : a.read? (k + i * K) = some (a.data.getD (k + i * K) 0) :=
          getElem?_eq_some_getD _ _ ha
        simp only [e1, Option.bind_eq_bind, Option.some_bind]
        exact hs'
      · intro j hj
        rw [hv j hj, hsum j hj, wrap32_accumulate]
        simp [dot, Finset.sum_range_succ])
  exact ⟨acc', h, hinv.1, hinv.2⟩

theorem store_loop (acc : List Int) (N M i : Nat) (hi : i < M) (hl : acc.length = N)
    (c : SimpleTensor Int) (hcl : c.data.length = N * M) :
    ∃ c', for_range N (fun j c => do c.write? (j + i * N) (← vec_read acc j)) c = some c'
      ∧ c'.shape = c.shape ∧ c'.data.length = N * M
      ∧ (∀ j < N, c'.data.getD (j + i * N) 0 = acc.getD j 0)
      ∧ ∀ idx, (idx < i * N ∨ i * N + N ≤ idx) → c'.data.getD idx 0 = c.data.getD idx 0 := by
  obtain ⟨c', h, hinv⟩ := for_range_inv
    (fun j c => do c.write? (j + i * N) (← vec_read acc j))
    (fun m c' => c'.shape = c.shape ∧ c'.data.length = N * M
      ∧ (∀ j < m, c'.data.getD (j + i * N) 0 = acc.getD j 0)
      ∧ ∀ idx, (idx < i * N ∨ i * N + m ≤ idx) → c'.data.getD idx 0 = c.data.getD idx 0) c
    ⟨rfl, hcl, fun j hj => by omega, fun _ _ => rfl⟩ N (by
      intro j hj s ⟨hsh, hsl, hdone, hrest⟩
      have hidx : j + i * N < s.data.length := by
        rw [hsl]; exact mul_index_lt j i N M hj hi
      refine ⟨s.put (j + i * N) (acc.getD j 0), ?_, hsh, by simp [SimpleTensor.put, hsl], ?_, ?_⟩
      · have e2 : vec_read acc j = some (acc.getD j 0) := getElem?_eq_some_getD _ _ (by omega)
        have e3 : ∀ x, s.write? (j + i * N) x = some (s.put (j + i * N) x) := fun x => by
          simp [SimpleTensor.write?, hidx]
        simp only [e2, e3, Option.bind_eq_bind, Option.some_bind]
      · intro j' hj'
        simp only [SimpleTensor.put]
        by_cases e : j = j'
        · subst e; exact getD_set_eq _ _ _ hidx
        · rw [getD_set_ne _ _ _ _ (by omega)]; exact hdone j' (by omega)
      · intro idx hidx'
        simp only [SimpleTensor.put]
        rw [getD_set_ne _ _ _ _ (by omega)]
        exact hrest idx (by omega))
  have : ∀ idx, (idx < i * N ∨ i * N + N ≤ idx) → c'.data.getD idx 0 = c.data.getD idx 0 :=
    hinv.2.2.2
  exact ⟨c', h, hinv.1, hinv.2.1, hinv.2.2.1, this⟩

theorem row_loop (a b : SimpleTensor Int) (a_offset b_offset : Int) (K M N : Nat)
    (hal : a.data.length = K * M) (hbl : b.data.length = N * K)
    (acc : List Int) (hl : acc.length = N) (c : SimpleTensor Int) (hcs : c.shape = [N, M])
    (hcl : c.data.length = N * M) :
    ∃ st, for_range M (fun i (st : List Int × SimpleTensor Int) => do
        let acc ← for_range N (fun j acc => vec_write acc j 0) st.1
        let acc ← for_range K (fun k acc => do
          let tmp_a := wrap32 (a_offset + (← a.read? (k + i * K)))
          for_range N (fun j acc => do
            let tmp_b := wrap32 (b_offset + (← b.read? (j + k * N)))
            let mult_as_int := wrap32 (tmp_a * tmp_b)
            vec_write acc j (wrap32 ((← vec_read acc j) + mult_as_int))) acc) acc
        let c ← for_range N (fun j c => do c.write? (j + i * N) (← vec_read acc j)) st.2
        pure (acc, c)) (acc, c) = some st
      ∧ st.2.shape = [N, M] ∧ st.2.data.length = N * M
      ∧ ∀ i < M, ∀ j < N,
          st.2.data.getD (j + i * N) 0 = wrap32 (dot a b a_offset b_offset K N i j K) := by
  obtain ⟨st, h, hinv⟩ := for_range_inv (fun i (st : List Int × SimpleTensor Int) => do
        let acc ← for_range N (fun j acc => vec_write acc j 0) st.1
        let acc ← for_range K (fun k acc => do
          let tmp_a := wrap32 (a_offset + (← a.read? (k + i * K)))
          for_range N (fun j acc => do
            let tmp_b := wrap32 (b_offset + (← b.read? (j + k * N)))
            let mult_as_int := wrap32 (tmp_a * tmp_b)
            vec_write acc j (wrap32 ((← vec_read acc j) + mult_as_int))) acc) acc
        let c ← for_range N (fun j c => do c.write? (j + i * N) (← vec_read acc j)) st.2
        pure (acc, c))
    (fun m st => st.1.length = N ∧ st.2.shape = [N, M] ∧ st.2.data.length = N * M
      ∧ ∀ i < m, ∀ j < N,
          st.2.data.getD (j + i * N) 0 = wrap32 (dot a b a_offset b_offset K N i j K))
    (acc, c) ⟨hl, hcs, hcl, fun i hi => by omega⟩ M (by
      intro i hi st ⟨h1, h2, h3, h4⟩
      obtain ⟨acc1, e1, l1, z1⟩ := zero_loop N st.1 h1
      obtain ⟨acc2, e2, l2, v2⟩ := depth_loop a b a_offset b_offset K M N i hi hal hbl acc1 l1 z1
      obtain ⟨c', e3, s3, l3, v3, r3⟩ := store_loop acc2 N M i hi l2 st.2 h3
      refine ⟨(acc2, c'), ?_, l2, by rw [s3, h2], l3, ?_⟩
      · simp only [Option.bind_eq_bind, Option.pure_def] at e1 e2 e3 ⊢
        rw [e1]
        simp only [Option.some_bind]
        rw [e2]
        simp only [Option.some_bind]
        rw [e3]
        simp only [Option.some_bind]
      · intro i' hi' j hj
        by_cases e : i' = i
        · subst e
          rw [v3 j hj, v2 j hj]
        · have hlt : i' < i := by omega
          have : (i' + 1) * N ≤ i * N := Nat.mul_le_mul_right N hlt
          rw [Nat.add_mul, Nat.one_mul] at this
          rw [r3 (j + i' * N) (Or.inl (by omega))]
          exact h4 i' hlt j hj)
  exact ⟨st, h, hinv.2.1, hinv.2.2.1, hinv.2.2.2⟩

end Reference

/-- C11: for `a` of width `K` and height `M` and `b` of width `N` and height `K`,
`gemmlowp_matrix_multiply_core` returns (no read or write falls outside a
buffer) a tensor `c` of shape `(N, M)` with, for all `i < M`, `j < N`,
`c[j + i*N]` = the `int32_t` value of
`sum over k < K of (a_offset + a[k + i*K]) * (b_offset + b[j + k*N])`. -/
theorem C11_gemmlowp_matrix_multiply_core (a b : SimpleTensor Int) (a_offset b_offset : Int)
    (K M N : Nat) (hK : shape_dim a.shape 0 = K) (hM : shape_dim a.shape 1 = M)
    (hN : shape_dim b.shape 0 = N) (hal : a.data.length = K * M)
    (hbl : b.data.length = N * K) :
    ∃ c, Reference.gemmlowp_matrix_multiply_core a b a_offset b_offset = some c
      ∧ c.shape = [N, M] ∧ c.data.length = N * M
      ∧ ∀ i < M, ∀ j < N,
          c.data[j + i * N]? = some (wrap32 (Finset.sum (Finset.range K) (fun k =>
            (a_offset + a.data.getD (k + i * K) 0) * (b_offset + b.data.getD (j + k * N) 0))))
      := by
  have hrows : shape_dim (SimpleTensor.create [N, M]).shape 1 = M := by
    simp [SimpleTensor.create, shape_dim]
  have hcols : shape_dim (SimpleTensor.create [N, M]).shape 0 = N := by
    simp [SimpleTensor.create, shape_dim]
  obtain ⟨st, h, hs, hl, hv⟩ := Reference.row_loop a b a_offset b_offset K M N hal hbl
    (List.replicate N 0) (by simp) (SimpleTensor.create [N, M]) rfl
    (by simp [SimpleTensor.create, total_size])
  refine ⟨st.2, ?_, hs, hl, ?_⟩
  · unfold Reference.gemmlowp_matrix_multiply_core
    simp only [hK, hM, hN, hrows, hcols]
    rw [h]
    rfl
  · intro i hi j hj
    have hidx : j + i * N < st.2.data.length := by
      rw [hl]; exact mul_index_lt j i N M hj hi
    rw [getElem?_eq_some_getD _ _ hidx, hv i hi j hj]
    rfl

theorem shape_dim_pos_of_total_size_pos (shape : List Nat) (h : 0 < total_size shape) :
    0 < shape_dim shape 0 := by
  cases shape with
  | nil => simp [total_size] at h
  | cons x xs =>
    simp only [total_size, List.isEmpty_cons, Bool.false_eq_true, if_false, List.prod_cons] at h
    simp only [shape_dim, List.isEmpty_cons, Bool.false_eq_true, if_false, List.getD_cons_zero]
    exact Nat.pos_of_mul_pos_right h

theorem quantized_value (v bv ro rm rs mn mx : Int)
    (h1 : Reference.in_int32 (v + ro)) (h2 : Reference.in_int32 ((v + ro) * rm))
    (h3 : Reference.in_int32 ((v + ro) * rm + bv)) :
    Max.max 0 (Min.min 255
      (if (mn != mx) = true
        then Max.max mn (Min.min mx (wrap32 (wrap32 (wrap32 (v + ro) * rm) + bv) >>> rs.toNat))
        else wrap32 (wrap32 (wrap32 (v + ro) * rm) + bv) >>> rs.toNat))
      = Reference.quantized v bv ro rm rs mn mx := by
  rw [wrap32_of_in_int32 _ h1, wrap32_of_in_int32 _ h2, wrap32_of_in_int32 _ h3]
  unfold Reference.quantized
  rw [Int.shiftRight_eq_div_pow]
  push_cast
  by_cases e : mn = mx
  · simp [e]
  · simp [e]

theorem quantize_loop (input : SimpleTensor Int) (bias : Option (SimpleTensor Int))
    (dst : SimpleTensor Int) (ro rm rs mn mx : Int) (bv : Nat → Int)
    (hshift : 0 ≤ rs ∧ rs < 32)
    (hlen : input.num_elements ≤ input.data.length)
    (hdl : input.num_elements ≤ dst.data.length)
    (hb : ∀ i < input.num_elements, match bias with
      | some b => b.data[i % shape_dim input.shape 0]? = some (bv i)
      | none => bv i = 0)
    (hov : ∀ i < input.num_elements,
      Reference.in_int32 (input.data.getD i 0 + ro)
      ∧ Reference.in_int32 ((input.data.getD i 0 + ro) * rm)
      ∧ Reference.in_int32 ((input.data.getD i 0 + ro) * rm + bv i)) :
    ∃ r, Reference.quantize_down_int32_to_uint8_scale input bias dst ro rm rs mn mx = some r
      ∧ r.shape = dst.shape ∧ r.data.length = dst.data.length
      ∧ ∀ i < input.num_elements,
          r.data.getD i 0 = Reference.quantized (input.data.getD i 0) (bv i) ro rm rs mn mx := by
  unfold Reference.quantize_down_int32_to_uint8_scale
  apply for_range_inv _
    (fun m (r : SimpleTensor Int) => r.shape = dst.shape ∧ r.data.length = dst.data.length
      ∧ ∀ i < m, r.data.getD i 0
          = Reference.quantized (input.data.getD i 0) (bv i) ro rm rs mn mx)
    dst ⟨rfl, rfl, fun i hi => by omega⟩
  intro i hi s ⟨hs, hl, hv⟩
  have e1 : input.read? i = some (input.data.getD i 0) :=
    getElem?_eq_some_getD _ _ (by omega)
  have hw : ∀ x, s.write? i x = some (s.put i x) := by
    intro x
    unfold SimpleTensor.write?
    rw [if_pos (by omega)]
  have e3 : ∀ x, shift_right32 x rs = some (x >>> rs.toNat) := by
    intro x
    unfold shift_right32
    rw [if_pos hshift]
  obtain ⟨o1, o2, o3⟩ := hov i hi
  have hbi := hb i hi
  have key : ∀ x, (s.put i x).shape = dst.shape ∧ (s.put i x).data.length = dst.data.length
      ∧ ∀ i' < i, (s.put i x).data.getD i' 0
          = Reference.quantized (input.data.getD i' 0) (bv i') ro rm rs mn mx := by
    intro x
    refine ⟨hs, by simp [SimpleTensor.put, hl], ?_⟩
    intro i' hi'
    show (s.data.set i x).getD i' 0 = _
    rw [getD_set_ne _ _ _ _ (by omega)]
    exact hv i' hi'
  have keyi : ∀ x, (s.put i x).data.getD i 0 = x := by
    intro x
    show (s.data.set i x).getD i 0 = _
    exact getD_set_eq _ _ _ (by omega)
  cases bias with
  | none =>
    simp only at hbi
    refine ⟨_, by simp only [e1, e3, hw, Option.bind_eq_bind, Option.some_bind, Option.pure_def]; rfl,
      (key _).1, (key _).2.1, ?_⟩
    intro i' hi'
    by_cases e : i' = i
    · subst e
      rw [keyi]
      have := quantized_value (input.data.getD i' 0) (bv i') ro rm rs mn mx o1 o2 o3
      rw [hbi] at this ⊢
      rw [← this, Int.add_zero, wrap32_wrap32]
    · exact (key _).2.2 i' (by omega)
  | some b =>
    simp only at hbi
    have e2 : b.read? (i % shape_dim input.shape 0) = some (bv i) := hbi
    refine ⟨_, by simp only [e1, e2, e3, hw, Option.bind_eq_bind, Option.some_bind, Option.pure_def]; rfl,
      (key _).1, (key _).2.1, ?_⟩
    intro i' hi'
    by_cases e : i' = i
    · subst e
      rw [keyi]
      exact quantized_value (input.data.getD i' 0) (bv i') ro rm rs mn mx o1 o2 o3
    · exact (key _).2.2 i' (by omega)

theorem quantize_zero_bias (input zero dst : SimpleTensor Int) (ro rm rs mn mx : Int)
    (hzero : ∀ k < shape_dim input.shape 0, zero.data[k]? = some 0) :
    Reference.quantize_down_int32_to_uint8_scale input none dst ro rm rs mn mx
      = Reference.quantize_down_int32_to_uint8_scale input (some zero) dst ro rm rs mn mx := by
  unfold Reference.quantize_down_int32_to_uint8_scale
  apply for_range_congr
  intro i hi s
  have hpos : 0 < shape_dim input.shape 0 :=
    shape_dim_pos_of_total_size_pos _ (Nat.lt_of_le_of_lt (Nat.zero_le i) hi)
  have e2 : zero.read? (i % shape_dim input.shape 0) = some 0 :=
    hzero _ (Nat.mod_lt _ hpos)
  cases e1 : input.read? i with
  | none => simp only [Option.bind_eq_bind, Option.none_bind]
  | some x =>
    simp only [e2, Option.bind_eq_bind, Option.some_bind, Option.pure_def, Int.add_zero,
      wrap32_wrap32]

/-- C12: assuming no `int32_t` overflow and `0 <= result_shift < 32`, both
overloads of `gemmlowp_quantize_down_int32_to_uint8_scale` return (no access
falls outside a buffer) a tensor of the shape of the input with
`dst[i] = clamp(r', 0, 255)`, where
`r = floor(((in[i] + result_offset) * result_mult_int + bias[i mod cols]) / 2^result_shift)`
(no bias term in the overload without bias), `r' = r` if `min == max` and
`r' = max(min, min(max, r))` otherwise; and the overload without bias equals the
overload with bias at an all-zero bias. -/
theorem C12_gemmlowp_quantize_down_int32_to_uint8_scale (input bias zero : SimpleTensor Int)
    (result_offset result_mult_int result_shift min max : Int)
    (hlen : input.data.length = input.num_elements)
    (hbias : shape_dim input.shape 0 ≤ bias.data.length)
    (hzero : ∀ k < shape_dim input.shape 0, zero.data[k]? = some 0)
    (hshift : 0 ≤ result_shift ∧ result_shift < 32)
    (hov : ∀ i < input.num_elements,
      Reference.in_int32 (input.data.getD i 0 + result_offset)
      ∧ Reference.in_int32 ((input.data.getD i 0 + result_offset) * result_mult_int))
    (hovb : ∀ i < input.num_elements,
      Reference.in_int32 ((input.data.getD i 0 + result_offset) * result_mult_int
        + bias.data.getD (i % shape_dim input.shape 0) 0)) :
    (∃ dst, Reference.gemmlowp_quantize_down_int32_to_uint8_scale_bias input bias result_offset
          result_mult_int result_shift min max = some dst
        ∧ dst.shape = input.shape
        ∧ ∀ i < input.num_elements, dst.data[i]? = some (Reference.quantized
            (input.data.getD i 0) (bias.data.getD (i % shape_dim input.shape 0) 0)
            result_offset result_mult_int result_shift min max))
    ∧ (∃ dst, Reference.gemmlowp_quantize_down_int32_to_uint8_scale input result_offset
          result_mult_int result_shift min max = some dst
        ∧ dst.shape = input.shape
        ∧ ∀ i < input.num_elements, dst.data[i]? = some (Reference.quantized
            (input.data.getD i 0) 0 result_offset result_mult_int result_shift min max))
    ∧ Reference.gemmlowp_quantize_down_int32_to_uint8_scale input result_offset
          result_mult_int result_shift min max
        = Reference.gemmlowp_quantize_down_int32_to_uint8_scale_bias input zero result_offset
          result_mult_int result_shift min max := by
  have hdl : (SimpleTensor.create input.shape).data.length = input.num_elements := by
    simp [SimpleTensor.create, SimpleTensor.num_elements]
  refine ⟨?_, ?_, quantize_zero_bias input zero _ _ _ _ _ _ hzero⟩
  · obtain ⟨r, h, hs, hl, hv⟩ := quantize_loop input (some bias) (SimpleTensor.create input.shape)
      result_offset result_mult_int result_shift min max
      (fun i => bias.data.getD (i % shape_dim input.shape 0) 0) hshift
      (by omega) (by omega)
      (fun i hi => getElem?_eq_some_getD _ _ (Nat.lt_of_lt_of_le
        (Nat.mod_lt _ (shape_dim_pos_of_total_size_pos _
          (Nat.lt_of_le_of_lt (Nat.zero_le i) hi))) hbias))
      (fun i hi => ⟨(hov i hi).1, (hov i hi).2, hovb i hi⟩)
    refine ⟨r, h, hs, ?_⟩
    intro i hi
    rw [getElem?_eq_some_getD _ _ (by omega), hv i hi]
  · obtain ⟨r, h, hs, hl, hv⟩ := quantize_loop input none (SimpleTensor.create input.shape)
      result_offset result_mult_int result_shift min max (fun _ => 0) hshift
      (by omega) (by omega) (fun i hi => rfl)
      (fun i hi => ⟨(hov i hi).1, (hov i hi).2, by rw [Int.add_zero]; exact (hov i hi).2⟩)
    refine ⟨r, h, hs, ?_⟩
    intro i hi
    rw [getElem?_eq_some_getD _ _ (by omega), hv i hi]

/-! ### AlexNetNetwork::get_classifications -/

theorem Dimension.values_unit_step (s : Nat) :
    (⟨0, (s : Int), 1⟩ : Dimension).values = (List.range s).map (fun k : Nat => (k : Int)) := by
  simp [Dimension.values]

theorem iteration_space_length (ds : List Dimension) :
    (iteration_space ds).length = (ds.map fun d => d.values.length).prod := by
  induction ds with
  | nil => rfl
  | cons d ds ih =>
    simp only [iteration_space, List.length_flatten, List.map_map, List.map_cons, List.prod_cons]
    rw [← ih]
    generalize iteration_space ds = l
    induction l with
    | nil => simp
    | cons x xs ihx =>
      simp only [List.map_cons, List.sum_cons, List.length_cons, ihx, Function.comp,
        List.length_map]
      ring

namespace AlexNetNetwork

theorem best_fold {α : Type} [LinearOrder α] [Zero α] (row : Nat → α) (n : Nat) :
    ((∀ l < n, row l ≤ 0)
        ∧ (List.range n).foldl (best_step row) { max_idx := 0, val := 0 }
            = { max_idx := 0, val := 0 })
    ∨ (((List.range n).foldl (best_step row) { max_idx := 0, val := 0 }).max_idx < n
        ∧ ((List.range n).foldl (best_step row) { max_idx := 0, val := 0 }).val
            = row ((List.range n).foldl (best_step row) { max_idx := 0, val := 0 }).max_idx
        ∧ 0 < ((List.range n).foldl (best_step row) { max_idx := 0, val := 0 }).val
        ∧ (∀ l < n, row l
            ≤ ((List.range n).foldl (best_step row) { max_idx := 0, val := 0 }).val)
        ∧ ∀ l < ((List.range n).foldl (best_step row) { max_idx := 0, val := 0 }).max_idx,
            row l < ((List.range n).foldl (best_step row) { max_idx := 0, val := 0 }).val) := by
  induction n with
  | zero => left; exact ⟨fun l hl => by omega, rfl⟩
  | succ n ih =>
    rw [List.range_succ, List.foldl_append, List.foldl_cons, List.foldl_nil]
    generalize (List.range n).foldl (best_step row) { max_idx := 0, val := 0 } = st at ih ⊢
    rcases ih with ⟨hneg, hst⟩ | ⟨hlt, hval, hpos, hmax, hfirst⟩
    · subst hst
      by_cases h : (0 : α) < row n
      · right
        simp only [best_step, if_pos h]
        refine ⟨Nat.lt_succ_self n, trivial, h, ?_, ?_⟩
        · intro l hl
          rcases Nat.lt_succ_iff_lt_or_eq.mp hl with hl | hl
          · exact le_trans (hneg l hl) (le_of_lt h)
          · subst hl; exact le_refl _
        · intro l hl
          exact lt_of_le_of_lt (hneg l hl) h
      · left
        simp only [best_step, if_neg h]
        refine ⟨?_, trivial⟩
        intro l hl
        rcases Nat.lt_succ_iff_lt_or_eq.mp hl with hl | hl
        · exact hneg l hl
        · subst hl; exact not_lt.mp h
    · right
      by_cases h : st.val < row n
      · simp only [best_step, if_pos h]
        refine ⟨Nat.lt_succ_self n, trivial, lt_trans hpos h, ?_, ?_⟩
        · intro l hl
          rcases Nat.lt_succ_iff_lt_or_eq.mp hl with hl | hl
          · exact le_trans (hmax l hl) (le_of_lt h)
          · subst hl; exact le_refl _
        · intro l hl
          exact lt_of_le_of_lt (hmax l hl) h
      · simp only [best_step, if_neg h]
        refine ⟨Nat.lt_succ_of_lt hlt, hval, hpos, ?_, hfirst⟩
        intro l hl
        rcases Nat.lt_succ_iff_lt_or_eq.mp hl with hl | hl
        · exact hmax l hl
        · subst hl; exact not_lt.mp h

theorem classify_of_positive {α : Type} [LinearOrder α] [Zero α] (width : Nat) (row : Nat → α)
    (h : ∃ l < width, 0 < row l) :
    classify width row < width
      ∧ (∀ l < width, row l ≤ row (classify width row))
      ∧ ∀ l < classify width row, row l < row (classify width row) := by
  unfold classify
  rcases best_fold row width with ⟨hneg, _⟩ | ⟨hlt, hval, _, hmax, hfirst⟩
  · obtain ⟨l, hl, hp⟩ := h
    exact absurd (hneg l hl) (not_le.mpr hp)
  · rw [← hval]
    exact ⟨hlt, hmax, hfirst⟩

theorem classify_of_no_positive {α : Type} [LinearOrder α] [Zero α] (width : Nat)
    (row : Nat → α) (h : ∀ l < width, row l ≤ 0) : classify width row = 0 := by
  unfold classify
  rcases best_fold row width with ⟨_, hst⟩ | ⟨hlt, hval, hpos, hmax, _⟩
  · rw [hst]
  · exact absurd (hval ▸ h _ hlt) (not_le.mpr hpos)

theorem for_range_eq_some_foldl {σ : Type} (body : Nat → σ → Option σ) (f : σ → Nat → σ)
    (init : σ) :
    ∀ n, (∀ i, i < n → ∀ s, body i s = some (f s i)) →
      for_range n body init = some ((List.range n).foldl f init) := by
  intro n
  induction n with
  | zero => intro _; rfl
  | succ n ih =>
    intro h
    rw [for_range_succ, ih (fun i hi => h i (Nat.lt_succ_of_lt hi)), List.range_succ,
      List.foldl_append]
    exact h n (Nat.lt_succ_self n) _

theorem mapM_map_some {β γ : Type} (f : β → Option γ) (g : β → γ) :
    ∀ l : List β, (∀ x ∈ l, f x = some (g x)) →
      List.mapM (fun (o : Option γ) => o) (l.map f) = some (l.map g) := by
  intro l
  induction l with
  | nil => intro _; rfl
  | cons x xs ih =>
    intro h
    rw [List.map_cons, List.mapM_cons, h x (List.mem_cons_self x xs),
      ih (fun y hy => h y (List.mem_cons_of_mem x hy))]
    rfl

theorem window_eq (shape : List Nat) (h0 : shape ≠ []) (h6 : shape.length ≤ num_max_dimensions) :
    (List.range (shape.length - 1)).foldl (fun (w : Window) (k : Nat) =>
        let d := k + 1
        w.set d ⟨0, (shape_dim shape d : Nat), 1⟩) (Window.new.set Window.DimX ⟨0, 1, 1⟩)
      = ⟨window_dims shape⟩ := by
  rcases shape with _ | ⟨a, _ | ⟨b, _ | ⟨c, _ | ⟨d, _ | ⟨e, _ | ⟨f, _ | ⟨g, t⟩⟩⟩⟩⟩⟩⟩
  · exact absurd rfl h0
  · rfl
  · rfl
  · rfl
  · rfl
  · rfl
  · rfl
  · simp [num_max_dimensions] at h6

theorem mem_window_space (shape : List Nat) (id : List Int)
    (h : id ∈ iteration_space (window_dims shape)) : ∃ rest, id = 0 :: rest := by
  unfold window_dims at h
  simp only [List.cons_append, iteration_space, List.mem_flatten, List.mem_map] at h
  obtain ⟨l, ⟨rest, _, rfl⟩, hid⟩ := h
  have hv : (⟨0, 1, 1⟩ : Dimension).values = [0] := by decide
  rw [hv] at hid
  simp only [List.map_cons, List.map_nil, List.mem_singleton] at hid
  exact ⟨rest, hid⟩

theorem offset_set_zero (t : OutputTensor) (rest : List Int) (l : Nat) (sx : Nat)
    (hs : t.strides_in_bytes.head? = some sx) :
    t.offset_element_in_bytes ((0 :: rest).set 0 (l : Int))
      = t.offset_element_in_bytes (0 :: rest) + sx * l := by
  unfold OutputTensor.offset_element_in_bytes
  cases hst : t.strides_in_bytes with
  | nil => rw [hst] at hs; cases hs
  | cons s ss =>
    rw [hst] at hs
    simp only [List.head?_cons, Option.some.injEq] at hs
    subst hs
    simp only [List.set_cons_zero, List.zipWith_cons_cons, List.sum_cons, Int.toNat_ofNat,
      Int.toNat_zero, Nat.zero_mul, Nat.zero_add]
    rw [Nat.mul_comm l s]
    omega

theorem classify_at_f32 {α : Type} [LinearOrder α] [Zero α]
    (value_of_bytes : DataType → List Nat → α) (output : OutputTensor)
    (hF32 : output.data_type = DataType.F32)
    (hstride : output.strides_in_bytes.head? = some (data_size_from_type output.data_type))
    (id : List Int) (hid : id ∈ iteration_space (window_dims output.shape)) (width : Nat)
    (hbuf : ∀ l < width, output.offset_element_in_bytes (id.set 0 (l : Int))
      + data_size_from_type output.data_type ≤ output.buffer.length) :
    classify_at (value_of_bytes DataType.F32) output.buffer
        (output.offset_element_in_bytes id) width
      = some (classify width (fun l => output.element value_of_bytes (id.set 0 (l : Int)))) := by
  obtain ⟨rest, rfl⟩ := mem_window_space output.shape id hid
  have h4 : data_size_from_type output.data_type = 4 := by rw [hF32]; rfl
  unfold classify_at classify
  rw [for_range_eq_some_foldl _
    (best_step (fun l => output.element value_of_bytes ((0 :: rest).set 0 (l : Int))))]
  · rfl
  · intro l hl st
    have hoff := offset_set_zero output rest l _ hstride
    have hb := hbuf l hl
    rw [h4] at hoff hb
    have hread : read_float (value_of_bytes DataType.F32) output.buffer
        (output.offset_element_in_bytes (0 :: rest)) l
        = some (output.element value_of_bytes ((0 :: rest).set 0 (l : Int))) := by
      unfold read_float read_bytes OutputTensor.element
      rw [← hoff, if_pos hb, hF32]
      rfl
    rw [hread]
    rfl

end AlexNetNetwork

/-- C21: for an F32 output tensor of 1 to 6 dimensions whose rows are contiguous
(the stride of x is the element size) and whose elements lie inside the
buffer, `get_classifications` returns one label per coordinate of the
dimensions 1 and above, in iteration order, as many as the product of their
extents; the label of a row with a score greater than 0 is the smallest index
at which the row attains its maximum, and the label of a row without positive
score is 0.  The scores are the elements of the tensor, their values taken
from a linear order. -/
theorem C21_get_classifications_argmax {α : Type} [LinearOrder α] [Zero α]
    (value_of_bytes : DataType → List Nat → α) (output : AlexNetNetwork.OutputTensor)
    (hF32 : output.data_type = DataType.F32)
    (h0 : output.shape ≠ []) (h6 : output.shape.length ≤ num_max_dimensions)
    (hstride : output.strides_in_bytes.head? = some (data_size_from_type output.data_type))
    (hbuf : ∀ id ∈ iteration_space (AlexNetNetwork.window_dims output.shape),
      ∀ l < shape_dim output.shape 0,
        output.offset_element_in_bytes (id.set 0 (l : Int))
          + data_size_from_type output.data_type ≤ output.buffer.length) :
    (∃ labels, AlexNetNetwork.get_classifications (value_of_bytes DataType.F32) output
          = some labels
        ∧ labels.length = output.shape.tail.prod
        ∧ labels = (iteration_space (AlexNetNetwork.window_dims output.shape)).map
            (fun id => AlexNetNetwork.classify (shape_dim output.shape 0)
              (fun l => output.element value_of_bytes (id.set 0 (l : Int)))))
    ∧ (∀ (width : Nat) (row : Nat → α), (∃ l < width, 0 < row l) →
        AlexNetNetwork.classify width row < width
          ∧ (∀ l < width, row l ≤ row (AlexNetNetwork.classify width row))
          ∧ ∀ l < AlexNetNetwork.classify width row,
              row l < row (AlexNetNetwork.classify width row))
    ∧ ∀ (width : Nat) (row : Nat → α), (∀ l < width, row l ≤ 0) →
        AlexNetNetwork.classify width row = 0 := by
  refine ⟨⟨_, ?_, ?_, rfl⟩, AlexNetNetwork.classify_of_positive,
    AlexNetNetwork.classify_of_no_positive⟩
  · unfold AlexNetNetwork.get_classifications
    dsimp only
    rw [AlexNetNetwork.window_eq output.shape h0 h6]
    unfold execute_window_loop
    exact AlexNetNetwork.mapM_map_some _ _ _ (fun id hid =>
      AlexNetNetwork.classify_at_f32 value_of_bytes output hF32 hstride id hid _
        (hbuf id hid))
  · rw [List.length_map, iteration_space_length]
    unfold AlexNetNetwork.window_dims
    have hv : (⟨0, 1, 1⟩ : Dimension).values.length = 1 := by decide
    simp only [List.map_cons, List.map_append, List.map_map, List.map_replicate, hv,
      List.prod_cons, List.prod_append, List.prod_replicate, one_pow, one_mul, mul_one]
    have hm : ∀ l : List Nat, List.map ((fun d : Dimension => d.values.length)
        ∘ fun s : Nat => ⟨0, (s : Int), 1⟩) l = l := by
      intro l
      induction l with
      | nil => rfl
      | cons x xs ih => simp [Dimension.values_unit_step, ih]
    rw [hm]

/-- C21, the claim as stated fails for an output that is not F32: for the F16
output of shape `(2, 1)` holding the scores 1.0 and 2.0 (bytes `00 3C`, `00 40`,
then four bytes of padding) the row attains its maximum at index 1, but
`get_classifications` reads the four bytes of both scores as one `float` and
returns the label 0; without the padding the second read leaves the buffer. -/
theorem C21_f16_output_is_read_as_float :
    AlexNetNetwork.OutputTensor.element (fun _ => AlexNetNetwork.ieee_key)
        ⟨.F16, [2, 1], [0, 60, 0, 64, 0, 0, 0, 0], 0, [2, 8]⟩ [0, 0, 0, 0, 0, 0] = 15360
    ∧ AlexNetNetwork.OutputTensor.element (fun _ => AlexNetNetwork.ieee_key)
        ⟨.F16, [2, 1], [0, 60, 0, 64, 0, 0, 0, 0], 0, [2, 8]⟩ [1, 0, 0, 0, 0, 0] = 16384
    ∧ AlexNetNetwork.classify 2 (fun l =>
        AlexNetNetwork.OutputTensor.element (fun _ => AlexNetNetwork.ieee_key)
          ⟨.F16, [2, 1], [0, 60, 0, 64, 0, 0, 0, 0], 0, [2, 8]⟩ [(l : Int), 0, 0, 0, 0, 0]) = 1
    ∧ AlexNetNetwork.get_classifications AlexNetNetwork.ieee_key
        ⟨.F16, [2, 1], [0, 60, 0, 64, 0, 0, 0, 0], 0, [2, 8]⟩ = some [0]
    ∧ AlexNetNetwork.get_classifications AlexNetNetwork.ieee_key
        ⟨.F16, [2, 1], [0, 60, 0, 64], 0, [2, 4]⟩ = none := by
  refine ⟨by decide, by decide, by decide, by decide, by decide⟩

/-! ### CLHelpers -/

namespace CLHelpers

theorem find_of_absent (str : List Char) :
    ∀ s : List Char, (∀ q, ¬ str <+: s.drop q) → find s str = none := by
  intro s
  induction s with
  | nil =>
    intro h
    have h0 : ¬ str <+: [] := h 0
    simp only [find]
    rw [if_neg]
    rw [ List.isPrefixOf_iff_prefix]
    exact h0
  | cons c s ih =>
    intro h
    have h0 : ¬ str <+: c :: s := h 0
    simp only [find]
    rw [if_neg (by rw [ List.isPrefixOf_iff_prefix]; exact h0), ih (fun q => h (q + 1))]
    rfl

theorem find_of_first (str : List Char) :
    ∀ (s : List Char) (pos : Nat), str <+: s.drop pos → (∀ q < pos, ¬ str <+: s.drop q) →
      find s str = some pos := by
  intro s
  induction s with
  | nil =>
    intro pos hp hq
    cases pos with
    | zero =>
      simp only [find]
      rw [if_pos (by rw [ List.isPrefixOf_iff_prefix]; exact hp)]
    | succ p => exact absurd (by simpa using hp) (hq 0 (Nat.succ_pos p))
  | cons c s ih =>
    intro pos hp hq
    cases pos with
    | zero =>
      simp only [find]
      rw [if_pos (by rw [ List.isPrefixOf_iff_prefix]; exact hp)]
    | succ p =>
      have h0 : ¬ str <+: c :: s := hq 0 (Nat.succ_pos p)
      simp only [find]
      rw [if_neg (by rw [ List.isPrefixOf_iff_prefix]; exact h0),
        ih p hp (fun q hlt => hq (q + 1) (Nat.succ_lt_succ hlt))]
      rfl

theorem char_at_substr (s : List Char) (pos : Nat) :
    char_at (substr s pos 2) 0 = char_at s pos := by
  unfold char_at substr
  rw [List.getD_eq_getElem?_getD, List.getD_eq_getElem?_getD, List.getElem?_take, if_pos (by omega),
    List.getElem?_drop]
  rfl

theorem length_substr (s : List Char) (pos n : Nat) (h : pos + n ≤ s.length) :
    (substr s pos n).length = n := by
  unfold substr
  rw [List.length_take, List.length_drop]
  omega

theorem target_of_found (name : List Char) (hne : name ≠ []) (pos : Nat)
    (hfind : find name name_mali = some pos) (hlen : pos + 5 + 2 ≤ name.length) :
    get_target_from_device 0 name.length 0 name
      = .ok (if char_at name (pos + 5) = 'G' then get_bifrost_target (substr name (pos + 5) 2)
          else if char_at name (pos + 5) = 'T' then get_midgard_target (substr name (pos + 5) 2)
          else GPUTarget.MIDGARD) := by
  have hl : (name.length == 0) = false := by
    cases name with
    | nil => exact absurd rfl hne
    | cons c s => rfl
  have hguard : decide (pos + name_mali.length + 2 > name.length) = false := by
    rw [decide_eq_false_iff_not]
    show ¬ pos + 5 + 2 > name.length
    omega
  unfold get_target_from_device
  simp only [hfind, hl, hguard, ARM_COMPUTE_ERROR_ON, bne_self_eq_false, Bool.or_self,
    Bool.false_eq_true, if_false]
  have h5 : name_mali.length = 5 := rfl
  simp only [h5, char_at_substr]
  by_cases hG : char_at name (pos + 5) = 'G'
  · simp only [hG, if_true]; rfl
  · by_cases hT : char_at name (pos + 5) = 'T'
    · simp only [hT, if_true]; rfl
    · simp only [hG, hT, if_false]; rfl

theorem target_of_short (name : List Char) (hne : name ≠ []) (pos : Nat)
    (hfind : find name name_mali = some pos) (hlen : ¬ pos + 5 + 2 ≤ name.length) :
    get_target_from_device 0 name.length 0 name = .error .assertion := by
  have hl : (name.length == 0) = false := by
    cases name with
    | nil => exact absurd rfl hne
    | cons c s => rfl
  have hguard : decide (pos + name_mali.length + 2 > name.length) = true := by
    rw [decide_eq_true_iff]
    show pos + 5 + 2 > name.length
    omega
  unfold get_target_from_device
  simp only [hfind, hl, hguard, ARM_COMPUTE_ERROR_ON, bne_self_eq_false, Bool.or_self,
    Bool.false_eq_true, if_false, if_true]
  rfl

theorem target_of_absent (name : List Char) (hne : name ≠ [])
    (hfind : find name name_mali = none) :
    get_target_from_device 0 name.length 0 name = .ok GPUTarget.MIDGARD := by
  have hl : (name.length == 0) = false := by
    cases name with
    | nil => exact absurd rfl hne
    | cons c s => rfl
  unfold get_target_from_device
  simp only [hfind, hl, ARM_COMPUTE_ERROR_ON, bne_self_eq_false, Bool.or_self,
    Bool.false_eq_true, if_false]
  rfl

end CLHelpers

namespace CLHelpers

theorem target_of_sub_name (name : List Char) (hne : name ≠ []) (pos : Nat)
    (hfind : find name name_mali = some pos) (c0 c1 : Char)
    (hsub : substr name (pos + 5) 2 = [c0, c1]) :
    get_target_from_device 0 name.length 0 name
      = .ok (if c0 = 'G' then get_bifrost_target [c0, c1]
          else if c0 = 'T' then get_midgard_target [c0, c1]
          else GPUTarget.MIDGARD) := by
  have hlen : pos + 5 + 2 ≤ name.length := by
    have h := congrArg List.length hsub
    unfold substr at h
    rw [List.length_take, List.length_drop] at h
    simp only [List.length_cons, List.length_nil] at h
    omega
  have hc : char_at name (pos + 5) = c0 := by
    rw [← char_at_substr, hsub]
    rfl
  rw [target_of_found name hne pos hfind hlen, hc, hsub]

end CLHelpers

/-- C22: for a non-empty device name (both queries succeeding):
without `"Mali-"` in the name the target is `MIDGARD`; with the first `"Mali-"`
at `pos` and at least two characters behind it, the target is `MIDGARD` when the
character behind it is neither `G` nor `T`, and `T600`, `T700`, `T800`, `G70`
when the two characters behind it are `T6`, `T7`, `T8`, `G7`; with fewer than
two characters behind it the assertion stops the function, so whenever a
target is returned the two-character substring was in range. -/
theorem C22_get_target_from_device_cases (name : List Char) (hne : name ≠ []) :
    ((∀ q, ¬ CLHelpers.name_mali <+: name.drop q) →
      CLHelpers.get_target_from_device 0 name.length 0 name = .ok .MIDGARD)
    ∧ ∀ pos, CLHelpers.name_mali <+: name.drop pos →
        (∀ q < pos, ¬ CLHelpers.name_mali <+: name.drop q) →
        (pos + 5 + 2 ≤ name.length → CLHelpers.char_at name (pos + 5) ≠ 'G' →
          CLHelpers.char_at name (pos + 5) ≠ 'T' →
          CLHelpers.get_target_from_device 0 name.length 0 name = .ok .MIDGARD)
        ∧ (CLHelpers.substr name (pos + 5) 2 = ['T', '6'] →
          CLHelpers.get_target_from_device 0 name.length 0 name = .ok .T600)
        ∧ (CLHelpers.substr name (pos + 5) 2 = ['T', '7'] →
          CLHelpers.get_target_from_device 0 name.length 0 name = .ok .T700)
        ∧ (CLHelpers.substr name (pos + 5) 2 = ['T', '8'] →
          CLHelpers.get_target_from_device 0 name.length 0 name = .ok .T800)
        ∧ (CLHelpers.substr name (pos + 5) 2 = ['G', '7'] →
          CLHelpers.get_target_from_device 0 name.length 0 name = .ok .G70)
        ∧ (¬ pos + 5 + 2 ≤ name.length →
          CLHelpers.get_target_from_device 0 name.length 0 name = .error .assertion)
        ∧ ∀ t, CLHelpers.get_target_from_device 0 name.length 0 name = .ok t →
            pos + 5 + 2 ≤ name.length ∧ (CLHelpers.substr name (pos + 5) 2).length = 2 := by
  refine ⟨fun h => CLHelpers.target_of_absent name hne (CLHelpers.find_of_absent _ name h), ?_⟩
  intro pos hp hq
  have hfind := CLHelpers.find_of_first _ name pos hp hq
  refine ⟨?_, ?_, ?_, ?_, ?_, ?_, ?_⟩
  · intro hlen hG hT
    rw [CLHelpers.target_of_found name hne pos hfind hlen, if_neg hG, if_neg hT]
  · intro h
    rw [CLHelpers.target_of_sub_name name hne pos hfind _ _ h]
    rfl
  · intro h
    rw [CLHelpers.target_of_sub_name name hne pos hfind _ _ h]
    rfl
  · intro h
    rw [CLHelpers.target_of_sub_name name hne pos hfind _ _ h]
    rfl
  · intro h
    rw [CLHelpers.target_of_sub_name name hne pos hfind _ _ h]
    rfl
  · exact CLHelpers.target_of_short name hne pos hfind
  · intro t ht
    by_cases hlen : pos + 5 + 2 ≤ name.length
    · exact ⟨hlen, CLHelpers.length_substr name (pos + 5) 2 hlen⟩
    · rw [CLHelpers.target_of_short name hne pos hfind hlen] at ht
      cases ht

/-- C28: the device name `"Mali-G51"` (with its terminating null character),
whose first `"Mali-"` is followed by `G` and more, is classified `MIDGARD`:
`get_bifrost_target` starts from `GPUTarget::MIDGARD` and only recognises
`"G7"`, so it never returns `GPUTarget::BIFROST`. -/
theorem C28_bifrost_device_classified_midgard :
    CLHelpers.get_target_from_device 0 9 0
        ['M', 'a', 'l', 'i', '-', 'G', '5', '1', Char.ofNat 0] = .ok .MIDGARD
    ∧ CLHelpers.find ['M', 'a', 'l', 'i', '-', 'G', '5', '1', Char.ofNat 0] CLHelpers.name_mali
        = some 0
    ∧ CLHelpers.get_bifrost_target ['G', '5'] = .MIDGARD
    ∧ (∀ name, CLHelpers.get_bifrost_target name ≠ .BIFROST)
    ∧ CLHelpers.get_target_from_device 0 9 0
        ['M', 'a', 'l', 'i', '-', 'G', '7', '1', Char.ofNat 0] = .ok .G70 := by
  refine ⟨rfl, rfl, rfl, ?_, rfl⟩
  intro name
  unfold CLHelpers.get_bifrost_target
  split <;> decide

/-! ### CLMemory -/

/-- C23: `CLMemory(std::shared_ptr<ICLMemoryRegion> memory)` move-constructs
`_region_owned` from `memory` and then assigns the moved-from (null) `memory` to
it: for every argument, also a non-null one, the object ends up with
`_region_owned` null and `region()`, `cl_region()` null, and the owner the
parameter stood for is given up; for the region at address 7 with the
caller and the parameter as owners, one owner is left. -/
theorem C23_shared_ptr_constructor_loses_region :
    (∀ memory uc, (CLMemory.create_shared memory uc).1
        = { _region := none, _region_owned := none })
    ∧ (∀ memory uc, (CLMemory.create_shared memory uc).1.region = none
        ∧ (CLMemory.create_shared memory uc).1.cl_region = none)
    ∧ (CLMemory.create_shared (some 7) (fun _ => 2)).1.region = none
    ∧ (CLMemory.create_shared (some 7) (fun _ => 2)).2 7 = 1 := by
  refine ⟨fun _ _ => rfl, fun _ _ => ⟨rfl, rfl⟩, rfl, ?_⟩
  simp [CLMemory.create_shared, CLMemory.std_move, UseCount.release, UseCount.acquire]

/-- C24: `region()` and `cl_region()` return the same pointer in every state; each
constructor yields an object whose owned region, if any, is the one exposed;
`set_region(r)` (with `r` null or a CL region) leaves no owned region and
exposes `r`; `set_owned_region(r)` owns `r` and exposes it; both give up the
region owned before. -/
theorem C24_clmemory_fields_consistent (is_cl : Ptr → Bool) (m : CLMemory) (uc : UseCount)
    (r : Option Ptr) (hr : ∀ a, r = some a → is_cl a = true) :
    m.region = m.cl_region
    ∧ CLMemory.create.consistent
    ∧ (∀ memory uc', (CLMemory.create_shared memory uc').1.consistent)
    ∧ (∀ memory, (CLMemory.create_raw memory).consistent)
    ∧ CLMemory.set_region is_cl m uc r
        = .ok ({ _region := r, _region_owned := none }, uc.release m._region_owned)
    ∧ CLMemory.set_owned_region is_cl m uc r
        = .ok ({ _region := r, _region_owned := r }, (uc.release m._region_owned).acquire r)
    ∧ (∀ m' uc', CLMemory.set_region is_cl m uc r = .ok (m', uc') →
        m'.consistent ∧ m'.region = r ∧ m'.cl_region = r ∧ m'._region_owned = none)
    ∧ (∀ m' uc', CLMemory.set_owned_region is_cl m uc r = .ok (m', uc') →
        m'.consistent ∧ m'.region = r ∧ m'.cl_region = r ∧ m'._region_owned = r) := by
  have hcast : CLMemory.polymorphic_downcast is_cl r = .ok r := by
    unfold CLMemory.polymorphic_downcast ARM_COMPUTE_ERROR_ON
    cases r with
    | none => rfl
    | some a => simp [hr a rfl]
  have h1 : CLMemory.set_region is_cl m uc r
      = .ok ({ _region := r, _region_owned := none }, uc.release m._region_owned) := by
    unfold CLMemory.set_region
    rw [hcast]
    rfl
  have h2 : CLMemory.set_owned_region is_cl m uc r
      = .ok ({ _region := r, _region_owned := r }, (uc.release m._region_owned).acquire r) := by
    unfold CLMemory.set_owned_region CLMemory.std_move
    dsimp only
    rw [hcast]
    rfl
  refine ⟨rfl, (fun h => Bool.noConfusion h), (fun _ _ h => Bool.noConfusion h),
    (fun _ h => Bool.noConfusion h), h1, h2, ?_, ?_⟩
  · intro m' uc' h
    rw [h1] at h
    cases h
    exact ⟨(fun h => Bool.noConfusion h), rfl, rfl, rfl⟩
  · intro m' uc' h
    rw [h2] at h
    cases h
    exact ⟨fun _ => rfl, rfl, rfl, rfl⟩

/-! ### The workspace of NEGEMMLowpAArch64V8P4Kernel::run -/

namespace NEGEMMLowpAArch64V8P4Kernel

theorem run_workspace_block (W n base t : Nat) (ht : t < n) :
    ∃ p : Nat, run_workspace W base ((W + 4095) * n) t = some p
      ∧ 4096 ∣ p
      ∧ base + t * (W + 4095) ≤ p
      ∧ p + W ≤ base + (t + 1) * (W + 4095) := by
  have hmul : (W + 4095) * (t + 1) ≤ (W + 4095) * n := Nat.mul_le_mul_left _ ht
  rw [Nat.mul_succ] at hmul
  have e1 : t * (W + 4095) = (W + 4095) * t := Nat.mul_comm _ _
  have e2 : (t + 1) * (W + 4095) = (W + 4095) * t + (W + 4095) := by
    rw [Nat.mul_comm, Nat.mul_succ]
  refine ⟨(base + (W + 4095) * t + 4096 - 1) / 4096 * 4096, ?_,
    Nat.dvd_mul_left _ _, ?_, ?_⟩
  · unfold run_workspace align
    simp only [show W + 4096 - 1 = W + 4095 from rfl]
    rw [if_neg]
    generalize (W + 4095) * t = x at hmul
    generalize (W + 4095) * n = y at hmul
    omega
  · rw [e1]
    generalize (W + 4095) * t = x
    omega
  · rw [e2]
    generalize (W + 4095) * t = x
    omega

end NEGEMMLowpAArch64V8P4Kernel

/-- C25: with the workspace sized by `allocate_workspace` for a working size
`W >= 1`, alignment 4096 and `n` threads, `run` finds for every `thread_id < n`
a 4096-aligned block `[p, p + W)` (the alignment step does not fail) that lies
inside the thread's slice `[base + t*(W + 4095), base + (t + 1)*(W + 4095))`
and hence inside the buffer; the blocks of two different threads are
disjoint. -/
theorem C25_thread_workspaces_fit_and_are_disjoint (W n base t total : Nat) (hW : 1 ≤ W)
    (ht : t < n) (halloc : AssemblyHelper.allocate_workspace W 4096 n = .ok total) :
    ∃ p : Nat, NEGEMMLowpAArch64V8P4Kernel.run_workspace W base total t = some p
      ∧ 4096 ∣ p
      ∧ base + t * (W + 4095) ≤ p
      ∧ p + W ≤ base + (t + 1) * (W + 4095)
      ∧ p + W ≤ base + total
      ∧ ∀ t' < n, t' ≠ t →
          ∃ p' : Nat, NEGEMMLowpAArch64V8P4Kernel.run_workspace W base total t' = some p'
            ∧ (p + W ≤ p' ∨ p' + W ≤ p) := by
  have htotal : total = (W + 4095) * n := by
    unfold AssemblyHelper.allocate_workspace ARM_COMPUTE_ERROR_ON at halloc
    have hne : (W == 0) = false := by
      rw [beq_eq_false_iff_ne]; omega
    simp only [hne, Bool.false_eq_true, if_false] at halloc
    cases halloc
    rfl
  subst htotal
  obtain ⟨p, hp, hdvd, hlo, hhi⟩ := NEGEMMLowpAArch64V8P4Kernel.run_workspace_block W n base t ht
  refine ⟨p, hp, hdvd, hlo, hhi, ?_, ?_⟩
  · have hmul : (t + 1) * (W + 4095) ≤ n * (W + 4095) := Nat.mul_le_mul_right _ ht
    rw [Nat.mul_comm (W + 4095) n]
    omega
  · intro t' ht' hne
    obtain ⟨p', hp', _, hlo', hhi'⟩ :=
      NEGEMMLowpAArch64V8P4Kernel.run_workspace_block W n base t' ht'
    refine ⟨p', hp', ?_⟩
    rcases Nat.lt_or_gt_of_ne hne with h | h
    · right
      have hmul : (t' + 1) * (W + 4095) ≤ t * (W + 4095) := Nat.mul_le_mul_right _ h
      omega
    · left
      have hmul : (t + 1) * (W + 4095) ≤ t' * (W + 4095) := Nat.mul_le_mul_right _ h
      omega

/-! ### finalize_quantization -/

namespace NEON

theorem saturate_mem (lo hi x : Int) (h : lo ≤ hi) : lo ≤ saturate lo hi x ∧ saturate lo hi x ≤ hi := by
  unfold saturate
  omega

theorem vcombine_u8_vqmovun_mem (a b : Fin 8 → Int) (i : Fin 16) :
    0 ≤ vcombine_u8 (vqmovun_s16 a) (vqmovun_s16 b) i
      ∧ vcombine_u8 (vqmovun_s16 a) (vqmovun_s16 b) i ≤ 255 := by
  have key : ∀ j : Fin (8 + 8), 0 ≤ Fin.append (vqmovun_s16 a) (vqmovun_s16 b) j
      ∧ Fin.append (vqmovun_s16 a) (vqmovun_s16 b) j ≤ 255 := by
    intro j
    induction j using Fin.addCases with
    | left j =>
      rw [Fin.append_left]
      exact saturate_mem 0 255 _ (by decide)
    | right j =>
      rw [Fin.append_right]
      exact saturate_mem 0 255 _ (by decide)
  exact key i

end NEON

namespace NEGEMMLowpQuantizeDownInt32ToUint8ScaleByFixedPointKernel

theorem finalize_quantization_false_mem
    (rounding_divide_by_pow2 : (Fin 4 → Int) → Int → Fin 4 → Int)
    (in_s32 : Fin 4 → Fin 4 → Int) (multiplier shift : Int) (offset : Fin 4 → Int)
    (min_u8 max_u8 : Fin 16 → Int) (i : Fin 16) :
    0 ≤ finalize_quantization false rounding_divide_by_pow2 in_s32 multiplier shift offset
          min_u8 max_u8 i
      ∧ finalize_quantization false rounding_divide_by_pow2 in_s32 multiplier shift offset
          min_u8 max_u8 i ≤ 255 :=
  NEON.vcombine_u8_vqmovun_mem _ _ i

theorem finalize_quantization_true_eq
    (rounding_divide_by_pow2 : (Fin 4 → Int) → Int → Fin 4 → Int)
    (in_s32 : Fin 4 → Fin 4 → Int) (multiplier shift : Int) (offset : Fin 4 → Int)
    (min_u8 max_u8 min_u8' max_u8' : Fin 16 → Int) (i : Fin 16) :
    finalize_quantization true rounding_divide_by_pow2 in_s32 multiplier shift offset
        min_u8 max_u8 i
      = min (max (finalize_quantization false rounding_divide_by_pow2 in_s32 multiplier shift
          offset min_u8' max_u8' i) (min_u8 i)) (max_u8 i) :=
  rfl

end NEGEMMLowpQuantizeDownInt32ToUint8ScaleByFixedPointKernel

theorem NEGEMMLowpQuantizeDownInt32ToUint8ScaleByFixedPointKernel.configure_func
    (H : Helpers) (heap heap' : Heap)
    (k k' : NEGEMMLowpQuantizeDownInt32ToUint8ScaleByFixedPointKernel.Kernel)
    (input bias output : Option Ptr) (multiplier shift offset min max : Int)
    (hcfg : NEGEMMLowpQuantizeDownInt32ToUint8ScaleByFixedPointKernel.configure H heap k input
      bias output multiplier shift offset min max = .ok (k', heap')) :
    k'._func = some ((min != max) && !(min == 0 && max == 255)) := by
  unfold NEGEMMLowpQuantizeDownInt32ToUint8ScaleByFixedPointKernel.configure at hcfg
  split at hcfg
  · dsimp only at hcfg
    split at hcfg
    · cases hcfg
    · split at hcfg
      · cases hcfg
      · injection hcfg with hcfg
        injection hcfg with hk hh
        subst hk
        rfl
  · cases hcfg

/-- C26: for all inputs `finalize_quantization<false>` returns the vector that
`finalize_quantization<true>` returns with `min_u8 = 0` and `max_u8 = 255` in
every lane, so `run<false>` for `(min, max) = (0, 255)` changes no output; and
for `0 <= min <= max <= 255` every lane of `finalize_quantization<true>` lies in
`[min, max]`.  The lanes of `finalize_quantization<false>` lie in `[0, 255]`, and
after a successful `configure` with `(min, max) = (0, 255)` the member `_func`
is `run<false>`. -/
theorem C26_skipping_the_clamp_is_sound
    (rounding_divide_by_pow2 : (Fin 4 → Int) → Int → Fin 4 → Int)
    (in_s32 : Fin 4 → Fin 4 → Int) (multiplier shift : Int) (offset : Fin 4 → Int) :
    (∀ min_u8 max_u8,
      NEGEMMLowpQuantizeDownInt32ToUint8ScaleByFixedPointKernel.finalize_quantization false
          rounding_divide_by_pow2 in_s32 multiplier shift offset min_u8 max_u8
        = NEGEMMLowpQuantizeDownInt32ToUint8ScaleByFixedPointKernel.finalize_quantization true
          rounding_divide_by_pow2 in_s32 multiplier shift offset (NEON.vdupq_n_u8 0)
          (NEON.vdupq_n_u8 255))
    ∧ (∀ (min max : Int), 0 ≤ min → min ≤ max → max ≤ 255 → ∀ i,
        min ≤ NEGEMMLowpQuantizeDownInt32ToUint8ScaleByFixedPointKernel.finalize_quantization
            true rounding_divide_by_pow2 in_s32 multiplier shift offset (NEON.vdupq_n_u8 min)
            (NEON.vdupq_n_u8 max) i
        ∧ NEGEMMLowpQuantizeDownInt32ToUint8ScaleByFixedPointKernel.finalize_quantization
            true rounding_divide_by_pow2 in_s32 multiplier shift offset (NEON.vdupq_n_u8 min)
            (NEON.vdupq_n_u8 max) i ≤ max)
    ∧ (∀ min_u8 max_u8 i,
        0 ≤ NEGEMMLowpQuantizeDownInt32ToUint8ScaleByFixedPointKernel.finalize_quantization
            false rounding_divide_by_pow2 in_s32 multiplier shift offset min_u8 max_u8 i
        ∧ NEGEMMLowpQuantizeDownInt32ToUint8ScaleByFixedPointKernel.finalize_quantization
            false rounding_divide_by_pow2 in_s32 multiplier shift offset min_u8 max_u8 i
          ≤ 255)
    ∧ ∀ (H : Helpers) (heap heap' : Heap)
        (k k' : NEGEMMLowpQuantizeDownInt32ToUint8ScaleByFixedPointKernel.Kernel)
        (input bias output : Option Ptr) (result_offset_after_shift : Int),
        NEGEMMLowpQuantizeDownInt32ToUint8ScaleByFixedPointKernel.configure H heap k input bias
            output multiplier shift result_offset_after_shift 0 255 = .ok (k', heap') →
        k'._func = some false := by
  refine ⟨?_, ?_, ?_, ?_⟩
  · intro min_u8 max_u8
    funext i
    rw [NEGEMMLowpQuantizeDownInt32ToUint8ScaleByFixedPointKernel.finalize_quantization_true_eq
      rounding_divide_by_pow2 in_s32 multiplier shift offset _ _ min_u8 max_u8 i]
    have h := NEGEMMLowpQuantizeDownInt32ToUint8ScaleByFixedPointKernel.finalize_quantization_false_mem
      rounding_divide_by_pow2 in_s32 multiplier shift offset min_u8 max_u8 i
    simp only [NEON.vdupq_n_u8]
    omega
  · intro mn mx h0 hle h255 i
    rw [NEGEMMLowpQuantizeDownInt32ToUint8ScaleByFixedPointKernel.finalize_quantization_true_eq
      rounding_divide_by_pow2 in_s32 multiplier shift offset _ _ (NEON.vdupq_n_u8 mn)
      (NEON.vdupq_n_u8 mx) i]
    simp only [NEON.vdupq_n_u8]
    omega
  · intro min_u8 max_u8 i
    exact NEGEMMLowpQuantizeDownInt32ToUint8ScaleByFixedPointKernel.finalize_quantization_false_mem
      rounding_divide_by_pow2 in_s32 multiplier shift offset min_u8 max_u8 i
  · intro H heap heap' k k' input bias output result_offset_after_shift hcfg
    rw [NEGEMMLowpQuantizeDownInt32ToUint8ScaleByFixedPointKernel.configure_func H heap heap' k k'
      input bias output multiplier shift result_offset_after_shift 0 255 hcfg]
    rfl

/-! ### The benchmark main -/

/-- C27: with `--log-format=NONE` (valid arguments, no help) no printer is
created and `main` dereferences the null printer at `print_global_header()`,
before `framework.run()` and before the test listing; with `PRETTY` and `JSON`
it reaches them. -/
theorem C27_null_printer_is_dereferenced :
    (∀ o run_success, (o.help_is_set && o.help) = false → o.valid = true →
        o.log_format = benchmark_main.LogFormat.NONE →
        benchmark_main.main o run_success = .error (.null_dereference []))
    ∧ benchmark_main.main ⟨false, false, true, .NONE, true, false, false⟩ true
        = .error (.null_dereference [])
    ∧ benchmark_main.main ⟨false, false, true, .PRETTY, true, false, false⟩ true
        = .ok (0, [.print_global_header, .print_entry "Seed", .print_entry "Iterations",
            .print_entry "Threads", .print_entry "Dataset mode", .framework_init,
            .framework_set_printer (some (.PrettyPrinter true)), .framework_run,
            .print_global_footer])
    ∧ benchmark_main.main ⟨false, false, true, .JSON, true, true, true⟩ true
        = .ok (0, [.set_stream, .print_global_header, .print_entry "Seed",
            .print_entry "Iterations", .print_entry "Threads", .print_entry "Dataset mode",
            .framework_init, .framework_set_printer (some .JSONPrinter), .list_tests,
            .print_global_footer]) := by
  refine ⟨?_, rfl, rfl, rfl⟩
  intro o run_success hhelp hvalid hfmt
  unfold benchmark_main.main
  simp [hhelp, hvalid, hfmt, benchmark_main.call]
  rfl

/-! ### Reference convolution3d -/

theorem foldlM_eq_some_foldl {σ β : Type} (body : σ → β → Option σ) (f : σ → β → σ) :
    ∀ (l : List β) (init : σ), (∀ x ∈ l, ∀ s, body s x = some (f s x)) →
      l.foldlM body init = some (l.foldl f init) := by
  intro l
  induction l with
  | nil => intro init _; rfl
  | cons x xs ih =>
    intro init h
    rw [List.foldlM_cons, h x (List.mem_cons_self x xs) init]
    exact ih (f init x) (fun y hy s => h y (List.mem_cons_of_mem x hy) s)

theorem foldl_filter_eq {σ β : Type} (p : β → Bool) (f : σ → β → σ) :
    ∀ (l : List β) (init : σ),
      (l.filter p).foldl f init = l.foldl (fun s x => if p x then f s x else s) init := by
  intro l
  induction l with
  | nil => intro init; rfl
  | cons x xs ih =>
    intro init
    cases hp : p x with
    | true => simp only [List.filter_cons, hp, if_true, List.foldl_cons]; exact ih _
    | false =>
      simp only [List.filter_cons, hp, Bool.false_eq_true, if_false, List.foldl_cons]
      exact ih _

theorem mem_int_range_incl (lo hi x : Int) :
    x ∈ validation.int_range_incl lo hi ↔ lo ≤ x ∧ x ≤ hi := by
  unfold validation.int_range_incl
  rw [List.mem_map]
  constructor
  · rintro ⟨k, hk, rfl⟩
    rw [List.mem_range] at hk
    omega
  · intro h
    refine ⟨(x - lo).toNat, ?_, ?_⟩
    · rw [List.mem_range]; omega
    · omega

theorem index_bound (a b c A B C : Int) (ha : 0 ≤ a) (haA : a < A) (hb : 0 ≤ b) (hbB : b < B)
    (hc : 0 ≤ c) (hcC : c < C) :
    0 ≤ a + b * A + c * A * B ∧ a + b * A + c * A * B < A * B * C := by
  have hA : 0 ≤ A := by omega
  have hB : 0 ≤ B := by omega
  have hAB : 0 ≤ A * B := mul_nonneg hA hB
  have h1 : b * A ≤ (B - 1) * A := mul_le_mul_of_nonneg_right (by omega) hA
  have h2 : c * (A * B) ≤ (C - 1) * (A * B) := mul_le_mul_of_nonneg_right (by omega) hAB
  have h3 : 0 ≤ b * A := mul_nonneg hb hA
  have h4 : 0 ≤ c * (A * B) := mul_nonneg hc hAB
  constructor
  · nlinarith
  · nlinarith

theorem read_at_eq {α : Type} [Zero α] (buf : List α) (i : Int) (h0 : 0 ≤ i)
    (h1 : i < buf.length) : Reference.read_at buf i = some (buf.getD i.toNat 0) := by
  unfold Reference.read_at
  rw [if_pos h0]
  have hlt : i.toNat < buf.length := by omega
  rw [List.getD_eq_getElem?_getD, List.getElem?_eq_getElem hlt]
  rfl

namespace Reference

theorem tdiv_two_of_odd (k : Nat) : Int.tdiv (k : Int) 2 = ((k / 2 : Nat) : Int) := by
  rw [Int.tdiv_eq_ediv (by omega) (by decide)]
  omega

theorem mem_taps (D : Nat) (hw hh : Int) (t : Nat × Int × Int) :
    t ∈ taps D hw hh ↔ t.1 < D ∧ (-hh ≤ t.2.1 ∧ t.2.1 ≤ hh) ∧ (-hw ≤ t.2.2 ∧ t.2.2 ≤ hw) := by
  obtain ⟨ifm, yk, xk⟩ := t
  unfold taps
  simp only [List.mem_flatMap, List.mem_map, List.mem_range, mem_int_range_incl, Prod.mk.injEq]
  constructor
  · rintro ⟨i, hi, y, hy, x, hx, rfl, rfl, rfl⟩
    exact ⟨hi, hy, hx⟩
  · rintro ⟨hi, hy, hx⟩
    exact ⟨ifm, hi, yk, hy, xk, hx, rfl, rfl, rfl⟩

theorem weight_index_bound (D kw kh : Nat) (hkw : kw % 2 = 1) (hkh : kh % 2 = 1)
    (t : Nat × Int × Int) (ht : t ∈ taps D ((kw / 2 : Nat) : Int) ((kh / 2 : Nat) : Int)) :
    0 ≤ weight_index kw kh t ∧ weight_index kw kh t < (kw : Int) * kh * D := by
  rw [mem_taps] at ht
  obtain ⟨h1, ⟨h2, h3⟩, h4, h5⟩ := ht
  unfold weight_index
  rw [tdiv_two_of_odd, tdiv_two_of_odd]
  exact index_bound _ _ _ _ _ _ (by omega) (by omega) (by omega) (by omega) (by omega) (by omega)

theorem input_index_bound (W H D : Nat) (xi yi : Int) (hw hh : Int) (t : Nat × Int × Int)
    (ht : t ∈ taps D hw hh) (hin : in_image xi yi W H t = true) :
    0 ≤ input_index xi yi W H t ∧ input_index xi yi W H t < (W : Int) * H * D := by
  rw [mem_taps] at ht
  obtain ⟨h1, _, _⟩ := ht
  unfold in_image is_valid_pixel at hin
  simp only [Bool.and_eq_true, decide_eq_true_eq] at hin
  obtain ⟨⟨a0, a1⟩, b0, b1⟩ := hin
  have e : input_index xi yi W H t
      = (xi + t.2.2) + (yi + t.2.1) * W + (t.1 : Int) * W * H := by
    unfold input_index; ring
  rw [e]
  exact index_bound _ _ _ _ _ _ a0 a1 b0 b1 (by omega) (by omega)

theorem tap_step_eq {α : Type} [Zero α] [Add α] [Mul α] (input weights : List α)
    (W H D kw kh : Nat) (xi yi : Int) (hkw : kw % 2 = 1) (hkh : kh % 2 = 1)
    (hil : input.length = W * H * D) (hwl : weights.length = kw * kh * D)
    (t : Nat × Int × Int) (ht : t ∈ taps D ((kw / 2 : Nat) : Int) ((kh / 2 : Nat) : Int))
    (acc : α) :
    tap_step input weights xi yi W H kw kh (t.1 : Int) t.2.1 acc t.2.2
      = some (if in_image xi yi W H t then tap_value input weights xi yi W H kw kh acc t
          else acc) := by
  have hstep : tap_step input weights xi yi W H kw kh (t.1 : Int) t.2.1 acc t.2.2
      = if in_image xi yi W H t then do
          let i_value ← read_at input (input_index xi yi W H t)
          let w_value ← read_at weights (weight_index kw kh t)
          pure (acc + i_value * w_value)
        else pure acc := rfl
  rw [hstep]
  by_cases hin : in_image xi yi W H t = true
  · obtain ⟨i0, i1⟩ := input_index_bound W H D xi yi _ _ t ht hin
    obtain ⟨w0, w1⟩ := weight_index_bound D kw kh hkw hkh t ht
    have e1 := read_at_eq input (input_index xi yi W H t) i0
      (by rw [hil]; push_cast; exact i1)
    have e2 := read_at_eq weights (weight_index kw kh t) w0
      (by rw [hwl]; push_cast; exact w1)
    simp only [hin, if_true, e1, e2, Option.bind_eq_bind, Option.some_bind, Option.pure_def]
    rfl
  · simp only [hin, if_false, Bool.false_eq_true, Option.pure_def]

theorem foldl_taps {σ : Type} (g : σ → Nat × Int × Int → σ) (D : Nat) (hw hh : Int)
    (init : σ) :
    (taps D hw hh).foldl g init
      = (List.range D).foldl (fun acc (ifm : Nat) =>
          (validation.int_range_incl (-hh) hh).foldl (fun acc yk =>
            (validation.int_range_incl (-hw) hw).foldl (fun acc xk => g acc (ifm, yk, xk)) acc)
            acc) init := by
  unfold taps
  simp only [List.flatMap, List.foldl_flatten, List.foldl_map]

theorem convolution3d_eq {α : Type} [Zero α] [Add α] [Mul α] (input weights : List α)
    (bias : α) (W H D kw kh : Nat) (xi yi : Int) (hkw : kw % 2 = 1) (hkh : kh % 2 = 1)
    (hil : input.length = W * H * D) (hwl : weights.length = kw * kh * D) :
    convolution3d input weights bias xi yi W H D kw kh
      = some (((taps D ((kw / 2 : Nat) : Int) ((kh / 2 : Nat) : Int)).filter
            (in_image xi yi W H)).foldl
          (tap_value input weights xi yi W H kw kh) 0 + bias) := by
  have hloops : (List.range D).foldlM (fun acc (ifm : Nat) =>
      (validation.int_range_incl (-((kh / 2 : Nat) : Int)) ((kh / 2 : Nat) : Int)).foldlM
        (fun acc yk =>
          (validation.int_range_incl (-((kw / 2 : Nat) : Int)) ((kw / 2 : Nat) : Int)).foldlM
            (tap_step input weights xi yi W H kw kh (ifm : Int) yk) acc) acc) (0 : α)
      = some (((taps D ((kw / 2 : Nat) : Int) ((kh / 2 : Nat) : Int)).filter
            (in_image xi yi W H)).foldl (tap_value input weights xi yi W H kw kh) 0) := by
    rw [foldl_filter_eq, foldl_taps]
    apply foldlM_eq_some_foldl
    intro ifm hifm acc
    rw [List.mem_range] at hifm
    apply foldlM_eq_some_foldl
    intro yk hyk acc
    rw [mem_int_range_incl] at hyk
    apply foldlM_eq_some_foldl
    intro xk hxk acc
    rw [mem_int_range_incl] at hxk
    exact tap_step_eq input weights W H D kw kh xi yi hkw hkh hil hwl (ifm, yk, xk)
      ((mem_taps D _ _ _).mpr ⟨hifm, hyk, hxk⟩) acc
  unfold convolution3d
  simp only [tdiv_two_of_odd, Int.toNat_ofNat, Option.bind_eq_bind, Option.pure_def]
  rw [hloops]
  rfl

end Reference

/-- C29: for odd kernel width `kw` and height `kh`, an input volume of
`W*H*D` elements and `kw*kh*D` weights, `convolution3d` returns (no element is
read outside its buffer) the bias added to the accumulation, in the order of
the loops, of input times weight over the taps inside the image, the taps
outside being skipped; the index of every weight lies in `[0, kw*kh*D)` and
the index of every input element under a tap inside the image in
`[0, W*H*D)`.  This holds for every centre `(xi, yi)`. -/
theorem C29_convolution3d_zero_padding_in_bounds {α : Type} [Zero α] [Add α] [Mul α]
    (input weights : List α) (bias : α) (W H D kw kh : Nat) (xi yi : Int)
    (hkw : kw % 2 = 1) (hkh : kh % 2 = 1)
    (hil : input.length = W * H * D) (hwl : weights.length = kw * kh * D) :
    Reference.convolution3d input weights bias xi yi W H D kw kh
      = some (((Reference.taps D ((kw / 2 : Nat) : Int) ((kh / 2 : Nat) : Int)).filter
            (Reference.in_image xi yi W H)).foldl
          (fun acc t => acc + input.getD (Reference.input_index xi yi W H t).toNat 0
            * weights.getD (Reference.weight_index kw kh t).toNat 0) 0 + bias)
    ∧ (∀ t ∈ Reference.taps D ((kw / 2 : Nat) : Int) ((kh / 2 : Nat) : Int),
        (0 ≤ Reference.weight_index kw kh t
          ∧ Reference.weight_index kw kh t < (kw : Int) * kh * D)
        ∧ (Reference.in_image xi yi W H t = true →
            0 ≤ Reference.input_index xi yi W H t
              ∧ Reference.input_index xi yi W H t < (W : Int) * H * D))
    ∧ ∀ t, t ∈ Reference.taps D ((kw / 2 : Nat) : Int) ((kh / 2 : Nat) : Int)
        ↔ t.1 < D ∧ (-((kh / 2 : Nat) : Int) ≤ t.2.1 ∧ t.2.1 ≤ ((kh / 2 : Nat) : Int))
          ∧ (-((kw / 2 : Nat) : Int) ≤ t.2.2 ∧ t.2.2 ≤ ((kw / 2 : Nat) : Int)) := by
  refine ⟨Reference.convolution3d_eq input weights bias W H D kw kh xi yi hkw hkh hil hwl, ?_,
    fun t => Reference.mem_taps D _ _ t⟩
  intro t ht
  exact ⟨Reference.weight_index_bound D kw kh hkw hkh t ht,
    fun hin => Reference.input_index_bound W H D xi yi _ _ t ht hin⟩

/-! ### NEDepthwiseConvolution3x3::configure -/

/-- C30: `configure` sets `_has_bias` when `biases` is non-null and never clears
it: a `configure` without biases leaves `_has_bias` and the bias kernel as they
were, so after `configure` with biases and then `configure` without, `run()`
still schedules the bias kernel, configured with the old biases. -/
theorem C30_reconfigure_keeps_stale_bias :
    (∀ heap f ks input output weights f' ks',
        NEDepthwiseConvolution3x3.configure heap f ks input output weights none = .ok (f', ks') →
        f'._has_bias = f._has_bias ∧ ks'._bias_kernel = ks._bias_kernel)
    ∧ (do
        let (f1, ks1) ← NEDepthwiseConvolution3x3.configure
          [TensorInfo.sample .F32, TensorInfo.sample .F32, TensorInfo.sample .F32,
            TensorInfo.sample .F32]
          NEDepthwiseConvolution3x3.Function.new NEDepthwiseConvolution3x3.Kernels.new
          0 1 2 (some 3)
        let (f2, ks2) ← NEDepthwiseConvolution3x3.configure
          [TensorInfo.sample .F32, TensorInfo.sample .F32, TensorInfo.sample .F32,
            TensorInfo.sample .F32]
          f1 ks1 0 1 2 none
        pure (f2._has_bias, ks2._bias_kernel,
          NEDepthwiseConvolution3x3.scheduled_sequence (NEDepthwiseConvolution3x3.run f2 [])))
      = (.ok (true, some (1, 3),
          [(._border_handler, Window.DimX), (._kernel, Window.DimX),
           (._bias_kernel, Window.DimX)]) : Except Fatal _)
    ∧ (do
        let (f1, _) ← NEDepthwiseConvolution3x3.configure
          [TensorInfo.sample .F32, TensorInfo.sample .F32, TensorInfo.sample .F32,
            TensorInfo.sample .F32]
          NEDepthwiseConvolution3x3.Function.new NEDepthwiseConvolution3x3.Kernels.new
          0 1 2 none
        pure (NEDepthwiseConvolution3x3.scheduled_sequence (NEDepthwiseConvolution3x3.run f1 [])))
      = (.ok [(._border_handler, Window.DimX), (._kernel, Window.DimX)] : Except Fatal _) := by
  refine ⟨?_, rfl, rfl⟩
  intro heap f ks input output weights f' ks' h
  unfold NEDepthwiseConvolution3x3.configure ARM_COMPUTE_ERROR_ON at h
  split at h
  · cases h
  · split at h
    · cases h
    · cases h
      exact ⟨rfl, rfl⟩

/-! ### The theorems above at concrete inputs -/

theorem C1_convolution_axis_output_extent_witness :
    Reference.convolution_axis 9 7 3 2 1
        = some ((List.range ((7 + 2 * 1 - 3) / 2 + 1)).map (fun i : Nat => (i : Int)))
      ∧ (Reference.convolution_axis 26 28 5 1 0).map List.length = some 24 :=
  C1_convolution_axis_output_extent 7 3 2 1 (by decide) (by decide) (by decide) (by decide) 9
    (by decide)

theorem C3_validate_arguments_first_violation_witness :
    NEGEMMLowpQuantizeDownInt32ToUint8ScaleByFixedPointKernel.validate_arguments
        (TensorInfo.sample .S32) none (TensorInfo.sample .QASYMM8) 0 255 = Error.ok :=
  ((C3_validate_arguments_first_violation (TensorInfo.sample .S32) (TensorInfo.sample .QASYMM8)
      none 0 255).2 rfl rfl rfl rfl rfl).1.mpr ⟨by decide, by decide, by decide⟩

theorem C4_run_requires_configure_witness :
    (⟨some false, some 0, none, some 1, 1073741824, 1, 0, 0, 255,
        some ⟨[⟨0, 32, 16⟩, ⟨0, 4, 1⟩]⟩⟩ :
        NEGEMMLowpQuantizeDownInt32ToUint8ScaleByFixedPointKernel.Kernel)._func
      = some (((0 : Int) != 255) && !((0 : Int) == 0 && (255 : Int) == 255))
    ∧ ∃ win,
        (⟨some false, some 0, none, some 1, 1073741824, 1, 0, 0, 255,
          some ⟨[⟨0, 32, 16⟩, ⟨0, 4, 1⟩]⟩⟩ :
          NEGEMMLowpQuantizeDownInt32ToUint8ScaleByFixedPointKernel.Kernel)._window = some win
        ∧ (Helpers.sample.invalid_subwindow win ⟨[⟨0, 32, 16⟩, ⟨0, 4, 1⟩]⟩ = false →
            NEGEMMLowpQuantizeDownInt32ToUint8ScaleByFixedPointKernel.run Helpers.sample
                ⟨some false, some 0, none, some 1, 1073741824, 1, 0, 0, 255,
                  some ⟨[⟨0, 32, 16⟩, ⟨0, 4, 1⟩]⟩⟩ ⟨[⟨0, 32, 16⟩, ⟨0, 4, 1⟩]⟩
              = .dispatched (((0 : Int) != 255) && !((0 : Int) == 0 && (255 : Int) == 255))
                  ⟨[⟨0, 32, 16⟩, ⟨0, 4, 1⟩]⟩) :=
  (C4_run_requires_configure Helpers.sample [TensorInfo.sample .S32, TensorInfo.sample .QASYMM8]
      ⟨[⟨0, 32, 16⟩, ⟨0, 4, 1⟩]⟩).2
    NEGEMMLowpQuantizeDownInt32ToUint8ScaleByFixedPointKernel.Kernel.new
    ⟨some false, some 0, none, some 1, 1073741824, 1, 0, 0, 255,
      some ⟨[⟨0, 32, 16⟩, ⟨0, 4, 1⟩]⟩⟩
    (some 0) none (some 1) 1073741824 1 0 0 255
    [{ TensorInfo.sample .S32 with padding := ⟨0, 16, 0, 0⟩ },
     { TensorInfo.sample .QASYMM8 with padding := ⟨0, 16, 0, 0⟩ }]
    rfl

theorem C6_timer_interception_round_trip_witness :
    OpenCLTimer.test_start ⟨some (.original 0), some (.original 1)⟩
        ⟨some .interceptor, some .task_interceptor⟩ = .error .assertion :=
  (C6_timer_interception_round_trip ⟨some .interceptor, some .task_interceptor⟩).2.1
    ⟨some (.original 0), some (.original 1)⟩ (Or.inl (by decide))

theorem C7_one_memory_manager_per_target_witness :
    graph2.GraphContext.insert_memory_management_ctx
        ⟨[(graph2.Target.NEON, ⟨graph2.Target.NEON, some 0⟩)]⟩ ⟨graph2.Target.NEON, some 1⟩
      = (false, ⟨[(graph2.Target.NEON, ⟨graph2.Target.NEON, some 0⟩)]⟩) :=
  (C7_one_memory_manager_per_target ⟨[(graph2.Target.NEON, ⟨graph2.Target.NEON, some 0⟩)]⟩
    ⟨graph2.Target.NEON, some 1⟩ [] graph2.Target.CL).1 (by decide)

theorem C8_scheduler_split_partitions_window_witness :
    (CPPScheduler.schedule 4 ⟨3, 3 + 17⟩).length = 4
      ∧ (∀ x, (3 ≤ x ∧ x < 3 + 17) ↔
          ∃ r ∈ CPPScheduler.schedule 4 ⟨3, 3 + 17⟩, r.start ≤ x ∧ x < r.stop) :=
  ⟨(C8_scheduler_split_partitions_window 4 17 3 (by decide) (by decide)).1,
   (C8_scheduler_split_partitions_window 4 17 3 (by decide) (by decide)).2.2.2.2.1⟩

theorem C9_memory_reuse_is_optimal_interval_colouring_witness :
    (MemoryManager.interval_graph [⟨100, 0, 3⟩, ⟨50, 2, 5⟩, ⟨70, 3, 4⟩]).chromaticNumber
        = MemoryManager.num_blocks (MemoryManager.assign [⟨100, 0, 3⟩, ⟨50, 2, 5⟩, ⟨70, 3, 4⟩])
      ∧ MemoryManager.num_blocks (MemoryManager.assign [⟨100, 0, 3⟩, ⟨50, 2, 5⟩, ⟨70, 3, 4⟩]) = 2 :=
  ⟨(C9_memory_reuse_is_optimal_interval_colouring [⟨100, 0, 3⟩, ⟨50, 2, 5⟩, ⟨70, 3, 4⟩] 0
      (by decide)).2.2.1, by decide⟩

theorem C14_load_store_block_rows_witness :
    ∃ sst', gemm_helpers.STORE_BLOCK 11 ⟨16, 64, 0, 32, fun _ => 0⟩
        (fun _ => List.replicate 16 7) ⟨fun _ => 0, []⟩ = some sst'
      ∧ sst'.stores = [] ++ (List.range 11).map (fun i =>
          (gemm_helpers.suffix i, 64 + i * 32 + (fun _ : Char => 0) (gemm_helpers.suffix i)))
      ∧ sst'.mem = (List.range 11).foldl (fun m i =>
          gemm_helpers.VSTORE 16 ((fun _ : Char => List.replicate 16 7) (gemm_helpers.suffix i)) m
            (64 + i * 32 + (fun _ : Char => 0) (gemm_helpers.suffix i))) (fun _ => 0) :=
  (C14_load_store_block_rows 11 (by decide) (by decide) ⟨16, 64, 0, 32, fun _ => 0⟩ (fun _ => 0)
    ⟨fun _ => [], []⟩ (fun _ => List.replicate 16 7) ⟨fun _ => 0, []⟩).2.1

theorem C15_setup_assembly_kernel_threads_witness :
    ∃ ws glue, AssemblyHelper.setup_assembly_kernel ⟨fun _ _ _ _ _ _ => some (3, 0)⟩ 8
        (some false) none [TensorInfo.sample .S32, TensorInfo.sample .S32, TensorInfo.sample .S32]
        0 1 2 none AssemblyHelper.AssemblyKernelGlue.new = .ok (true, ws, glue) :=
  (C15_setup_assembly_kernel_threads ⟨fun _ _ _ _ _ _ => some (3, 0)⟩ 8 (some false) none
    [TensorInfo.sample .S32, TensorInfo.sample .S32, TensorInfo.sample .S32] 0 1 2 none
    AssemblyHelper.AssemblyKernelGlue.new).2.2 ⟨8, 8, 3, 0, none, []⟩ rfl rfl (Or.inl rfl)

theorem C17_apply_2d_spatial_filter_row_major_witness :
    (validation.apply_2d_spatial_filter
        (⟨0, Int.add, Int.mul, id, id, id, id, id⟩ : validation.FilterArith Int Int Int Int Int)
        (fun _ c => (c.x + c.y * 3).toNat) ⟨1, 1, []⟩ ⟨[3, 3], [1, 2, 3, 4, 5, 6, 7, 8, 9]⟩
        ⟨[3, 3], List.replicate 9 0⟩ [3, 3] (fun _ => 1) 1 BorderMode.CONSTANT 0).2
      = List.range (shape_dim [3, 3] 0 * shape_dim [3, 3] 1) :=
  (C17_apply_2d_spatial_filter_row_major
    (⟨0, Int.add, Int.mul, id, id, id, id, id⟩ : validation.FilterArith Int Int Int Int Int)
    (fun _ c => (c.x + c.y * 3).toNat) ⟨1, 1, []⟩ ⟨[3, 3], [1, 2, 3, 4, 5, 6, 7, 8, 9]⟩
    ⟨[3, 3], List.replicate 9 0⟩ [3, 3] (fun _ => 1) 1 BorderMode.CONSTANT 0
    (by decide) (by decide)).1

theorem C18_tensor_elem_at_border_cases_witness :
    validation.tensor_elem_at (fun _ c => (c.x + c.y * 3).toNat)
        (⟨[3, 3], [1, 2, 3, 4, 5, 6, 7, 8, 9]⟩ : SimpleTensor Int) ⟨-1, 5, []⟩
        BorderMode.REPLICATE 0 = 7 :=
  ((C18_tensor_elem_at_border_cases (fun _ c => (c.x + c.y * 3).toNat)
    (⟨[3, 3], [1, 2, 3, 4, 5, 6, 7, 8, 9]⟩ : SimpleTensor Int) ⟨-1, 5, []⟩
    BorderMode.REPLICATE 0 (by decide) (by decide)).2.1 (by decide)).1 rfl

theorem C11_gemmlowp_matrix_multiply_core_witness :
    ∃ c, Reference.gemmlowp_matrix_multiply_core ⟨[2, 2], [1, 2, 3, 4]⟩
        ⟨[3, 2], [1, 0, 2, 0, 1, 3]⟩ 0 0 = some c
      ∧ c.shape = [3, 2] ∧ c.data[2 + 1 * 3]? = some 18 :=
  (C11_gemmlowp_matrix_multiply_core ⟨[2, 2], [1, 2, 3, 4]⟩ ⟨[3, 2], [1, 0, 2, 0, 1, 3]⟩ 0 0
    2 2 3 rfl rfl rfl rfl rfl).imp
    (fun _ h => ⟨h.1, h.2.1, h.2.2.2 1 (by decide) 2 (by decide)⟩)

theorem C12_gemmlowp_quantize_down_int32_to_uint8_scale_witness :
    (∃ dst, Reference.gemmlowp_quantize_down_int32_to_uint8_scale_bias
        ⟨[2, 2], [10, -300, 4000, 70]⟩ ⟨[2], [5, 6]⟩ 2 3 1 10 200 = some dst
      ∧ dst.shape = [2, 2] ∧ dst.data[0]? = some 20)
    ∧ Reference.gemmlowp_quantize_down_int32_to_uint8_scale
          ⟨[2, 2], [10, -300, 4000, 70]⟩ 2 3 1 10 200
        = Reference.gemmlowp_quantize_down_int32_to_uint8_scale_bias
          ⟨[2, 2], [10, -300, 4000, 70]⟩ ⟨[2], [0, 0]⟩ 2 3 1 10 200 :=
  ⟨(C12_gemmlowp_quantize_down_int32_to_uint8_scale ⟨[2, 2], [10, -300, 4000, 70]⟩
      ⟨[2], [5, 6]⟩ ⟨[2], [0, 0]⟩ 2 3 1 10 200 rfl (by decide) (by decide) (by decide)
      (by decide) (by decide)).1.imp
      (fun _ h => ⟨h.1, h.2.1, h.2.2 0 (by decide)⟩),
   (C12_gemmlowp_quantize_down_int32_to_uint8_scale ⟨[2, 2], [10, -300, 4000, 70]⟩
      ⟨[2], [5, 6]⟩ ⟨[2], [0, 0]⟩ 2 3 1 10 200 rfl (by decide) (by decide) (by decide)
      (by decide) (by decide)).2.2⟩

theorem C21_get_classifications_argmax_witness :
    ∃ labels, AlexNetNetwork.get_classifications
          ((fun _ => AlexNetNetwork.ieee_key : DataType → List Nat → Int) DataType.F32)
          ⟨.F32, [2, 2], [0, 0, 128, 63, 0, 0, 0, 64, 0, 0, 128, 191, 0, 0, 0, 0], 0, [4, 8]⟩
        = some labels
      ∧ labels.length = 2 :=
  (C21_get_classifications_argmax (fun _ => AlexNetNetwork.ieee_key)
    ⟨.F32, [2, 2], [0, 0, 128, 63, 0, 0, 0, 64, 0, 0, 128, 191, 0, 0, 0, 0], 0, [4, 8]⟩
    rfl (by decide) (by decide) rfl (by decide)).1.imp (fun _ h => ⟨h.1, h.2.1⟩)

theorem C22_get_target_from_device_cases_witness :
    CLHelpers.get_target_from_device 0
        ['M', 'a', 'l', 'i', '-', 'T', '6', '2', '8', Char.ofNat 0].length 0
        ['M', 'a', 'l', 'i', '-', 'T', '6', '2', '8', Char.ofNat 0] = .ok .T600 :=
  ((C22_get_target_from_device_cases ['M', 'a', 'l', 'i', '-', 'T', '6', '2', '8', Char.ofNat 0]
    (by decide)).2 0 (by decide) (fun q hq => absurd hq (Nat.not_lt_zero q))).2.1 rfl

theorem C24_clmemory_fields_consistent_witness :
    CLMemory.set_owned_region (fun _ => true) (CLMemory.create_raw (some 3)) (fun _ => 0) (some 7)
      = .ok ({ _region := some 7, _region_owned := some 7 },
          (UseCount.release (fun _ => 0) (CLMemory.create_raw (some 3))._region_owned).acquire
            (some 7)) :=
  (C24_clmemory_fields_consistent (fun _ => true) (CLMemory.create_raw (some 3)) (fun _ => 0)
    (some 7) (fun _ _ => rfl)).2.2.2.2.2.1

theorem C25_thread_workspaces_fit_and_are_disjoint_witness :
    ∃ p : Nat, NEGEMMLowpAArch64V8P4Kernel.run_workspace 100 64 (4195 * 4) 2 = some p
      ∧ 4096 ∣ p ∧ 64 + 2 * (100 + 4095) ≤ p ∧ p + 100 ≤ 64 + (2 + 1) * (100 + 4095) :=
  (C25_thread_workspaces_fit_and_are_disjoint 100 4 64 2 (4195 * 4) (by decide) (by decide)
    rfl).imp (fun _ h => ⟨h.1, h.2.1, h.2.2.1, h.2.2.2.1⟩)

theorem C26_skipping_the_clamp_is_sound_witness :
    10 ≤ NEGEMMLowpQuantizeDownInt32ToUint8ScaleByFixedPointKernel.finalize_quantization true
        (fun v s => fun i => v i / 2 ^ s.toNat) (fun v i => 1000 * (4 * (v : Int) + i) - 3000)
        1073741824 1 (NEON.vdupq_n_s32 5) (NEON.vdupq_n_u8 10) (NEON.vdupq_n_u8 200) 7
    ∧ NEGEMMLowpQuantizeDownInt32ToUint8ScaleByFixedPointKernel.finalize_quantization true
        (fun v s => fun i => v i / 2 ^ s.toNat) (fun v i => 1000 * (4 * (v : Int) + i) - 3000)
        1073741824 1 (NEON.vdupq_n_s32 5) (NEON.vdupq_n_u8 10) (NEON.vdupq_n_u8 200) 7 ≤ 200 :=
  (C26_skipping_the_clamp_is_sound (fun v s => fun i => v i / 2 ^ s.toNat)
    (fun v i => 1000 * (4 * (v : Int) + i) - 3000) 1073741824 1 (NEON.vdupq_n_s32 5)).2.1 10 200
    (by decide) (by decide) (by decide) 7

theorem C29_convolution3d_zero_padding_in_bounds_witness :
    Reference.convolution3d [1, 2, 3, 4, 5, 6, 7, 8, 9] [1, 1, 1, 1, 1, 1, 1, 1, 1] (100 : Int)
        0 0 (3 : Nat) (3 : Nat) (1 : Nat) (3 : Nat) (3 : Nat) = some 112 :=
  (C29_convolution3d_zero_padding_in_bounds [1, 2, 3, 4, 5, 6, 7, 8, 9]
    [1, 1, 1, 1, 1, 1, 1, 1, 1] (100 : Int) 3 3 1 3 3 0 0 (by decide) (by decide) rfl rfl).1

end ComputeLibrary
